import Mathlib

/-!
# wayland_plotter: sample store, line parser, range mapper, line framing and start-up

A shallow embedding of the two programs of the repository:

* `src/graph.c`          the plotter with an unbounded sample store;
* `src/rolling/graph.c`  the plotter with a rolling store of configurable capacity.

Modelling conventions.

* The C globals `csv_data`, `csv_data_size`, `csv_buffer_max_size` and the function-local
  `static int roll_count` are fields of an explicit state record that `csv_parse_line`
  transforms.  C `int`s are `Int`; the arithmetic on them is the mathematical one (the
  counters are not taken modulo `2^32`; a store that reaches `INT_MAX` elements is outside
  the model).
* `realloc` is an oracle: each call of `csv_parse_line` receives a boolean telling whether
  an allocation attempted during the call succeeds.
* `sscanf (line, "%lf,%lf", ...)` is the C library's; it is modelled after ISO C
  (7.21.6.2 for the directives, 7.22.1.3 for the shape of a floating constant).
* A `double` produced by the parser is an `lf_value` (an exact rational, an infinity or a
  NaN).  The arithmetic of `draw_graph` is given twice: over exact rationals, without
  rounding (`scan_extrema`, `compute_transform`, `pixel`), and in the arithmetic of
  `double` (`binary64`, `double_scan_extrema`, `double_compute_transform`, `double_pixel`),
  where every operation rounds to nearest and comparisons with a NaN are false.
* `atoi` is the C library's: `(int) strtol (nptr, NULL, 10)`, with `long` of 64 bits and
  `int` of 32.
* The `pthread_mutex_lock`/`unlock` pairs and the `fprintf`/`printf` diagnostics have no
  effect on the sequential state and are left out.
* What the environment does is an explicit input: the outcome of every `read` for
  `serial_read_line`, the event each turn of `serial_thread` meets, the options
  `getopt_long` yields for `parse_arguments`, the results of `open`, `tcgetattr`,
  `wayland_init`, `pthread_create` for `main`.  A loop that waits for the environment is
  run over a finite list of such inputs.
-/

namespace WaylandPlotter

/-! ## The `%lf` conversion of `sscanf` -/

/-- Value assigned by a `%lf` conversion. -/
inductive lf_value where
  | finite (q : ℚ)
  | infinity (negative : Bool)
  | nan
  deriving DecidableEq

/-- White-space characters of the C locale (`isspace`). -/
def isspace (c : Char) : Bool :=
  c = ' ' || (9 ≤ c.toNat && c.toNat ≤ 13)

/-- Decimal digits (`isdigit`). -/
def isdigit (c : Char) : Bool :=
  48 ≤ c.toNat && c.toNat ≤ 57

/-- Hexadecimal digits (`isxdigit`). -/
def isxdigit (c : Char) : Bool :=
  isdigit c || (97 ≤ c.toNat && c.toNat ≤ 102) || (65 ≤ c.toNat && c.toNat ≤ 70)

/-- Characters allowed in the `n-char-sequence` of `NAN(...)`: digits, letters, underscore. -/
def isnchar (c : Char) : Bool :=
  isdigit c || (97 ≤ c.toNat && c.toNat ≤ 122) || (65 ≤ c.toNat && c.toNat ≤ 90) || c = '_'

/-- Numeric value of a hexadecimal (or decimal) digit. -/
def xdigit_value (c : Char) : Nat :=
  if isdigit c then c.toNat - 48
  else if 97 ≤ c.toNat then c.toNat - 87
  else c.toNat - 55

/-- Value of a digit string in the given base, most significant digit first. -/
def digits_value (base : Nat) (ds : List Char) : Nat :=
  ds.foldl (fun acc c => base * acc + xdigit_value c) 0

/-- Optional sign: whether it is a minus, and the input after it. -/
def scan_sign (cs : List Char) : Bool × List Char :=
  match cs with
  | [] => (false, [])
  | c :: r => if c = '-' then (true, r) else if c = '+' then (false, r) else (false, c :: r)

/-- Optional radix point: the input after it, or `none` when the input does not start
with a point. -/
def scan_point (cs : List Char) : Option (List Char) :=
  match cs with
  | [] => none
  | c :: r => if c = '.' then some r else none

/-- Optional exponent part introduced by `marker` (`e` or `p`, either case): the exponent
and the input after it.  Once the marker is read the input item extends over it, so a
marker without digits is a matching failure (`none`). -/
def scan_exponent (marker : Char) (cs : List Char) : Option (Int × List Char) :=
  match cs with
  | [] => some (0, [])
  | c :: r =>
    if c.toLower = marker then
      let sr := scan_sign r
      let ds := sr.2.takeWhile isdigit
      if ds = [] then none
      else some (if sr.1 then -(digits_value 10 ds : Int) else (digits_value 10 ds : Int),
                 sr.2.dropWhile isdigit)
    else some (0, c :: r)

/-- Longest prefix of `word` that the input starts with, letters compared without case:
the number of characters matched and the input after them. -/
def match_word (word : List Char) (cs : List Char) : Nat × List Char :=
  match word, cs with
  | w :: ws, c :: r =>
    if c.toLower = w then ((match_word ws r).1 + 1, (match_word ws r).2) else (0, c :: r)
  | _, cs => (0, cs)

/-- Result of one `%lf` directive. -/
inductive lf_outcome where
  | input_failure
  | matching_failure
  | converted (v : lf_value) (rest : List Char)
  deriving DecidableEq

/-- Sign applied to a magnitude. -/
def apply_sign (negative : Bool) (q : ℚ) : ℚ :=
  if negative then -q else q

/-- Mantissa and exponent of a decimal or hexadecimal floating constant without its sign
and without the `0x` prefix: `xdigits [. xdigits] [marker [sign] digits]` with at least one
mantissa digit.  `base` is 10 or 16, `radix` the base of the exponent (10 or 2), `shift`
the number of exponent units per fractional digit (1 or 4). -/
def scan_mantissa (negative : Bool) (base radix : Nat) (shift : Int) (digit : Char → Bool)
    (marker : Char) (cs : List Char) : lf_outcome :=
  let ip := cs.takeWhile digit
  let r1 := cs.dropWhile digit
  let fp := match scan_point r1 with
    | some r => r.takeWhile digit
    | none => []
  let r2 := match scan_point r1 with
    | some r => r.dropWhile digit
    | none => r1
  if ip = [] ∧ fp = [] then lf_outcome.matching_failure
  else match scan_exponent marker r2 with
    | none => lf_outcome.matching_failure
    | some (e, rest) =>
      lf_outcome.converted
        (lf_value.finite (apply_sign negative
          ((digits_value base (ip ++ fp) : ℚ) * (radix : ℚ) ^ (e - shift * (fp.length : Int)))))
        rest

/-- The words `INF` and `INFINITY`, letters compared without case.  After `inf` the item
extends over as much of `inity` as the input holds, and must then hold all of it. -/
def scan_inf (negative : Bool) (cs : List Char) : lf_outcome :=
  let m := match_word ['i', 'n', 'f'] cs
  if m.1 < 3 then lf_outcome.matching_failure
  else
    let t := match_word ['i', 'n', 'i', 't', 'y'] m.2
    if t.1 = 0 then lf_outcome.converted (lf_value.infinity negative) m.2
    else if t.1 = 5 then lf_outcome.converted (lf_value.infinity negative) t.2
    else lf_outcome.matching_failure

/-- The words `NAN` and `NAN(n-char-sequence)`, letters compared without case. -/
def scan_nan (cs : List Char) : lf_outcome :=
  let m := match_word ['n', 'a', 'n'] cs
  if m.1 < 3 then lf_outcome.matching_failure
  else match m.2 with
    | [] => lf_outcome.converted lf_value.nan []
    | c :: r =>
      if c = '(' then
        match r.dropWhile isnchar with
        | [] => lf_outcome.matching_failure
        | d :: r2 => if d = ')' then lf_outcome.converted lf_value.nan r2
                     else lf_outcome.matching_failure
      else lf_outcome.converted lf_value.nan (c :: r)

/-- Does the input start with `0x` or `0X`? -/
def starts_with_0x (cs : List Char) : Bool :=
  match cs with
  | a :: b :: _ => a = '0' && b.toLower = 'x'
  | _ => false

/-- The `%lf` directive: skip white space, then read the longest input item that is a
prefix of a floating constant (optional sign, then a decimal constant, a hexadecimal
constant, `INF`/`INFINITY` or `NAN`/`NAN(...)`), and convert it if it is a whole one. -/
def scan_lf (input : List Char) : lf_outcome :=
  match input.dropWhile isspace with
  | [] => lf_outcome.input_failure
  | c :: r =>
    let sr := scan_sign (c :: r)
    match sr.2 with
    | [] => lf_outcome.matching_failure
    | d :: r2 =>
      if d.toLower = 'i' then scan_inf sr.1 (d :: r2)
      else if d.toLower = 'n' then scan_nan (d :: r2)
      else if starts_with_0x (d :: r2) then scan_mantissa sr.1 16 2 4 isxdigit 'p' r2.tail
      else scan_mantissa sr.1 10 10 1 isdigit 'e' (d :: r2)

/-- A struct to store the csv data (`csv_data_t`); `α` is the representation of `double`. -/
structure csv_data_t (α : Type) where
  x : α
  y : α
  deriving DecidableEq

/-- Outcome of `sscanf (line, "%lf,%lf", &data.x, &data.y)`: the returned count together
with the values assigned so far. -/
inductive sscanf_result where
  | eof
  | assigned_none
  | assigned_one (x : lf_value)
  | assigned_two (x y : lf_value)
  deriving DecidableEq

/-- The value `sscanf` returns (`EOF` is `-1`). -/
def sscanf_result.count : sscanf_result → Int
  | sscanf_result.eof => -1
  | sscanf_result.assigned_none => 0
  | sscanf_result.assigned_one _ => 1
  | sscanf_result.assigned_two _ _ => 2

/-- The call `sscanf (line, "%lf,%lf", &data.x, &data.y)`: a `%lf` directive, the ordinary
character `,` (matched without skipping white space), a second `%lf` directive.  What
follows the second number is not looked at. -/
def sscanf_lf_comma_lf (line : List Char) : sscanf_result :=
  match scan_lf line with
  | lf_outcome.input_failure => sscanf_result.eof
  | lf_outcome.matching_failure => sscanf_result.assigned_none
  | lf_outcome.converted x rest =>
    match rest with
    | [] => sscanf_result.assigned_one x
    | c :: r =>
      if c = ',' then
        match scan_lf r with
        | lf_outcome.converted y _ => sscanf_result.assigned_two x y
        | _ => sscanf_result.assigned_one x
      else sscanf_result.assigned_one x

/-- Text of an unsigned decimal number: the digits `ip` of the integer part, followed, when
there is a fraction, by a point and the digits `fp` of the fraction. -/
def decimal_text (ip : List Char) (fp : Option (List Char)) : List Char :=
  match fp with
  | none => ip
  | some f => ip ++ '.' :: f

/-- The number that `decimal_text ip fp` stands for. -/
def decimal_value (ip : List Char) (fp : Option (List Char)) : ℚ :=
  match fp with
  | none => (digits_value 10 ip : ℚ)
  | some f => (digits_value 10 (ip ++ f) : ℚ) / (10 : ℚ) ^ f.length

/-! ## The sample store -/

/-- A parsed sample, as stored by `csv_parse_line`. -/
abbrev sample := csv_data_t lf_value

/-- The sample a line parses to: `some` exactly when `sscanf` returns 2. -/
def parse_sample (line : List Char) : Option sample :=
  match sscanf_lf_comma_lf line with
  | sscanf_result.assigned_two x y => some ⟨x, y⟩
  | _ => none

/-- Globals of `src/graph.c` that `csv_parse_line` touches: the array `csv_data` (its
allocated elements, in index order) and `csv_data_size`. -/
structure store_state where
  csv_data : List sample
  csv_data_size : Int
  deriving DecidableEq

/-- Globals of `src/rolling/graph.c` that `csv_parse_line` touches: `csv_data`,
`csv_data_size`, `csv_buffer_max_size` and the function-local `static int roll_count`. -/
structure rolling_state where
  csv_data : List sample
  csv_data_size : Int
  csv_buffer_max_size : Int
  roll_count : Int
  deriving DecidableEq

/-- Start-up values of the globals of `src/graph.c`: `csv_data = NULL`, `csv_data_size = 0`. -/
def store_state.initial : store_state :=
  { csv_data := [], csv_data_size := 0 }

/-- Start-up values of the globals of `src/rolling/graph.c` once `parse_arguments` has set
`csv_buffer_max_size`. -/
def rolling_state.initial (capacity : Int) : rolling_state :=
  { csv_data := [], csv_data_size := 0, csv_buffer_max_size := capacity, roll_count := 0 }

/-- The block `realloc (csv_data, sizeof (csv_data_t) * (n + 1))` returns on success, after
the assignment `csv_data[n] = data`: the first `n` elements are kept, element `n` is `data`. -/
def realloc_store (csv_data : List sample) (n : Int) (data : sample) : List sample :=
  csv_data.take n.toNat ++ [data]

/-- The call `memmove (&csv_data[0], &csv_data[1], sizeof (csv_data_t) * n)`: elements
`1 .. n` are copied onto `0 .. n-1`, the elements from index `n` on are left as they are. -/
def memmove_left (csv_data : List sample) (n : Int) : List sample :=
  (csv_data.drop 1).take n.toNat ++ csv_data.drop n.toNat

/-- Function `csv_parse_line` of `src/graph.c`: the returned `int` and the new globals.
`alloc_ok` tells whether `realloc` succeeds.  The test `sscanf (...) != 2` is the match on
`assigned_two`, the only outcome whose count is 2. -/
def csv_parse_line (alloc_ok : Bool) (line : List Char) (s : store_state) :
    Int × store_state :=
  if line.length = 0 then (0, s)
  else match sscanf_lf_comma_lf line with
    | sscanf_result.assigned_two x y =>
      if alloc_ok then
        (0, { csv_data := realloc_store s.csv_data s.csv_data_size ⟨x, y⟩,
              csv_data_size := s.csv_data_size + 1 })
      else (-1, s)
    | _ => (-1, s)

/-- Function `csv_parse_line` of `src/rolling/graph.c`: the returned `int` and the new
globals.  `alloc_ok` tells whether `realloc` succeeds (it is only called while the buffer is
not full).  On the full-buffer path with `csv_data_size < 1` the C code is undefined
(`memmove` of `-1` elements, store to `csv_data[-1]`); the properties below are stated for
a capacity of at least 1, where that path is only entered with `csv_data_size ≥ 1`. -/
def rolling_csv_parse_line (alloc_ok : Bool) (line : List Char) (s : rolling_state) :
    Int × rolling_state :=
  if line.length = 0 then (0, s)
  else match sscanf_lf_comma_lf line with
    | sscanf_result.assigned_two x y =>
      if s.csv_data_size ≥ s.csv_buffer_max_size then
        (0, { s with
              csv_data := (memmove_left s.csv_data (s.csv_data_size - 1)).set
                  (s.csv_data_size - 1).toNat ⟨x, y⟩,
              roll_count := s.roll_count + 1 })
      else if alloc_ok then
        (0, { s with
              csv_data := realloc_store s.csv_data s.csv_data_size ⟨x, y⟩,
              csv_data_size := s.csv_data_size + 1 })
      else (-1, s)
    | _ => (-1, s)

/-- Successive calls of `csv_parse_line` (`src/graph.c`), one per line, each with its own
allocation outcome. -/
def run_lines (calls : List (Bool × List Char)) (s : store_state) : store_state :=
  calls.foldl (fun st c => (csv_parse_line c.1 c.2 st).2) s

/-- Successive calls of `csv_parse_line` (`src/rolling/graph.c`), one per line, each with its
own allocation outcome. -/
def rolling_run_lines (calls : List (Bool × List Char)) (s : rolling_state) : rolling_state :=
  calls.foldl (fun st c => (rolling_csv_parse_line c.1 c.2 st).2) s

/-- The values returned by successive calls of `csv_parse_line` (`src/graph.c`), one per
line. -/
def run_lines_returns (calls : List (Bool × List Char)) (s : store_state) : List Int :=
  match calls with
  | [] => []
  | c :: rest =>
    (csv_parse_line c.1 c.2 s).1 :: run_lines_returns rest (csv_parse_line c.1 c.2 s).2

/-- The values returned by successive calls of `csv_parse_line` (`src/rolling/graph.c`), one
per line. -/
def rolling_run_lines_returns (calls : List (Bool × List Char)) (s : rolling_state) :
    List Int :=
  match calls with
  | [] => []
  | c :: rest =>
    (rolling_csv_parse_line c.1 c.2 s).1
      :: rolling_run_lines_returns rest (rolling_csv_parse_line c.1 c.2 s).2

/-- A sequence of lines fed with every allocation succeeding. -/
def no_alloc_failure (lines : List (List Char)) : List (Bool × List Char) :=
  lines.map (fun l => (true, l))

/-- The array and its recorded size agree: `csv_data` holds `csv_data_size` elements. -/
def store_state.consistent (s : store_state) : Prop :=
  (s.csv_data.length : Int) = s.csv_data_size

/-- The array and its recorded size agree: `csv_data` holds `csv_data_size` elements. -/
def rolling_state.consistent (s : rolling_state) : Prop :=
  (s.csv_data.length : Int) = s.csv_data_size

/-! ## The range mapper of `draw_graph`

This section takes the arithmetic of `draw_graph` exactly: coordinates are rational numbers
and no operation rounds.  The same steps in the arithmetic of the C type `double`, where
every operation rounds and a coordinate may be an infinity or a NaN, are given further down
(`double_scan_extrema`, `double_avoid_division_by_zero`, `double_compute_transform`,
`double_pixel`). -/

/-- A sample whose coordinates are exact rationals. -/
abbrev point := csv_data_t ℚ

/-- Canvas geometry: `GRAPH_WIDTH`, `GRAPH_HEIGHT`, `GRAPH_MARGIN` in `src/graph.c`,
`config.graph_width`, `config.graph_height`, `config.graph_margin` in `src/rolling/graph.c`. -/
structure geometry where
  graph_width : Int
  graph_height : Int
  graph_margin : Int
  deriving DecidableEq

/-- The geometry compiled into `src/graph.c`, and the default one of `src/rolling/graph.c`. -/
def default_geometry : geometry :=
  { graph_width := 800, graph_height := 600, graph_margin := 50 }

/-- Locals `min_x`, `max_x`, `min_y`, `max_y` of `draw_graph`. -/
structure extrema where
  min_x : ℚ
  max_x : ℚ
  min_y : ℚ
  max_y : ℚ
  deriving DecidableEq

/-- Initialisation of the four locals from `csv_data[0]`. -/
def extrema_init (d : point) : extrema :=
  { min_x := d.x, max_x := d.x, min_y := d.y, max_y := d.y }

/-- Body of the scan loop for one element `csv_data[i]`. -/
def extrema_step (e : extrema) (d : point) : extrema :=
  { min_x := if d.x < e.min_x then d.x else e.min_x,
    max_x := if d.x > e.max_x then d.x else e.max_x,
    min_y := if d.y < e.min_y then d.y else e.min_y,
    max_y := if d.y > e.max_y then d.y else e.max_y }

/-- The scan `for (int i = 1; i < csv_data_size; i++)` after the initialisation from
`csv_data[0]`; `rest` are the elements from index 1 on. -/
def scan_extrema (d0 : point) (rest : List point) : extrema :=
  rest.foldl extrema_step (extrema_init d0)

/-- The two statements under "Avoid division by zero". -/
def avoid_division_by_zero (e : extrema) : extrema :=
  { e with
    max_x := if e.max_x = e.min_x then e.min_x + 1 else e.max_x,
    max_y := if e.max_y = e.min_y then e.min_y + 1 else e.max_y }

/-- Locals `scale_x`, `offset_x`, `scale_y`, `offset_y` of `draw_graph`. -/
structure transform where
  scale_x : ℚ
  offset_x : ℚ
  scale_y : ℚ
  offset_y : ℚ
  deriving DecidableEq

/-- The scale and offset factors; the differences of the geometry are `int` differences
converted to `double`. -/
def compute_transform (g : geometry) (e : extrema) : transform :=
  { scale_x := ((g.graph_width - 2 * g.graph_margin : Int) : ℚ) / (e.max_x - e.min_x),
    offset_x := (g.graph_margin : ℚ)
      - e.min_x * (((g.graph_width - 2 * g.graph_margin : Int) : ℚ) / (e.max_x - e.min_x)),
    scale_y := ((g.graph_height - 2 * g.graph_margin : Int) : ℚ) / (e.max_y - e.min_y),
    offset_y := ((g.graph_height - g.graph_margin : Int) : ℚ)
      + e.min_y * (((g.graph_height - 2 * g.graph_margin : Int) : ℚ) / (e.max_y - e.min_y)) }

/-- The pixel a sample is drawn at: the arguments of `cairo_move_to` / `cairo_line_to`. -/
def pixel (t : transform) (d : point) : ℚ × ℚ :=
  (d.x * t.scale_x + t.offset_x, t.offset_y - d.y * t.scale_y)

/-- The transform `draw_graph` uses for a non-empty array: scan, adjustment, factors. -/
def graph_transform (g : geometry) (d0 : point) (rest : List point) : transform :=
  compute_transform g (avoid_division_by_zero (scan_extrema d0 rest))

/-- Calls made on the cairo context. -/
inductive draw_command where
  | move_to (px py : ℚ)
  | line_to (px py : ℚ)
  | stroke
  | show_text (text : String)
  deriving DecidableEq

/-- The part of `draw_graph` between `pthread_mutex_lock` and `pthread_mutex_unlock`, as the
sequence of path and text calls it makes: the polyline of the samples when there are any,
the waiting message otherwise (`/` on `int` truncates).  Colours, fonts and line widths are
left out, and so are the texts that only `src/rolling/graph.c` draws: the status line and
the axis labels after the stroke, the buffer-size line under the waiting message (they are
added by `rolling_draw_graph`). -/
def draw_graph (g : geometry) (csv_data : List point) : List draw_command :=
  match csv_data with
  | d0 :: rest =>
    draw_command.move_to (pixel (graph_transform g d0 rest) d0).1
        (pixel (graph_transform g d0 rest) d0).2
      :: rest.map (fun d => draw_command.line_to (pixel (graph_transform g d0 rest) d).1
          (pixel (graph_transform g d0 rest) d).2)
      ++ [draw_command.stroke]
  | [] =>
    [draw_command.move_to ((Int.tdiv g.graph_width 2 - 80 : Int) : ℚ)
       ((Int.tdiv g.graph_height 2 : Int) : ℚ),
     draw_command.show_text "Waiting for data..."]

/-- Function `draw_graph` of `src/graph.c` on the globals `csv_data` and `csv_data_size`:
the test `csv_data_size > 0`, then the polyline of the elements `0 .. csv_data_size - 1`
or the waiting message.  (With `csv_data_size > 0` and an array that holds no element the
C code reads through a null pointer; the model draws the waiting message there.) -/
def draw_graph_store (g : geometry) (csv_data : List point) (csv_data_size : Int) :
    List draw_command :=
  if csv_data_size > 0 then draw_graph g (csv_data.take csv_data_size.toNat)
  else draw_graph g []

/-- The conversions of `snprintf` that `src/rolling/graph.c` uses for its texts: `%d` and
`%.2f` (with the cut at the size of the text buffer). -/
structure text_format where
  int_text : Int → String
  double_text : ℚ → String

/-- The texts `draw_graph` of `src/rolling/graph.c` draws after the stroke: the status line
and the four axis labels, each after a `cairo_move_to` to its place.  The label of the x
and y maximum shows the value after the adjustment against a division by zero. -/
def rolling_texts (fmt : text_format) (g : geometry) (csv_buffer_max_size : Int)
    (csv_data_size : Int) (e : extrema) : List draw_command :=
  [draw_command.move_to 10 20,
   draw_command.show_text
     ("Points: " ++ fmt.int_text csv_data_size ++ " / " ++ fmt.int_text csv_buffer_max_size
       ++ " " ++ (if csv_data_size ≥ csv_buffer_max_size then "(ROLLING)" else "")),
   draw_command.move_to (g.graph_margin : ℚ)
     ((g.graph_height - g.graph_margin + 20 : Int) : ℚ),
   draw_command.show_text (fmt.double_text e.min_x),
   draw_command.move_to ((g.graph_width - g.graph_margin - 40 : Int) : ℚ)
     ((g.graph_height - g.graph_margin + 20 : Int) : ℚ),
   draw_command.show_text (fmt.double_text e.max_x),
   draw_command.move_to 5 ((g.graph_height - g.graph_margin : Int) : ℚ),
   draw_command.show_text (fmt.double_text e.min_y),
   draw_command.move_to 5 (g.graph_margin : ℚ),
   draw_command.show_text (fmt.double_text e.max_y)]

/-- Function `draw_graph` of `src/rolling/graph.c` on the globals `csv_data`,
`csv_data_size` and `csv_buffer_max_size`: the polyline as in `src/graph.c` followed by the
status line and the axis labels, or the waiting message followed by the buffer-size line.
(With `csv_data_size > 0` and an array that holds no element the C code reads through a
null pointer; the model draws nothing there.) -/
def rolling_draw_graph (fmt : text_format) (g : geometry) (csv_buffer_max_size : Int)
    (csv_data : List point) (csv_data_size : Int) : List draw_command :=
  if csv_data_size > 0 then
    match csv_data.take csv_data_size.toNat with
    | d0 :: rest =>
      draw_graph g (d0 :: rest)
        ++ rolling_texts fmt g csv_buffer_max_size csv_data_size
            (avoid_division_by_zero (scan_extrema d0 rest))
    | [] => []
  else
    [draw_command.move_to ((Int.tdiv g.graph_width 2 - 80 : Int) : ℚ)
       ((Int.tdiv g.graph_height 2 : Int) : ℚ),
     draw_command.show_text "Waiting for data...",
     draw_command.move_to ((Int.tdiv g.graph_width 2 - 100 : Int) : ℚ)
       ((Int.tdiv g.graph_height 2 + 30 : Int) : ℚ),
     draw_command.show_text
       ("Buffer size: " ++ fmt.int_text csv_buffer_max_size ++ " points")]

/-! ## The ingest loop -/

/-- What one turn of the loop of `serial_thread` meets: `select` failing, `select` timing
out, or data being available, in which case `serial_read_line` fills `buffer` with a line. -/
inductive ingest_event where
  | select_error
  | timeout
  | line (buffer : List Char)
  deriving DecidableEq

/-- One turn of the `while (1)` loop of `serial_thread` in `src/rolling/graph.c`: whether
the loop goes on (`false` for `break`), and the new globals. -/
def rolling_serial_thread_turn (alloc_ok : Bool) (ev : ingest_event) (s : rolling_state) :
    Bool × rolling_state :=
  match ev with
  | ingest_event.select_error => (false, s)
  | ingest_event.timeout => (true, s)
  | ingest_event.line buffer =>
    if (buffer.length : Int) > 0 then (true, (rolling_csv_parse_line alloc_ok buffer s).2)
    else (true, s)

/-- One turn of the `while (1)` loop of `serial_thread` in `src/graph.c`: whether the loop
goes on (`false` for `break`), and the new globals. -/
def serial_thread_turn (alloc_ok : Bool) (ev : ingest_event) (s : store_state) :
    Bool × store_state :=
  match ev with
  | ingest_event.select_error => (false, s)
  | ingest_event.timeout => (true, s)
  | ingest_event.line buffer =>
    if (buffer.length : Int) > 0 then (true, (csv_parse_line alloc_ok buffer s).2)
    else (true, s)

/-- The loop `while (1)` of `serial_thread` in `src/rolling/graph.c` over the events of its
successive turns, each with the outcome of the allocation it may attempt: whether the
thread has returned (it has left the loop by `break`), and the globals at that point, or
after the last event when the loop is still running. -/
def rolling_serial_thread (events : List (Bool × ingest_event)) (s : rolling_state) :
    Bool × rolling_state :=
  match events with
  | [] => (false, s)
  | e :: rest =>
    if (rolling_serial_thread_turn e.1 e.2 s).1 then
      rolling_serial_thread rest (rolling_serial_thread_turn e.1 e.2 s).2
    else (true, (rolling_serial_thread_turn e.1 e.2 s).2)

/-- The loop `while (1)` of `serial_thread` in `src/graph.c` over the events of its
successive turns: whether the thread has returned, and the globals at that point, or after
the last event when the loop is still running. -/
def serial_thread (events : List (Bool × ingest_event)) (s : store_state) :
    Bool × store_state :=
  match events with
  | [] => (false, s)
  | e :: rest =>
    if (serial_thread_turn e.1 e.2 s).1 then
      serial_thread rest (serial_thread_turn e.1 e.2 s).2
    else (true, (serial_thread_turn e.1 e.2 s).2)

/-- The calls of `csv_parse_line` a sequence of events leads to when the loop runs through
all of it: one per `line` event, with the buffer as argument and the allocation outcome of
that turn.  (A turn whose buffer is empty makes no call; `csv_parse_line` on the empty line
changes nothing, so listing it makes no difference to the globals.) -/
def event_calls (events : List (Bool × ingest_event)) : List (Bool × List Char) :=
  events.filterMap (fun e =>
    match e.2 with
    | ingest_event.line buffer => some (e.1, buffer)
    | _ => none)

/-! ## Line framing -/

/-- The buffer size `SERIAL_BUFFER_SIZE` of both programs. -/
def SERIAL_BUFFER_SIZE : Int := 256

/-- What `serial_read_line` leaves behind: the bytes it has stored in `buffer`, from
index 0 on, the returned `index`, and the outcomes of the reads not yet made. -/
structure read_line_result where
  buffer : List Char
  index : Int
  unread : List (Option Char)
  deriving DecidableEq

/-- The loop `while (index < size - 1)` of `serial_read_line`.  Every element of `reads` is
the outcome of one `read (serial_fd, &c, 1)`: `some c` when it returns 1 and delivers `c`,
`none` when it returns anything else, in which case the loop just tries again.  The result
is `none` when the outcomes run out while the loop is still waiting for a byte. -/
def serial_read_line_loop (size : Int) (buffer : List Char) (index : Int)
    (reads : List (Option Char)) : Option read_line_result :=
  match reads with
  | [] =>
    if index < size - 1 then none
    else some { buffer := buffer, index := index, unread := [] }
  | r :: rest =>
    if index < size - 1 then
      match r with
      | none => serial_read_line_loop size buffer index rest
      | some c =>
        if c = '\n' ∨ c = '\r' then some { buffer := buffer, index := index, unread := rest }
        else serial_read_line_loop size (buffer ++ [c]) (index + 1) rest
    else some { buffer := buffer, index := index, unread := r :: rest }

/-- Function `serial_read_line (buffer, size)` of both programs: the loop, then the store
of the terminating NUL to `buffer[index]`. -/
def serial_read_line (size : Int) (reads : List (Option Char)) : Option read_line_result :=
  match serial_read_line_loop size [] 0 reads with
  | none => none
  | some r => some { r with buffer := r.buffer ++ [Char.ofNat 0] }

/-! ## Configuration and start-up -/

/-- Smallest value of the C type `long` on the programs' platform (LP64). -/
def LONG_MIN : Int := -(2 : Int) ^ 63

/-- Largest value of the C type `long` on the programs' platform (LP64). -/
def LONG_MAX : Int := (2 : Int) ^ 63 - 1

/-- Function `strtol (nptr, NULL, 10)`: the decimal value of the longest run of digits after
white space and an optional sign, held to the range of `long` (the C library returns
`LONG_MIN` or `LONG_MAX` when the value lies outside it). -/
def strtol (nptr : List Char) : Int :=
  if (scan_sign (nptr.dropWhile isspace)).1 then
    max LONG_MIN
      (-(digits_value 10 ((scan_sign (nptr.dropWhile isspace)).2.takeWhile isdigit) : Int))
  else
    min LONG_MAX
      (digits_value 10 ((scan_sign (nptr.dropWhile isspace)).2.takeWhile isdigit) : Int)

/-- Conversion of a `long` to the 32-bit `int`: reduction modulo `2^32` into
`[-2^31, 2^31 - 1]`. -/
def long_to_int (v : Int) : Int := (v + 2 ^ 31) % 2 ^ 32 - 2 ^ 31

/-- Function `atoi` as the C library computes it: `(int) strtol (nptr, NULL, 10)`.  ISO C
leaves the result undefined when the number does not fit an `int`; the library the programs
are linked with reduces it to 32 bits, so that `"4294967306"` yields 10. -/
def atoi (nptr : List Char) : Int := long_to_int (strtol nptr)

/-- The type `speed_t` of `<termios.h>`. -/
abbrev speed_t := Nat

/-- The speed constant `B9600` (octal `0000015` on Linux). -/
def B9600 : speed_t := 13

/-- The speed constant `B19200` (octal `0000016` on Linux). -/
def B19200 : speed_t := 14

/-- The speed constant `B38400` (octal `0000017` on Linux). -/
def B38400 : speed_t := 15

/-- The speed constant `B57600` (octal `0010001` on Linux). -/
def B57600 : speed_t := 4097

/-- The speed constant `B115200` (octal `0010002` on Linux). -/
def B115200 : speed_t := 4098

/-- Function `parse_baud_rate`: the five supported rates, and `B9600` after the message
"Unsupported baud rate: ..., using default 9600" for any other value. -/
def parse_baud_rate (baud_str : List Char) : speed_t :=
  if atoi baud_str = 9600 then B9600
  else if atoi baud_str = 19200 then B19200
  else if atoi baud_str = 38400 then B38400
  else if atoi baud_str = 57600 then B57600
  else if atoi baud_str = 115200 then B115200
  else B9600

/-- Configuration structure `config_t`; `serial_port` is `none` for `NULL`. -/
structure config_t where
  serial_port : Option (List Char)
  baud_rate : speed_t
  graph_width : Int
  graph_height : Int
  graph_margin : Int
  csv_buffer_size : Int
  deriving DecidableEq

/-- The initial value of the global `config` of `src/rolling/graph.c`. -/
def config_t.default : config_t :=
  { serial_port := none, baud_rate := B9600, graph_width := 800, graph_height := 600,
    graph_margin := 50, csv_buffer_size := 1000 }

/-- The initial value `DEFAULT_CSV_BUFFER_SIZE` of the global `csv_buffer_max_size`. -/
def DEFAULT_CSV_BUFFER_SIZE : Int := 1000

/-- The path `DEFAULT_SERIAL_PORT`. -/
def DEFAULT_SERIAL_PORT : List Char := "/dev/ttyS0".toList

/-- What `getopt_long` hands to the `switch` of `parse_arguments` in one turn of its loop:
the option letter with its argument `optarg`; `unrecognised` stands for every value that
reaches the `default` label (`?` for an unknown option or a missing argument). -/
inductive cli_option where
  | port (optarg : List Char)
  | baud (optarg : List Char)
  | buffer_size (optarg : List Char)
  | width (optarg : List Char)
  | height (optarg : List Char)
  | margin (optarg : List Char)
  | help
  | unrecognised
  deriving DecidableEq

/-- How `parse_arguments` ends: it returns a value, leaving the globals `config` and
`csv_buffer_max_size` as given, or it ends the process through `exit`. -/
inductive parse_outcome where
  | returned (code : Int) (config : config_t) (csv_buffer_max_size : Int)
  | exited (status : Int)
  deriving DecidableEq

/-- Function `parse_arguments` of `src/rolling/graph.c`, started with the globals `config`
and `csv_buffer_max_size`, over the options `getopt_long` yields in command-line order. -/
def parse_arguments (config : config_t) (csv_buffer_max_size : Int)
    (options : List cli_option) : parse_outcome :=
  match options with
  | [] =>
    parse_outcome.returned 0
      { config with
        serial_port := match config.serial_port with
          | none => some DEFAULT_SERIAL_PORT
          | some p => some p }
      config.csv_buffer_size
  | cli_option.port optarg :: rest =>
    parse_arguments { config with serial_port := some optarg } csv_buffer_max_size rest
  | cli_option.baud optarg :: rest =>
    parse_arguments { config with baud_rate := parse_baud_rate optarg } csv_buffer_max_size rest
  | cli_option.buffer_size optarg :: rest =>
    if atoi optarg < 10 then
      parse_outcome.returned (-1) { config with csv_buffer_size := atoi optarg }
        csv_buffer_max_size
    else if atoi optarg > 100000 then
      parse_outcome.returned (-1) { config with csv_buffer_size := atoi optarg }
        csv_buffer_max_size
    else parse_arguments { config with csv_buffer_size := atoi optarg } csv_buffer_max_size rest
  | cli_option.width optarg :: rest =>
    if atoi optarg < 200 ∨ atoi optarg > 4096 then
      parse_outcome.returned (-1) { config with graph_width := atoi optarg }
        csv_buffer_max_size
    else parse_arguments { config with graph_width := atoi optarg } csv_buffer_max_size rest
  | cli_option.height optarg :: rest =>
    if atoi optarg < 200 ∨ atoi optarg > 4096 then
      parse_outcome.returned (-1) { config with graph_height := atoi optarg }
        csv_buffer_max_size
    else parse_arguments { config with graph_height := atoi optarg } csv_buffer_max_size rest
  | cli_option.margin optarg :: rest =>
    if atoi optarg < 10 ∨ atoi optarg > 200 then
      parse_outcome.returned (-1) { config with graph_margin := atoi optarg }
        csv_buffer_max_size
    else parse_arguments { config with graph_margin := atoi optarg } csv_buffer_max_size rest
  | cli_option.help :: _ => parse_outcome.exited 0
  | cli_option.unrecognised :: _ => parse_outcome.returned (-1) config csv_buffer_max_size

/-- An option whose argument `atoi` converts to an `int` outside the range
`parse_arguments` admits for it: `[10,100000]` for the buffer size, `[200,4096]` for width
and height, `[10,200]` for the margin. -/
def cli_option.out_of_range (o : cli_option) : Prop :=
  match o with
  | cli_option.buffer_size optarg => atoi optarg < 10 ∨ atoi optarg > 100000
  | cli_option.width optarg => atoi optarg < 200 ∨ atoi optarg > 4096
  | cli_option.height optarg => atoi optarg < 200 ∨ atoi optarg > 4096
  | cli_option.margin optarg => atoi optarg < 10 ∨ atoi optarg > 200
  | _ => False

/-- The four numeric fields of a configuration lie in their ranges. -/
def config_t.in_range (c : config_t) : Prop :=
  (10 ≤ c.csv_buffer_size ∧ c.csv_buffer_size ≤ 100000) ∧
  (200 ≤ c.graph_width ∧ c.graph_width ≤ 4096) ∧
  (200 ≤ c.graph_height ∧ c.graph_height ≤ 4096) ∧
  (10 ≤ c.graph_margin ∧ c.graph_margin ≤ 200)

/-- What the operating system and the compositor answer during one run of `main`: the
value returned by `open`, whether `tcgetattr`, `cfsetispeed`, `cfsetospeed` and `tcsetattr`
succeed, the values returned by `wayland_init` and `pthread_create`, and how many times
`wl_display_dispatch` returns something other than -1 before the window is closed. -/
structure environment where
  open_result : Int
  tcgetattr_ok : Bool
  cfsetispeed_ok : Bool
  cfsetospeed_ok : Bool
  tcsetattr_ok : Bool
  wayland_init_result : Int
  pthread_create_result : Int
  frames : Nat
  deriving DecidableEq

/-- Function `serial_init` of both programs: the returned value and the global `serial_fd`
it leaves. -/
def serial_init (env : environment) : Int × Int :=
  if env.open_result = -1 then (-1, env.open_result)
  else if env.tcgetattr_ok = false then (-1, env.open_result)
  else if env.cfsetispeed_ok = false then (-1, env.open_result)
  else if env.cfsetospeed_ok = false then (-1, env.open_result)
  else if env.tcsetattr_ok = false then (-1, env.open_result)
  else (0, env.open_result)

/-- The calls `main` makes that matter to start-up and shut-down. -/
inductive main_call where
  | call_parse_arguments
  | call_serial_init
  | call_wayland_init
  | call_pthread_create
  | call_update_surface
  | call_pthread_cancel
  | call_pthread_join
  | call_wayland_cleanup
  | call_close
  deriving DecidableEq

/-- The part of `main` that both programs share, from the call of `serial_init` on: the
value `main` returns and the calls made, in order. -/
def main_after_configuration (env : environment) : Int × List main_call :=
  if env.wayland_init_result = -1 then
    (-1, [main_call.call_serial_init, main_call.call_wayland_init])
  else if (serial_init env).2 ≥ 0 then
    if env.pthread_create_result ≠ 0 then
      (-1, [main_call.call_serial_init, main_call.call_wayland_init,
            main_call.call_pthread_create])
    else
      (0, [main_call.call_serial_init, main_call.call_wayland_init,
           main_call.call_pthread_create]
          ++ List.replicate env.frames main_call.call_update_surface
          ++ [main_call.call_pthread_cancel, main_call.call_pthread_join,
              main_call.call_wayland_cleanup, main_call.call_close])
  else
    (0, [main_call.call_serial_init, main_call.call_wayland_init]
        ++ List.replicate env.frames main_call.call_update_surface
        ++ [main_call.call_wayland_cleanup])

/-- Function `main` of `src/graph.c`: the returned value and the calls made. -/
def main (env : environment) : Int × List main_call :=
  main_after_configuration env

/-- Function `main` of `src/rolling/graph.c` on the options of the command line: the exit
status of the process (the value `main` returns, or the argument of `exit`) and the calls
made. -/
def rolling_main (options : List cli_option) (env : environment) : Int × List main_call :=
  match parse_arguments config_t.default DEFAULT_CSV_BUFFER_SIZE options with
  | parse_outcome.exited status => (status, [main_call.call_parse_arguments])
  | parse_outcome.returned code _ _ =>
    if code ≠ 0 then (1, [main_call.call_parse_arguments])
    else ((main_after_configuration env).1,
      main_call.call_parse_arguments :: (main_after_configuration env).2)

/-! ## The type `double`

The drawing code computes in the C type `double`.  The definitions of this section give
its arithmetic (IEEE 754 binary64 with rounding to nearest, ties to even), with the finite
values held as the rational numbers they stand for. -/

/-- A value of the C type `double` as the programs use it (IEEE 754 binary64, round to
nearest even): a finite number other than the negative zero, the negative zero, an
infinity, or a NaN.  A finite value is held as the rational number it stands for;
`round_binary64` yields only rationals that binary64 represents, and the operations below
keep to such rationals when their operands do. -/
inductive binary64 where
  | finite (q : ℚ)
  | neg_zero
  | infinity (negative : Bool)
  | nan
  deriving DecidableEq

/-- The number of halvings that bring `n` below 2, counted within `fuel` steps. -/
def halvings : Nat → Nat → Nat
  | 0, _ => 0
  | fuel + 1, n => if n < 2 then 0 else halvings fuel (n / 2) + 1

/-- The position of the leading bit of a natural number `n ≥ 1`: the `k` with
`2^k ≤ n < 2^(k+1)`. -/
def leading_bit (n : Nat) : Nat := halvings n n

/-- The exponent `e` with `2^e ≤ a < 2^(e+1)`, for a positive rational `a`. -/
def floor_log2 (a : ℚ) : Int :=
  if (2 : ℚ) ^ ((leading_bit a.num.natAbs : Int) - (leading_bit a.den : Int)) ≤ a then
    (leading_bit a.num.natAbs : Int) - (leading_bit a.den : Int)
  else (leading_bit a.num.natAbs : Int) - (leading_bit a.den : Int) - 1

/-- The exponent of the unit in the last place for a result of magnitude `a`: 52 binary
places below the leading bit, and never below the subnormal unit `2^-1074`. -/
def ulp_exponent (a : ℚ) : Int :=
  max (floor_log2 a - 52) (-1074)

/-- The whole number of units nearest to `s ≥ 0`, the even one of the two when `s` lies
half-way. -/
def round_half_even (s : ℚ) : Int :=
  if s - (Rat.floor s : ℚ) < 1 / 2 then Rat.floor s
  else if s - (Rat.floor s : ℚ) > 1 / 2 then Rat.floor s + 1
  else if Rat.floor s % 2 = 0 then Rat.floor s
  else Rat.floor s + 1

/-- The `double` that an exact non-zero result `q` is rounded to: the nearest multiple of
the unit in the last place, an infinity from `2^1024` on, a zero of the sign of `q` when
the result is too small. -/
def round_binary64 (q : ℚ) : binary64 :=
  if q = 0 then binary64.finite 0
  else if (round_half_even (|q| / (2 : ℚ) ^ ulp_exponent |q|) : ℚ) * (2 : ℚ) ^ ulp_exponent |q|
      ≥ (2 : ℚ) ^ (1024 : Int) then binary64.infinity (decide (q < 0))
  else if round_half_even (|q| / (2 : ℚ) ^ ulp_exponent |q|) = 0 then
    (if q < 0 then binary64.neg_zero else binary64.finite 0)
  else if q < 0 then
    binary64.finite
      (-((round_half_even (|q| / (2 : ℚ) ^ ulp_exponent |q|) : ℚ) * (2 : ℚ) ^ ulp_exponent |q|))
  else
    binary64.finite
      ((round_half_even (|q| / (2 : ℚ) ^ ulp_exponent |q|) : ℚ) * (2 : ℚ) ^ ulp_exponent |q|)

/-- Sign bit of a `double` that is not a NaN. -/
def binary64.negative : binary64 → Bool
  | binary64.finite q => decide (q < 0)
  | binary64.neg_zero => true
  | binary64.infinity n => n
  | binary64.nan => false

/-- A zero of the given sign. -/
def binary64.zero (negative : Bool) : binary64 :=
  if negative then binary64.neg_zero else binary64.finite 0

/-- The number a finite `double` stands for; `none` for the infinities and NaN. -/
def binary64.value : binary64 → Option ℚ
  | binary64.finite q => some q
  | binary64.neg_zero => some 0
  | _ => none

/-- Unary minus on `double`. -/
def binary64.neg : binary64 → binary64
  | binary64.finite q => if q = 0 then binary64.neg_zero else binary64.finite (-q)
  | binary64.neg_zero => binary64.finite 0
  | binary64.infinity n => binary64.infinity (!n)
  | binary64.nan => binary64.nan

/-- The operation `+` on `double`. -/
def binary64.add (a b : binary64) : binary64 :=
  match a, b with
  | binary64.nan, _ => binary64.nan
  | _, binary64.nan => binary64.nan
  | binary64.infinity n, binary64.infinity m =>
    if n = m then binary64.infinity n else binary64.nan
  | binary64.infinity n, _ => binary64.infinity n
  | _, binary64.infinity m => binary64.infinity m
  | binary64.neg_zero, binary64.neg_zero => binary64.neg_zero
  | binary64.neg_zero, binary64.finite y => binary64.finite y
  | binary64.finite x, binary64.neg_zero => binary64.finite x
  | binary64.finite x, binary64.finite y => round_binary64 (x + y)

/-- The operation `-` on `double`. -/
def binary64.sub (a b : binary64) : binary64 :=
  binary64.add a (binary64.neg b)

/-- The operation `*` on `double`. -/
def binary64.mul (a b : binary64) : binary64 :=
  match a.value, b.value with
  | some x, some y =>
    if x * y = 0 then binary64.zero (xor a.negative b.negative) else round_binary64 (x * y)
  | some x, none =>
    if b = binary64.nan then binary64.nan
    else if x = 0 then binary64.nan
    else binary64.infinity (xor a.negative b.negative)
  | none, some y =>
    if a = binary64.nan then binary64.nan
    else if y = 0 then binary64.nan
    else binary64.infinity (xor a.negative b.negative)
  | none, none =>
    if a = binary64.nan ∨ b = binary64.nan then binary64.nan
    else binary64.infinity (xor a.negative b.negative)

/-- The operation `/` on `double`. -/
def binary64.div (a b : binary64) : binary64 :=
  match a.value, b.value with
  | some x, some y =>
    if y = 0 then
      (if x = 0 then binary64.nan else binary64.infinity (xor a.negative b.negative))
    else if x = 0 then binary64.zero (xor a.negative b.negative)
    else round_binary64 (x / y)
  | some _, none =>
    if b = binary64.nan then binary64.nan else binary64.zero (xor a.negative b.negative)
  | none, some _ =>
    if a = binary64.nan then binary64.nan else binary64.infinity (xor a.negative b.negative)
  | none, none => binary64.nan

/-- The comparison `<` on `double`: false as soon as an operand is a NaN. -/
def binary64.lt (a b : binary64) : Bool :=
  match a, b with
  | binary64.nan, _ => false
  | _, binary64.nan => false
  | binary64.infinity n, binary64.infinity m => n && !m
  | binary64.infinity n, _ => n
  | _, binary64.infinity m => !m
  | binary64.neg_zero, binary64.neg_zero => false
  | binary64.neg_zero, binary64.finite y => decide (0 < y)
  | binary64.finite x, binary64.neg_zero => decide (x < 0)
  | binary64.finite x, binary64.finite y => decide (x < y)

/-- The comparison `==` on `double`: false as soon as an operand is a NaN, true of the two
zeros. -/
def binary64.eq (a b : binary64) : Bool :=
  match a, b with
  | binary64.nan, _ => false
  | _, binary64.nan => false
  | binary64.infinity n, binary64.infinity m => decide (n = m)
  | binary64.infinity _, _ => false
  | _, binary64.infinity _ => false
  | binary64.neg_zero, binary64.neg_zero => true
  | binary64.neg_zero, binary64.finite y => decide (y = 0)
  | binary64.finite x, binary64.neg_zero => decide (x = 0)
  | binary64.finite x, binary64.finite y => decide (x = y)

/-- The comparison `>` on `double`. -/
def binary64.gt (a b : binary64) : Bool :=
  binary64.lt b a

/-- The comparison `<=` on `double`. -/
def binary64.le (a b : binary64) : Bool :=
  binary64.lt a b || binary64.eq a b

/-- Conversion of an `int` to `double`. -/
def binary64.of_int (n : Int) : binary64 :=
  round_binary64 (n : ℚ)

/-! ## The range mapper in `double` arithmetic -/


/-- The `double` a parsed value is stored as: `strtod` rounds the decimal to nearest. -/
def lf_value.to_binary64 : lf_value → binary64
  | lf_value.finite q => round_binary64 q
  | lf_value.infinity n => binary64.infinity n
  | lf_value.nan => binary64.nan

/-- A sample as the programs hold it: both coordinates are `double`s. -/
abbrev double_point := csv_data_t binary64

/-- The stored form of a parsed sample. -/
def stored (d : sample) : double_point :=
  { x := d.x.to_binary64, y := d.y.to_binary64 }

/-- Locals `min_x`, `max_x`, `min_y`, `max_y` of `draw_graph`, as `double`s. -/
structure double_extrema where
  min_x : binary64
  max_x : binary64
  min_y : binary64
  max_y : binary64
  deriving DecidableEq

/-- Body of the scan loop for one element `csv_data[i]`, with the comparisons of `double`. -/
def double_extrema_step (e : double_extrema) (d : double_point) : double_extrema :=
  { min_x := if binary64.lt d.x e.min_x then d.x else e.min_x,
    max_x := if binary64.gt d.x e.max_x then d.x else e.max_x,
    min_y := if binary64.lt d.y e.min_y then d.y else e.min_y,
    max_y := if binary64.gt d.y e.max_y then d.y else e.max_y }

/-- The scan of `draw_graph` over `double`s: initialisation from `csv_data[0]`, then the
loop over the elements from index 1 on. -/
def double_scan_extrema (d0 : double_point) (rest : List double_point) : double_extrema :=
  rest.foldl double_extrema_step { min_x := d0.x, max_x := d0.x, min_y := d0.y, max_y := d0.y }

/-- The two statements under "Avoid division by zero", in `double` arithmetic. -/
def double_avoid_division_by_zero (e : double_extrema) : double_extrema :=
  { e with
    max_x := if binary64.eq e.max_x e.min_x then binary64.add e.min_x (binary64.finite 1)
             else e.max_x,
    max_y := if binary64.eq e.max_y e.min_y then binary64.add e.min_y (binary64.finite 1)
             else e.max_y }

/-- Locals `scale_x`, `offset_x`, `scale_y`, `offset_y` of `draw_graph`, as `double`s. -/
structure double_transform where
  scale_x : binary64
  offset_x : binary64
  scale_y : binary64
  offset_y : binary64
  deriving DecidableEq

/-- The scale and offset factors in `double` arithmetic: the `int` operands are converted
to `double`, and every operation is rounded on its own. -/
def double_compute_transform (g : geometry) (e : double_extrema) : double_transform :=
  { scale_x := binary64.div (binary64.of_int (g.graph_width - 2 * g.graph_margin))
      (binary64.sub e.max_x e.min_x),
    offset_x := binary64.sub (binary64.of_int g.graph_margin)
      (binary64.mul e.min_x
        (binary64.div (binary64.of_int (g.graph_width - 2 * g.graph_margin))
          (binary64.sub e.max_x e.min_x))),
    scale_y := binary64.div (binary64.of_int (g.graph_height - 2 * g.graph_margin))
      (binary64.sub e.max_y e.min_y),
    offset_y := binary64.add (binary64.of_int (g.graph_height - g.graph_margin))
      (binary64.mul e.min_y
        (binary64.div (binary64.of_int (g.graph_height - 2 * g.graph_margin))
          (binary64.sub e.max_y e.min_y))) }

/-- The arguments of `cairo_move_to` / `cairo_line_to` for a sample, in `double`
arithmetic. -/
def double_pixel (t : double_transform) (d : double_point) : binary64 × binary64 :=
  (binary64.add (binary64.mul d.x t.scale_x) t.offset_x,
   binary64.sub t.offset_y (binary64.mul d.y t.scale_y))

/-- The transform `draw_graph` uses for a non-empty array, in `double` arithmetic. -/
def double_graph_transform (g : geometry) (d0 : double_point) (rest : List double_point) :
    double_transform :=
  double_compute_transform g (double_avoid_division_by_zero (double_scan_extrema d0 rest))

/-! ## Properties of the sample store -/

/-- The count `sscanf` returns is 2 exactly when both values were assigned. -/
theorem sscanf_count_eq_two (r : sscanf_result) :
    r.count = 2 ↔ ∃ x y, r = sscanf_result.assigned_two x y := by
  cases r <;> simp [sscanf_result.count]

theorem parse_sample_eq_some {line : List Char} {d : sample} (h : parse_sample line = some d) :
    line.length ≠ 0 ∧ sscanf_lf_comma_lf line = sscanf_result.assigned_two d.x d.y := by
  constructor
  · intro h0
    have : line = [] := List.length_eq_zero.mp h0
    subst this
    simp [parse_sample, sscanf_lf_comma_lf, scan_lf] at h
  · unfold parse_sample at h
    split at h
    · rename_i x y hxy
      cases h
      exact hxy
    · cases h

theorem csv_parse_line_sample (ok : Bool) {line : List Char} {d : sample}
    (h : parse_sample line = some d) (s : store_state) :
    csv_parse_line ok line s =
      if ok then (0, { csv_data := realloc_store s.csv_data s.csv_data_size d,
                       csv_data_size := s.csv_data_size + 1 })
      else (-1, s) := by
  obtain ⟨h1, h2⟩ := parse_sample_eq_some h
  simp only [csv_parse_line, h1, h2, if_false]

theorem rolling_csv_parse_line_sample (ok : Bool) {line : List Char} {d : sample}
    (h : parse_sample line = some d) (s : rolling_state) :
    rolling_csv_parse_line ok line s =
      if s.csv_data_size ≥ s.csv_buffer_max_size then
        (0, { s with
              csv_data := (memmove_left s.csv_data (s.csv_data_size - 1)).set
                  (s.csv_data_size - 1).toNat d,
              roll_count := s.roll_count + 1 })
      else if ok then
        (0, { s with
              csv_data := realloc_store s.csv_data s.csv_data_size d,
              csv_data_size := s.csv_data_size + 1 })
      else (-1, s) := by
  obtain ⟨h1, h2⟩ := parse_sample_eq_some h
  simp only [rolling_csv_parse_line, h1, h2, if_false]

theorem parse_sample_eq_none_step (ok : Bool) {line : List Char}
    (h : parse_sample line = none) (s : store_state) :
    (csv_parse_line ok line s).2 = s := by
  unfold csv_parse_line
  split
  · rfl
  · split
    · rename_i x y hxy
      simp [parse_sample, hxy] at h
    · rfl

theorem realloc_store_eq (a : List sample) (n : Int) (d : sample) (h : (a.length : Int) = n) :
    realloc_store a n d = a ++ [d] := by
  unfold realloc_store
  rw [List.take_of_length_le (by omega)]

theorem memmove_left_set (a : List sample) (n : Int) (d : sample) (h : (a.length : Int) = n)
    (hn : 1 ≤ n) :
    (memmove_left a (n - 1)).set (n - 1).toNat d = a.drop 1 ++ [d] := by
  unfold memmove_left
  generalize hk : (n - 1).toNat = k
  have hlen : a.length = k + 1 := by omega
  have hl : (a.drop 1).length = k := by simp [hlen]
  rw [List.take_of_length_le (by omega), List.set_append_right _ _ (by omega), hl]
  congr 1
  have h1 : (a.drop k).length = 1 := by simp [hlen]
  match hd : a.drop k, h1 with
  | [e], _ => simp

theorem rolling_run_snoc (calls : List (Bool × List Char)) (c : Bool × List Char)
    (s : rolling_state) :
    rolling_run_lines (calls ++ [c]) s =
      (rolling_csv_parse_line c.1 c.2 (rolling_run_lines calls s)).2 := by
  simp [rolling_run_lines, List.foldl_append]

theorem run_snoc (calls : List (Bool × List Char)) (c : Bool × List Char)
    (s : store_state) :
    run_lines (calls ++ [c]) s = (csv_parse_line c.1 c.2 (run_lines calls s)).2 := by
  simp [run_lines, List.foldl_append]

/-- Trace invariant of the rolling store for a capacity of at least 1: after `n` well-formed
lines the store holds the last `min n K` samples, and every eviction has been counted. -/
theorem rolling_trace (K : Int) (hK : 1 ≤ K) (lines : List (List Char))
    (hwf : ∀ l ∈ lines, (parse_sample l).isSome) :
    (rolling_run_lines (no_alloc_failure lines) (rolling_state.initial K)).csv_data_size
        = min (lines.length : Int) K ∧
    (rolling_run_lines (no_alloc_failure lines) (rolling_state.initial K)).csv_data
        = (lines.filterMap parse_sample).drop
            (lines.length - (min (lines.length : Int) K).toNat) ∧
    (rolling_run_lines (no_alloc_failure lines) (rolling_state.initial K)).csv_buffer_max_size
        = K ∧
    (rolling_run_lines (no_alloc_failure lines) (rolling_state.initial K)).roll_count
        = (lines.length : Int) - min (lines.length : Int) K ∧
    (lines.filterMap parse_sample).length = lines.length := by
  induction lines using List.reverseRecOn with
  | nil =>
    simp [no_alloc_failure, rolling_run_lines, rolling_state.initial]
    omega
  | append_singleton ls l ih =>
    have hwf1 : ∀ l ∈ ls, (parse_sample l).isSome := fun x hx => hwf x (by simp [hx])
    obtain ⟨d, hd⟩ := Option.isSome_iff_exists.mp (hwf l (by simp))
    obtain ⟨h1, h2, h3, h4, h5⟩ := ih hwf1
    have hrun : rolling_run_lines (no_alloc_failure (ls ++ [l])) (rolling_state.initial K)
        = (rolling_csv_parse_line true l
            (rolling_run_lines (no_alloc_failure ls) (rolling_state.initial K))).2 := by
      simp [no_alloc_failure, rolling_run_snoc]
    rw [hrun, rolling_csv_parse_line_sample true hd]
    generalize rolling_run_lines (no_alloc_failure ls) (rolling_state.initial K) = s at *
    have hS : List.filterMap parse_sample (ls ++ [l]) = ls.filterMap parse_sample ++ [d] := by
      simp [List.filterMap_append, hd]
    rw [hS]
    have hlen : (ls ++ [l]).length = ls.length + 1 := by simp
    rw [hlen]
    have hcons : (s.csv_data.length : Int) = s.csv_data_size := by
      rw [h2, h1, List.length_drop, h5]
      omega
    by_cases hfull : s.csv_data_size ≥ s.csv_buffer_max_size
    · simp only [hfull, if_true]
      have hn : K ≤ (ls.length : Int) := by
        rw [h3, h1] at hfull
        omega
      have hm1 : min (ls.length : Int) K = K := by omega
      have hm2 : min ((ls.length + 1 : Nat) : Int) K = K := by
        push_cast
        omega
      rw [memmove_left_set _ _ _ hcons (by omega), hm2]
      refine ⟨by omega, ?_, h3, by push_cast; omega, by simp [h5]⟩
      rw [h2, hm1, List.drop_drop, List.drop_append_of_le_length (by rw [h5]; omega)]
      congr 2
      omega
    · simp only [hfull, if_false, if_true]
      have hn : (ls.length : Int) < K := by
        rw [h3, h1] at hfull
        omega
      have hm1 : min (ls.length : Int) K = ls.length := by omega
      have hm2 : min ((ls.length + 1 : Nat) : Int) K = ((ls.length + 1 : Nat) : Int) := by
        push_cast
        omega
      rw [realloc_store_eq _ _ _ hcons, hm2]
      refine ⟨by push_cast; omega, ?_, h3, by push_cast; omega, by simp [h5]⟩
      rw [h2, hm1]
      simp

/-- Trace invariant of the unbounded store: after `n` well-formed lines the store holds
their samples in arrival order. -/
theorem store_trace (lines : List (List Char))
    (hwf : ∀ l ∈ lines, (parse_sample l).isSome) :
    (run_lines (no_alloc_failure lines) store_state.initial).csv_data_size = lines.length ∧
    (run_lines (no_alloc_failure lines) store_state.initial).csv_data
        = lines.filterMap parse_sample ∧
    (lines.filterMap parse_sample).length = lines.length := by
  induction lines using List.reverseRecOn with
  | nil => simp [no_alloc_failure, run_lines, store_state.initial]
  | append_singleton ls l ih =>
    have hwf1 : ∀ l ∈ ls, (parse_sample l).isSome := fun x hx => hwf x (by simp [hx])
    obtain ⟨d, hd⟩ := Option.isSome_iff_exists.mp (hwf l (by simp))
    obtain ⟨h1, h2, h3⟩ := ih hwf1
    have hrun : run_lines (no_alloc_failure (ls ++ [l])) store_state.initial
        = (csv_parse_line true l (run_lines (no_alloc_failure ls) store_state.initial)).2 := by
      simp [no_alloc_failure, run_snoc]
    rw [hrun, csv_parse_line_sample true hd]
    generalize run_lines (no_alloc_failure ls) store_state.initial = s at *
    have hcons : (s.csv_data.length : Int) = s.csv_data_size := by rw [h2, h1, h3]
    simp only [if_true]
    rw [realloc_store_eq _ _ _ hcons, h1, h2]
    simp [List.filterMap_append, hd, h3]

/-- One call of the rolling `csv_parse_line` keeps `csv_buffer_max_size` and keeps
`csv_data_size` between 0 and it, whatever the line and the allocation outcome. -/
theorem rolling_step_bounds (ok : Bool) (line : List Char) (s : rolling_state)
    (h0 : 0 ≤ s.csv_data_size) (h1 : s.csv_data_size ≤ s.csv_buffer_max_size) :
    (rolling_csv_parse_line ok line s).2.csv_buffer_max_size = s.csv_buffer_max_size ∧
    0 ≤ (rolling_csv_parse_line ok line s).2.csv_data_size ∧
    (rolling_csv_parse_line ok line s).2.csv_data_size ≤ s.csv_buffer_max_size := by
  unfold rolling_csv_parse_line
  split
  · exact ⟨rfl, h0, h1⟩
  · split
    · split
      · exact ⟨rfl, h0, h1⟩
      · split
        · refine ⟨rfl, ?_, ?_⟩ <;> simp only <;> omega
        · exact ⟨rfl, h0, h1⟩
    · exact ⟨rfl, h0, h1⟩

/-- C1. Rolling store, trace level: from the empty store with capacity `K`,
`10 ≤ K ≤ 100000`, after `n` well-formed lines (every allocation succeeding) the store has
length `min n K` and holds exactly the last `min n K` parsed samples in arrival order; once
the length equals `K`, any further well-formed lines keep it equal to `K`. -/
theorem rolling_store_holds_last_samples (K : Int) (hlo : 10 ≤ K) (hhi : K ≤ 100000)
    (lines : List (List Char)) (hwf : ∀ l ∈ lines, (parse_sample l).isSome) :
    (rolling_run_lines (no_alloc_failure lines) (rolling_state.initial K)).csv_data_size
        = min (lines.length : Int) K ∧
    ((rolling_run_lines (no_alloc_failure lines) (rolling_state.initial K)).csv_data.length
        : Int) = min (lines.length : Int) K ∧
    (rolling_run_lines (no_alloc_failure lines) (rolling_state.initial K)).csv_data
        = (lines.filterMap parse_sample).drop
            ((lines.filterMap parse_sample).length - (min (lines.length : Int) K).toNat) ∧
    (∀ more : List (List Char), (∀ l ∈ more, (parse_sample l).isSome) →
      (rolling_run_lines (no_alloc_failure lines) (rolling_state.initial K)).csv_data_size = K →
      (rolling_run_lines (no_alloc_failure (lines ++ more))
        (rolling_state.initial K)).csv_data_size = K) := by
  obtain ⟨h1, h2, -, -, h5⟩ := rolling_trace K (by omega) lines hwf
  refine ⟨h1, ?_, by rw [h5]; exact h2, ?_⟩
  · rw [h2, List.length_drop, h5]
    omega
  · intro more hmore hfull
    have hall : ∀ l ∈ lines ++ more, (parse_sample l).isSome := by
      intro l hl
      rcases List.mem_append.mp hl with h | h
      · exact hwf l h
      · exact hmore l h
    obtain ⟨g1, -⟩ := rolling_trace K (by omega) (lines ++ more) hall
    rw [g1]
    rw [h1] at hfull
    simp only [List.length_append]
    push_cast
    omega

/-- C2. Unbounded store: from the empty store, after `n` well-formed lines (every
allocation succeeding) `csv_data_size` is `n` and `csv_data[0..n-1]` are the parsed samples
in arrival order, element `i` being the sample of line `i`. -/
theorem unbounded_store_holds_all_samples (lines : List (List Char))
    (hwf : ∀ l ∈ lines, (parse_sample l).isSome) :
    (run_lines (no_alloc_failure lines) store_state.initial).csv_data_size = lines.length ∧
    (run_lines (no_alloc_failure lines) store_state.initial).csv_data.length = lines.length ∧
    (run_lines (no_alloc_failure lines) store_state.initial).csv_data
        = lines.filterMap parse_sample ∧
    (∀ i : Nat, i < lines.length →
      (run_lines (no_alloc_failure lines) store_state.initial).csv_data[i]?
        = (lines[i]?).bind parse_sample) := by
  obtain ⟨h1, h2, h3⟩ := store_trace lines hwf
  refine ⟨h1, by rw [h2, h3], h2, ?_⟩
  intro i hi
  rw [h2]
  clear h1 h2 h3
  induction lines generalizing i with
  | nil => simp at hi
  | cons l ls ih =>
    obtain ⟨d, hd⟩ := Option.isSome_iff_exists.mp (hwf l (by simp))
    have hwf1 : ∀ l ∈ ls, (parse_sample l).isSome := fun x hx => hwf x (by simp [hx])
    rw [List.filterMap_cons_some hd]
    cases i with
    | zero => simp [hd]
    | succ j =>
      simp only [List.getElem?_cons_succ]
      exact ih hwf1 j (by simpa using hi)

/-- C3. Rolling store, one call at capacity: on a store whose array holds `csv_data_size`
elements with `csv_data_size = csv_buffer_max_size ≥ 1`, a well-formed line parsing to `d`
makes `csv_parse_line` return 0, leaves `csv_data_size` unchanged, and turns the contents
into the old ones without element 0 followed by `d`: the old element `i ≥ 1` is now at
index `i - 1`, and `d` is at the last index. -/
theorem rolling_append_at_capacity (ok : Bool) (line : List Char) (d : sample)
    (s : rolling_state) (hcons : s.consistent)
    (hfull : s.csv_data_size = s.csv_buffer_max_size) (hK : 1 ≤ s.csv_buffer_max_size)
    (hd : parse_sample line = some d) :
    (rolling_csv_parse_line ok line s).1 = 0 ∧
    (rolling_csv_parse_line ok line s).2.csv_data_size = s.csv_data_size ∧
    (rolling_csv_parse_line ok line s).2.csv_buffer_max_size = s.csv_buffer_max_size ∧
    (rolling_csv_parse_line ok line s).2.csv_data = s.csv_data.drop 1 ++ [d] ∧
    ((rolling_csv_parse_line ok line s).2.csv_data.length : Int) = s.csv_data_size ∧
    (∀ i : Nat, 1 ≤ i → (i : Int) < s.csv_data_size →
      (rolling_csv_parse_line ok line s).2.csv_data[i - 1]? = s.csv_data[i]?) ∧
    (rolling_csv_parse_line ok line s).2.csv_data[(s.csv_data_size - 1).toNat]? = some d := by
  have hc : (s.csv_data.length : Int) = s.csv_data_size := hcons
  rw [rolling_csv_parse_line_sample ok hd]
  have hge : s.csv_data_size ≥ s.csv_buffer_max_size := by omega
  simp only [hge, if_true]
  rw [memmove_left_set _ _ _ hc (by omega)]
  refine ⟨trivial, trivial, trivial, rfl, ?_, ?_, ?_⟩
  · simp only [List.length_append, List.length_drop, List.length_singleton]
    omega
  · intro i hi1 hi2
    have hlt : i - 1 < (s.csv_data.drop 1).length := by
      simp only [List.length_drop]
      omega
    rw [List.getElem?_append_left hlt, List.getElem?_drop]
    congr 1
    omega
  · have hlen : (s.csv_data.drop 1).length = (s.csv_data_size - 1).toNat := by
      simp only [List.length_drop]
      omega
    rw [← hlen, List.getElem?_append_right (le_refl _)]
    simp

/-- C4. Capacity invariant of the rolling store: with `csv_buffer_max_size = K`,
`10 ≤ K ≤ 100000`, every state reached from the empty store by any sequence of
`csv_parse_line` calls, on any lines and with any allocation outcomes, has
`0 ≤ csv_data_size ≤ K`. -/
theorem rolling_size_within_capacity (K : Int) (hlo : 10 ≤ K) (hhi : K ≤ 100000)
    (calls : List (Bool × List Char)) :
    0 ≤ (rolling_run_lines calls (rolling_state.initial K)).csv_data_size ∧
    (rolling_run_lines calls (rolling_state.initial K)).csv_data_size ≤ K := by
  have key : (rolling_run_lines calls (rolling_state.initial K)).csv_buffer_max_size = K ∧
      0 ≤ (rolling_run_lines calls (rolling_state.initial K)).csv_data_size ∧
      (rolling_run_lines calls (rolling_state.initial K)).csv_data_size ≤ K := by
    induction calls using List.reverseRecOn with
    | nil =>
      refine ⟨rfl, le_refl _, ?_⟩
      show (0 : Int) ≤ K
      omega
    | append_singleton cs c ih =>
      obtain ⟨hm, h0, h1⟩ := ih
      rw [rolling_run_snoc]
      have := rolling_step_bounds c.1 c.2 _ h0 (by rw [hm]; exact h1)
      rw [hm] at this
      exact this
  exact key.2

/-! ## Properties of the parser -/

theorem scan_sign_suffix (cs : List Char) : (scan_sign cs).2 <:+ cs := by
  unfold scan_sign
  split
  · exact List.suffix_refl _
  · split
    · exact List.suffix_cons _ _
    · split
      · exact List.suffix_cons _ _
      · exact List.suffix_refl _

theorem scan_point_suffix {cs r : List Char} (h : scan_point cs = some r) : r <:+ cs := by
  unfold scan_point at h
  split at h
  · cases h
  · split at h
    · cases h
      exact List.suffix_cons _ _
    · cases h

theorem match_word_suffix (word cs : List Char) : (match_word word cs).2 <:+ cs := by
  induction word generalizing cs with
  | nil =>
    unfold match_word
    exact List.suffix_refl _
  | cons w ws ih =>
    cases cs with
    | nil =>
      unfold match_word
      exact List.suffix_refl _
    | cons c r =>
      unfold match_word
      split
      · exact (ih r).trans (List.suffix_cons _ _)
      · exact List.suffix_refl _

theorem scan_exponent_suffix {marker : Char} {cs rest : List Char} {e : Int}
    (h : scan_exponent marker cs = some (e, rest)) : rest <:+ cs := by
  unfold scan_exponent at h
  split at h
  · cases h
    exact List.suffix_refl _
  · rename_i c r
    split at h
    · simp only at h
      split at h
      · cases h
      · cases h
        exact ((List.dropWhile_suffix _).trans (scan_sign_suffix r)).trans (List.suffix_cons _ _)
    · cases h
      exact List.suffix_refl _

theorem scan_mantissa_suffix {negative : Bool} {base radix : Nat} {shift : Int}
    {digit : Char → Bool} {marker : Char} {cs rest : List Char} {v : lf_value}
    (h : scan_mantissa negative base radix shift digit marker cs = lf_outcome.converted v rest) :
    rest <:+ cs := by
  unfold scan_mantissa at h
  simp only at h
  split at h
  · cases h
  · split at h
    · cases h
    · rename_i e rest1 hexp
      cases h
      have h1 := scan_exponent_suffix hexp
      refine h1.trans ?_
      split
      · rename_i r hr
        exact ((List.dropWhile_suffix _).trans (scan_point_suffix hr)).trans
          (List.dropWhile_suffix _)
      · exact List.dropWhile_suffix _

theorem scan_inf_suffix {negative : Bool} {cs rest : List Char} {v : lf_value}
    (h : scan_inf negative cs = lf_outcome.converted v rest) : rest <:+ cs := by
  unfold scan_inf at h
  simp only at h
  split at h
  · cases h
  · split at h
    · cases h
      exact match_word_suffix _ _
    · split at h
      · cases h
        exact (match_word_suffix _ _).trans (match_word_suffix _ _)
      · cases h

theorem scan_nan_suffix {cs rest : List Char} {v : lf_value}
    (h : scan_nan cs = lf_outcome.converted v rest) : rest <:+ cs := by
  unfold scan_nan at h
  simp only at h
  split at h
  · cases h
  · have hm := match_word_suffix ['n', 'a', 'n'] cs
    split at h
    · rename_i heq
      cases h
      rw [heq] at hm
      exact hm
    · rename_i c r heq
      rw [heq] at hm
      split at h
      · split at h
        · cases h
        · rename_i d r2 hdrop
          split at h
          · cases h
            have h1 : d :: rest <:+ r := by
              rw [← hdrop]
              exact List.dropWhile_suffix _
            exact (((List.suffix_cons d rest).trans h1).trans (List.suffix_cons c r)).trans hm
          · cases h
      · cases h
        exact hm

/-- What a `%lf` directive leaves unread is a suffix of its input. -/
theorem scan_lf_suffix {input rest : List Char} {v : lf_value}
    (h : scan_lf input = lf_outcome.converted v rest) : rest <:+ input := by
  unfold scan_lf at h
  split at h
  · cases h
  · rename_i c r hdrop
    have h0 : c :: r <:+ input := by
      rw [← hdrop]
      exact List.dropWhile_suffix _
    simp only at h
    have hs := scan_sign_suffix (c :: r)
    split at h
    · cases h
    · rename_i d r2 heq
      rw [heq] at hs
      have h1 : d :: r2 <:+ input := hs.trans h0
      split at h
      · exact (scan_inf_suffix h).trans h1
      · split at h
        · exact (scan_nan_suffix h).trans h1
        · split at h
          · exact (((scan_mantissa_suffix h).trans (List.tail_suffix r2)).trans
              (List.suffix_cons d r2)).trans h1
          · exact (scan_mantissa_suffix h).trans h1

/-- A line without a comma never yields two values. -/
theorem parse_sample_no_comma {line : List Char} (h : ',' ∉ line) : parse_sample line = none := by
  unfold parse_sample sscanf_lf_comma_lf
  split
  · rename_i x y hxy
    split at hxy
    · cases hxy
    · cases hxy
    · rename_i x1 rest hscan
      have hsuf := scan_lf_suffix hscan
      split at hxy
      · cases hxy
      · rename_i c r
        split at hxy
        · rename_i hc
          exfalso
          apply h
          subst hc
          exact hsuf.subset (by simp)
        · cases hxy
  · rfl


/-- A line whose first character cannot begin a floating constant, and is not white space,
makes the first `%lf` directive fail. -/
theorem scan_lf_not_number (c : Char) (r : List Char) (hsp : isspace c = false)
    (hdg : isdigit c = false) (hminus : c ≠ '-') (hplus : c ≠ '+') (hpt : c ≠ '.')
    (hi : c.toLower ≠ 'i') (hn : c.toLower ≠ 'n') :
    scan_lf (c :: r) = lf_outcome.matching_failure := by
  have h0 : c ≠ '0' := by
    intro h
    subst h
    simp [isdigit] at hdg
  simp [scan_lf, List.dropWhile_cons, hsp, scan_sign, hminus, hplus, hi, hn, starts_with_0x,
    scan_mantissa, List.takeWhile_cons, hdg, scan_point, hpt]
  cases r <;> simp [starts_with_0x, h0]

theorem scan_lf_failure_parse_sample {line : List Char}
    (h : ∀ v rest, scan_lf line ≠ lf_outcome.converted v rest) : parse_sample line = none := by
  unfold parse_sample sscanf_lf_comma_lf
  split
  · rename_i x y hxy
    split at hxy
    · cases hxy
    · cases hxy
    · rename_i x1 rest hscan
      exact absurd hscan (h x1 rest)
  · rfl

/-- A line that does not parse leaves the globals of both programs as they are, with return
value 0 for the empty line and -1 otherwise. -/
theorem rejected_line (ok : Bool) {line : List Char} (h : parse_sample line = none) :
    (∀ s : store_state,
      csv_parse_line ok line s = (if line = [] then 0 else -1, s)) ∧
    (∀ s : rolling_state,
      rolling_csv_parse_line ok line s = (if line = [] then 0 else -1, s)) := by
  constructor
  · intro s
    unfold csv_parse_line
    by_cases hl : line = []
    · simp [hl]
    · have hlen : ¬ line.length = 0 := fun h0 => hl (List.length_eq_zero.mp h0)
      simp only [hlen, hl, if_false]
      split
      · rename_i x y hxy
        simp [parse_sample, hxy] at h
      · rfl
  · intro s
    unfold rolling_csv_parse_line
    by_cases hl : line = []
    · simp [hl]
    · have hlen : ¬ line.length = 0 := fun h0 => hl (List.length_eq_zero.mp h0)
      simp only [hlen, hl, if_false]
      split
      · rename_i x y hxy
        simp [parse_sample, hxy] at h
      · rfl

theorem parse_sample_example :
    parse_sample "1.5,2.5".toList = some ⟨lf_value.finite (3 / 2), lf_value.finite (5 / 2)⟩ := by
  simp [parse_sample, sscanf_lf_comma_lf, scan_lf, scan_sign, scan_mantissa, scan_point,
    scan_exponent, starts_with_0x, isspace, isdigit, digits_value, xdigit_value, apply_sign]
  norm_num

theorem parse_sample_nil : parse_sample [] = none := by
  simp [parse_sample, sscanf_lf_comma_lf, scan_lf]

/-- After white space and an optional sign, an input that begins neither with a digit,
nor with a point followed by a digit, nor with the word `inf` or `nan` (in either case of
the letters), holds no number: the `%lf` directive converts nothing. -/
theorem scan_lf_no_number (line : List Char)
    (h : ∀ d r, (scan_sign (line.dropWhile isspace)).2 = d :: r →
      isdigit d = false ∧
      (d = '.' → ∀ e r2, r = e :: r2 → isdigit e = false) ∧
      (match_word ['i', 'n', 'f'] (d :: r)).1 < 3 ∧
      (match_word ['n', 'a', 'n'] (d :: r)).1 < 3) :
    ∀ v rest, scan_lf line ≠ lf_outcome.converted v rest := by
  intro v rest hconv
  unfold scan_lf at hconv
  split at hconv
  · cases hconv
  · rename_i c r hdrop
    rw [hdrop] at h
    simp only at hconv
    split at hconv
    · cases hconv
    · rename_i d r2 hsign
      obtain ⟨hdg, hpt, hinf, hnan⟩ := h d r2 hsign
      have h0 : d ≠ '0' := by
        intro h
        subst h
        simp [isdigit] at hdg
      have hhex : starts_with_0x (d :: r2) = false := by
        cases r2 <;> simp [starts_with_0x, h0]
      split at hconv
      · simp [scan_inf, hinf] at hconv
      split at hconv
      · simp [scan_nan, hnan] at hconv
      rw [hhex] at hconv
      simp only [Bool.false_eq_true, if_false] at hconv
      unfold scan_mantissa at hconv
      simp only [List.takeWhile_cons, hdg, List.dropWhile_cons] at hconv
      by_cases hp : d = '.'
      · cases r2 with
        | nil => simp [scan_point, hp] at hconv
        | cons e r3 =>
          have he := hpt hp e r3 rfl
          simp [scan_point, hp, List.takeWhile_cons, he] at hconv
      · simp [scan_point, hp] at hconv

/-- C10. Parsing accept/reject: the line `1.5,2.5` parses to the sample `(1.5, 2.5)`, which
`csv_parse_line` appends to the store (in the rolling program after evicting element 0 when
the buffer is full).  The empty line, every line that does not start with a number (after
white space and an optional sign it begins neither with a digit, nor with a point followed
by a digit, nor with the word `inf` or `nan` in either case of the letters; `abc`, `none,5`
and `idx,3` are such lines) and every line without a comma (as `1.5`) is rejected: the
globals are unchanged, the call returns 0 for the empty line and -1 otherwise, and the loop
of `serial_thread` goes on. -/
theorem csv_parse_line_accepts_and_rejects :
    parse_sample "1.5,2.5".toList = some ⟨lf_value.finite (3 / 2), lf_value.finite (5 / 2)⟩ ∧
    (∀ s : store_state, s.consistent →
      csv_parse_line true "1.5,2.5".toList s
        = (0, { csv_data := s.csv_data ++ [⟨lf_value.finite (3 / 2), lf_value.finite (5 / 2)⟩],
                csv_data_size := s.csv_data_size + 1 })) ∧
    (∀ s : rolling_state, s.consistent → s.csv_data_size < s.csv_buffer_max_size →
      rolling_csv_parse_line true "1.5,2.5".toList s
        = (0, { s with
                csv_data :=
                  s.csv_data ++ [⟨lf_value.finite (3 / 2), lf_value.finite (5 / 2)⟩],
                csv_data_size := s.csv_data_size + 1 })) ∧
    (∀ (ok : Bool) (s : rolling_state), s.consistent → 1 ≤ s.csv_data_size →
      s.csv_buffer_max_size ≤ s.csv_data_size →
      rolling_csv_parse_line ok "1.5,2.5".toList s
        = (0, { s with
                csv_data :=
                  s.csv_data.drop 1 ++ [⟨lf_value.finite (3 / 2), lf_value.finite (5 / 2)⟩],
                roll_count := s.roll_count + 1 })) ∧
    (∀ line : List Char,
      (line = [] ∨
       (∀ d r, (scan_sign (line.dropWhile isspace)).2 = d :: r →
          isdigit d = false ∧
          (d = '.' → ∀ e r2, r = e :: r2 → isdigit e = false) ∧
          (match_word ['i', 'n', 'f'] (d :: r)).1 < 3 ∧
          (match_word ['n', 'a', 'n'] (d :: r)).1 < 3) ∨
       ',' ∉ line) →
      ∀ ok : Bool,
        (∀ s : store_state,
          csv_parse_line ok line s = (if line = [] then 0 else -1, s) ∧
          serial_thread_turn ok (ingest_event.line line) s = (true, s)) ∧
        (∀ s : rolling_state,
          rolling_csv_parse_line ok line s = (if line = [] then 0 else -1, s) ∧
          rolling_serial_thread_turn ok (ingest_event.line line) s = (true, s))) ∧
    scan_lf "abc".toList = lf_outcome.matching_failure ∧
    scan_lf "1.5".toList = lf_outcome.converted (lf_value.finite (3 / 2)) [] ∧
    ',' ∉ "1.5".toList ∧
    ',' ∉ "abc".toList ∧
    scan_lf "none,5".toList = lf_outcome.matching_failure ∧
    scan_lf "idx,3".toList = lf_outcome.matching_failure ∧
    (∀ (ok : Bool) (s : rolling_state),
      rolling_csv_parse_line ok "none,5".toList s = (-1, s) ∧
      rolling_csv_parse_line ok "idx,3".toList s = (-1, s)) := by
  have hex := parse_sample_example
  refine ⟨hex, ?_, ?_, ?_, ?_, ?_, ?_, by decide, by decide, by decide!, by decide!, ?_⟩
  · intro s hs
    rw [csv_parse_line_sample true hex, if_pos rfl, realloc_store_eq _ _ _ hs]
  · intro s hs hlt
    rw [rolling_csv_parse_line_sample true hex,
      if_neg (by omega), if_pos rfl, realloc_store_eq _ _ _ hs]
  · intro ok s hs h1 hge
    rw [rolling_csv_parse_line_sample ok hex, if_pos (by omega), memmove_left_set _ _ _ hs h1]
  · intro line hline ok
    have hnone : parse_sample line = none := by
      rcases hline with h | h | h
      · rw [h]; exact parse_sample_nil
      · exact scan_lf_failure_parse_sample (scan_lf_no_number line h)
      · exact parse_sample_no_comma h
    obtain ⟨h1, h2⟩ := rejected_line ok hnone
    constructor
    · intro s
      refine ⟨h1 s, ?_⟩
      simp only [serial_thread_turn, h1 s]
      split <;> rfl
    · intro s
      refine ⟨h2 s, ?_⟩
      simp only [rolling_serial_thread_turn, h2 s]
      split <;> rfl
  · exact scan_lf_not_number 'a' ['b', 'c'] (by decide) (by decide) (by decide) (by decide)
      (by decide) (by decide) (by decide)
  · simp [scan_lf, scan_sign, scan_mantissa, scan_point, scan_exponent, starts_with_0x,
      isspace, isdigit, digits_value, xdigit_value, apply_sign]
    norm_num
  · intro ok s
    have h1 : parse_sample "none,5".toList = none := by decide!
    have h2 : parse_sample "idx,3".toList = none := by decide!
    rw [(rejected_line ok h1).2 s, (rejected_line ok h2).2 s]
    exact ⟨rfl, rfl⟩

/-- A decimal digit is none of the other characters the `%lf` directive looks for. -/
theorem isdigit_facts {c : Char} (h : isdigit c = true) :
    isspace c = false ∧ c ≠ '-' ∧ c ≠ '+' ∧ c ≠ '.' ∧ c.toLower ≠ 'i' ∧ c.toLower ≠ 'n' ∧
    c.toLower ≠ 'e' ∧ c.toLower ≠ 'x' := by
  simp only [isdigit, Bool.and_eq_true, decide_eq_true_eq] at h
  have hl : c.toLower = c := by
    simp only [Char.toLower]
    rw [if_neg]
    intro hh
    have := hh.1
    simp only [ge_iff_le] at this
    omega
  rw [hl]
  have hne : ∀ k : Char, (k.toNat < 48 ∨ 57 < k.toNat) → c ≠ k := by
    intro k hk hck
    subst hck
    omega
  refine ⟨?_, hne _ (by decide), hne _ (by decide), hne _ (by decide), hne _ (by decide),
    hne _ (by decide), hne _ (by decide), hne _ (by decide)⟩
  simp only [isspace, Bool.or_eq_false_iff, decide_eq_false_iff_not, Bool.and_eq_false_iff]
  refine ⟨hne _ (by decide), ?_⟩
  right
  omega

/-- A run of digits followed by a character that is not a digit is read whole. -/
theorem takeWhile_dropWhile_digits (ip rest : List Char) (hall : ∀ c ∈ ip, isdigit c = true)
    (hrest : ∀ c r, rest = c :: r → isdigit c = false) :
    (ip ++ rest).takeWhile isdigit = ip ∧ (ip ++ rest).dropWhile isdigit = rest := by
  induction ip with
  | nil =>
    cases rest with
    | nil => simp
    | cons c r => simp [List.takeWhile_cons, List.dropWhile_cons, hrest c r rfl]
  | cons d ds ih =>
    have hd := hall d (by simp)
    have := ih (fun c hc => hall c (by simp [hc]))
    simp [List.takeWhile_cons, List.dropWhile_cons, hd, this]

/-- Before a character other than `e` and `E` the exponent part is absent. -/
theorem scan_exponent_stop (rest : List Char)
    (hrest : ∀ c r, rest = c :: r → c.toLower ≠ 'e') :
    scan_exponent 'e' rest = some (0, rest) := by
  cases rest with
  | nil => rfl
  | cons c r => simp [scan_exponent, hrest c r rfl]

/-- The mantissa scan reads an unsigned decimal number up to the text that follows it. -/
theorem scan_mantissa_decimal (ip : List Char) (fp : Option (List Char)) (rest : List Char)
    (hip : ip ≠ []) (hall : ∀ c ∈ ip, isdigit c = true)
    (hfp : ∀ f, fp = some f → ∀ c ∈ f, isdigit c = true)
    (hrest : ∀ c r, rest = c :: r →
      isdigit c = false ∧ c ≠ '.' ∧ c.toLower ≠ 'e' ∧ c.toLower ≠ 'x') :
    scan_mantissa false 10 10 1 isdigit 'e' (decimal_text ip fp ++ rest)
      = lf_outcome.converted (lf_value.finite (decimal_value ip fp)) rest := by
  have hexp := scan_exponent_stop rest (fun c r h => (hrest c r h).2.2.1)
  have hdig : ∀ c r, rest = c :: r → isdigit c = false := fun c r h => (hrest c r h).1
  cases fp with
  | none =>
    obtain ⟨ht, hd⟩ := takeWhile_dropWhile_digits ip rest hall hdig
    have hpt : scan_point rest = none := by
      cases rest with
      | nil => rfl
      | cons c r => simp [scan_point, (hrest c r rfl).2.1]
    simp only [decimal_text, decimal_value, scan_mantissa, ht, hd, hpt, hexp]
    simp [hip, apply_sign]
  | some f =>
    have hf := hfp f rfl
    obtain ⟨ht, hd⟩ := takeWhile_dropWhile_digits ip ('.' :: (f ++ rest)) hall
      (fun c r h => by
        cases h
        decide)
    obtain ⟨ht2, hd2⟩ := takeWhile_dropWhile_digits f rest hf hdig
    have happ : ip ++ '.' :: f ++ rest = ip ++ '.' :: (f ++ rest) := by simp
    simp only [decimal_text, decimal_value, scan_mantissa, happ, ht, hd, scan_point, if_true,
      ht2, hd2, hexp]
    simp [hip, apply_sign, div_eq_mul_inv, zpow_neg]

/-- The `%lf` directive reads an unsigned decimal number up to the text that follows it. -/
theorem scan_lf_decimal (ip : List Char) (fp : Option (List Char)) (rest : List Char)
    (hip : ip ≠ []) (hall : ∀ c ∈ ip, isdigit c = true)
    (hfp : ∀ f, fp = some f → ∀ c ∈ f, isdigit c = true)
    (hrest : ∀ c r, rest = c :: r →
      isdigit c = false ∧ c ≠ '.' ∧ c.toLower ≠ 'e' ∧ c.toLower ≠ 'x') :
    scan_lf (decimal_text ip fp ++ rest)
      = lf_outcome.converted (lf_value.finite (decimal_value ip fp)) rest := by
  have hm := scan_mantissa_decimal ip fp rest hip hall hfp hrest
  cases ip with
  | nil => exact absurd rfl hip
  | cons d ds =>
    obtain ⟨hsp, hminus, hplus, _, hi, hn, _, _⟩ := isdigit_facts (hall d (by simp))
    have htext : ∃ t, decimal_text (d :: ds) fp ++ rest = d :: t ∧
        ∀ c r, t = c :: r → c.toLower ≠ 'x' := by
      cases ds with
      | nil =>
        cases fp with
        | none =>
          exact ⟨rest, rfl, fun c r h => (hrest c r h).2.2.2⟩
        | some f =>
          refine ⟨'.' :: (f ++ rest), by simp [decimal_text], ?_⟩
          intro c r h
          cases h
          decide
      | cons e es =>
        have he := (isdigit_facts (hall e (by simp))).2.2.2.2.2.2.2
        cases fp with
        | none =>
          refine ⟨e :: (es ++ rest), by simp [decimal_text], ?_⟩
          intro c r h
          cases h
          exact he
        | some f =>
          refine ⟨e :: (es ++ '.' :: f ++ rest), by simp [decimal_text], ?_⟩
          intro c r h
          cases h
          exact he
    obtain ⟨t, ht, hx⟩ := htext
    rw [ht] at hm ⊢
    have hhex : starts_with_0x (d :: t) = false := by
      cases t with
      | nil => rfl
      | cons c r => simp [starts_with_0x, hx c r rfl]
    simp only [scan_lf, List.dropWhile_cons, hsp, scan_sign, hminus, hplus, if_false, hi, hn,
      hhex, Bool.false_eq_true]
    exact hm

/-- A line made of two unsigned decimal numbers with a comma between them, followed by
text that does not continue the second number, yields the two numbers. -/
theorem parse_sample_decimal_pair (ip1 ip2 : List Char) (fp1 fp2 : Option (List Char))
    (tail : List Char)
    (hip1 : ip1 ≠ []) (hall1 : ∀ c ∈ ip1, isdigit c = true)
    (hfp1 : ∀ f, fp1 = some f → ∀ c ∈ f, isdigit c = true)
    (hip2 : ip2 ≠ []) (hall2 : ∀ c ∈ ip2, isdigit c = true)
    (hfp2 : ∀ f, fp2 = some f → ∀ c ∈ f, isdigit c = true)
    (htail : ∀ c r, tail = c :: r →
      isdigit c = false ∧ c ≠ '.' ∧ c.toLower ≠ 'e' ∧ c.toLower ≠ 'x') :
    parse_sample (decimal_text ip1 fp1 ++ ',' :: (decimal_text ip2 fp2 ++ tail))
      = some ⟨lf_value.finite (decimal_value ip1 fp1),
          lf_value.finite (decimal_value ip2 fp2)⟩ := by
  have h1 := scan_lf_decimal ip1 fp1 (',' :: (decimal_text ip2 fp2 ++ tail)) hip1 hall1 hfp1
    (fun c r h => by
      cases h
      exact ⟨by decide, by decide, by decide, by decide⟩)
  have h2 := scan_lf_decimal ip2 fp2 tail hip2 hall2 hfp2 htail
  simp [parse_sample, sscanf_lf_comma_lf, h1, h2]

/-! ## Properties of the range mapper -/

theorem scan_extrema_snoc (d0 : point) (rs : List point) (r : point) :
    scan_extrema d0 (rs ++ [r]) = extrema_step (scan_extrema d0 rs) r := by
  simp [scan_extrema, List.foldl_append]

/-- The scan returns bounds of every coordinate. -/
theorem scan_extrema_bounds (d0 : point) (rest : List point) :
    ∀ s ∈ d0 :: rest,
      (scan_extrema d0 rest).min_x ≤ s.x ∧ s.x ≤ (scan_extrema d0 rest).max_x ∧
      (scan_extrema d0 rest).min_y ≤ s.y ∧ s.y ≤ (scan_extrema d0 rest).max_y := by
  induction rest using List.reverseRecOn with
  | nil =>
    intro s hs
    simp only [List.mem_singleton] at hs
    subst hs
    simp [scan_extrema, extrema_init]
  | append_singleton rs r ih =>
    intro s hs
    rw [scan_extrema_snoc]
    have hmem : s ∈ d0 :: rs ∨ s = r := by
      simp only [List.mem_cons, List.mem_append, List.mem_singleton, List.not_mem_nil, or_false] at hs
      simp only [List.mem_cons]
      tauto
    simp only [extrema_step]
    rcases hmem with h | h
    · obtain ⟨h1, h2, h3, h4⟩ := ih s h
      refine ⟨?_, ?_, ?_, ?_⟩ <;> split <;> linarith
    · subst h
      refine ⟨?_, ?_, ?_, ?_⟩ <;> split <;> linarith

/-- The scan returns coordinates that occur in the array. -/
theorem scan_extrema_attained (d0 : point) (rest : List point) :
    (∃ s ∈ d0 :: rest, s.x = (scan_extrema d0 rest).min_x) ∧
    (∃ s ∈ d0 :: rest, s.x = (scan_extrema d0 rest).max_x) ∧
    (∃ s ∈ d0 :: rest, s.y = (scan_extrema d0 rest).min_y) ∧
    (∃ s ∈ d0 :: rest, s.y = (scan_extrema d0 rest).max_y) := by
  induction rest using List.reverseRecOn with
  | nil =>
    simp [scan_extrema, extrema_init]
  | append_singleton rs r ih =>
    rw [scan_extrema_snoc]
    have hsub : ∀ s, s ∈ d0 :: rs → s ∈ d0 :: (rs ++ [r]) := by
      intro s hs
      simp only [List.mem_cons, List.mem_append] at hs ⊢
      tauto
    have hr : r ∈ d0 :: (rs ++ [r]) := by simp
    obtain ⟨⟨a, ha, ha2⟩, ⟨b, hb, hb2⟩, ⟨c, hc, hc2⟩, ⟨d, hd, hd2⟩⟩ := ih
    simp only [extrema_step]
    refine ⟨?_, ?_, ?_, ?_⟩
    · split
      · exact ⟨r, hr, rfl⟩
      · exact ⟨a, hsub a ha, ha2⟩
    · split
      · exact ⟨r, hr, rfl⟩
      · exact ⟨b, hsub b hb, hb2⟩
    · split
      · exact ⟨r, hr, rfl⟩
      · exact ⟨c, hsub c hc, hc2⟩
    · split
      · exact ⟨r, hr, rfl⟩
      · exact ⟨d, hsub d hd, hd2⟩

theorem scan_extrema_min_le_max (d0 : point) (rest : List point) :
    (scan_extrema d0 rest).min_x ≤ (scan_extrema d0 rest).max_x ∧
    (scan_extrema d0 rest).min_y ≤ (scan_extrema d0 rest).max_y := by
  obtain ⟨h1, h2, h3, h4⟩ := scan_extrema_bounds d0 rest d0 (by simp)
  exact ⟨le_trans h1 h2, le_trans h3 h4⟩


/-- After the adjustment both divisors are positive. -/
theorem divisors_pos (d0 : point) (rest : List point) :
    0 < (avoid_division_by_zero (scan_extrema d0 rest)).max_x
        - (avoid_division_by_zero (scan_extrema d0 rest)).min_x ∧
    0 < (avoid_division_by_zero (scan_extrema d0 rest)).max_y
        - (avoid_division_by_zero (scan_extrema d0 rest)).min_y := by
  obtain ⟨hx, hy⟩ := scan_extrema_min_le_max d0 rest
  simp only [avoid_division_by_zero]
  constructor
  · split
    · linarith
    · rename_i hne
      have := lt_of_le_of_ne hx (Ne.symm hne)
      linarith
  · split
    · linarith
    · rename_i hne
      have := lt_of_le_of_ne hy (Ne.symm hne)
      linarith

/-- Pixel of a point under the transform of `draw_graph`, in closed form. -/
theorem pixel_graph_transform (g : geometry) (d0 : point) (rest : List point) (p : point) :
    (pixel (graph_transform g d0 rest) p).1 =
      (g.graph_margin : ℚ) + (p.x - (avoid_division_by_zero (scan_extrema d0 rest)).min_x)
        * ((g.graph_width - 2 * g.graph_margin : Int) : ℚ)
        / ((avoid_division_by_zero (scan_extrema d0 rest)).max_x
            - (avoid_division_by_zero (scan_extrema d0 rest)).min_x) ∧
    (pixel (graph_transform g d0 rest) p).2 =
      ((g.graph_height - g.graph_margin : Int) : ℚ)
        - (p.y - (avoid_division_by_zero (scan_extrema d0 rest)).min_y)
        * ((g.graph_height - 2 * g.graph_margin : Int) : ℚ)
        / ((avoid_division_by_zero (scan_extrema d0 rest)).max_y
            - (avoid_division_by_zero (scan_extrema d0 rest)).min_y) := by
  simp only [pixel, graph_transform, compute_transform]
  constructor <;> ring

/-- C5. Exact affine check: for the snapshot `[(0,0),(10,5)]` with width 800, height 600
and margin 50, `draw_graph` moves to pixel `(50, 550)` for `(0,0)` and draws a line to
`(750, 50)` for `(10,5)`; and for every geometry and every snapshot whose scanned extrema
satisfy `min_x < max_x` and `min_y < max_y`, a sample attaining `min_x` is mapped to
`px = margin`, one attaining `max_x` to `px = width - margin`, one attaining `min_y` to
`py = height - margin` and one attaining `max_y` to `py = margin`. -/
theorem affine_map_hits_margin_box :
    draw_graph default_geometry [⟨0, 0⟩, ⟨10, 5⟩]
      = [draw_command.move_to 50 550, draw_command.line_to 750 50, draw_command.stroke] ∧
    pixel (graph_transform default_geometry ⟨0, 0⟩ [⟨10, 5⟩]) ⟨0, 0⟩ = (50, 550) ∧
    pixel (graph_transform default_geometry ⟨0, 0⟩ [⟨10, 5⟩]) ⟨10, 5⟩ = (750, 50) ∧
    (∀ (g : geometry) (d0 : point) (rest : List point),
      (scan_extrema d0 rest).min_x < (scan_extrema d0 rest).max_x →
      (scan_extrema d0 rest).min_y < (scan_extrema d0 rest).max_y →
      ∀ s ∈ d0 :: rest,
        (s.x = (scan_extrema d0 rest).min_x →
          (pixel (graph_transform g d0 rest) s).1 = (g.graph_margin : ℚ)) ∧
        (s.x = (scan_extrema d0 rest).max_x →
          (pixel (graph_transform g d0 rest) s).1
            = (g.graph_width : ℚ) - (g.graph_margin : ℚ)) ∧
        (s.y = (scan_extrema d0 rest).min_y →
          (pixel (graph_transform g d0 rest) s).2
            = (g.graph_height : ℚ) - (g.graph_margin : ℚ)) ∧
        (s.y = (scan_extrema d0 rest).max_y →
          (pixel (graph_transform g d0 rest) s).2 = (g.graph_margin : ℚ))) := by
  have hpix : pixel (graph_transform default_geometry ⟨0, 0⟩ [⟨10, 5⟩]) ⟨0, 0⟩ = (50, 550) ∧
      pixel (graph_transform default_geometry ⟨0, 0⟩ [⟨10, 5⟩]) ⟨10, 5⟩ = (750, 50) := by
    simp only [pixel, graph_transform, compute_transform, avoid_division_by_zero, scan_extrema,
      extrema_step, extrema_init, default_geometry, List.foldl_cons, List.foldl_nil]
    norm_num
  refine ⟨?_, hpix.1, hpix.2, ?_⟩
  · simp only [draw_graph, List.map_cons, List.map_nil, hpix.1, hpix.2]
    rfl
  · intro g d0 rest hx hy s _
    obtain ⟨px, py⟩ := pixel_graph_transform g d0 rest s
    have hax : (avoid_division_by_zero (scan_extrema d0 rest)).max_x
        = (scan_extrema d0 rest).max_x := by
      simp only [avoid_division_by_zero]
      rw [if_neg (ne_of_gt hx)]
    have hay : (avoid_division_by_zero (scan_extrema d0 rest)).max_y
        = (scan_extrema d0 rest).max_y := by
      simp only [avoid_division_by_zero]
      rw [if_neg (ne_of_gt hy)]
    have hix : (avoid_division_by_zero (scan_extrema d0 rest)).min_x
        = (scan_extrema d0 rest).min_x := rfl
    have hiy : (avoid_division_by_zero (scan_extrema d0 rest)).min_y
        = (scan_extrema d0 rest).min_y := rfl
    rw [hax, hix] at px
    rw [hay, hiy] at py
    have hdx : (scan_extrema d0 rest).max_x - (scan_extrema d0 rest).min_x ≠ 0 := by
      intro h; linarith
    have hdy : (scan_extrema d0 rest).max_y - (scan_extrema d0 rest).min_y ≠ 0 := by
      intro h; linarith
    refine ⟨?_, ?_, ?_, ?_⟩
    · intro h
      rw [px, h]
      simp
    · intro h
      rw [px, h, mul_comm, mul_div_assoc, div_self hdx]
      push_cast
      ring
    · intro h
      rw [py, h]
      simp
    · intro h
      rw [py, h, mul_comm, mul_div_assoc, div_self hdy]
      push_cast
      ring


/-- C6, counterexample. In the `double` arithmetic of the programs a single sample is not
always drawn at `(margin, height - margin)`, and the adjustment does not always keep the
divisor away from zero.  The line `1e15,1e15` is accepted, and the one-sample snapshot it
leaves is drawn at `(0, 576)` instead of `(50, 550)` at 800 x 600 with margin 50.  The line
`1e16,0` is accepted, and for its snapshot `min_x + 1.0` is `min_x` again, so that the
divisor `max_x - min_x` is 0, `scale_x` is infinite and the abscissa of the drawn point is a
NaN. -/
theorem large_single_point_misses_corner :
    parse_sample "1e15,1e15".toList
      = some ⟨lf_value.finite (10 ^ 15), lf_value.finite (10 ^ 15)⟩ ∧
    stored ⟨lf_value.finite (10 ^ 15), lf_value.finite (10 ^ 15)⟩
      = ⟨binary64.finite (10 ^ 15), binary64.finite (10 ^ 15)⟩ ∧
    double_pixel
        (double_graph_transform default_geometry
          ⟨binary64.finite (10 ^ 15), binary64.finite (10 ^ 15)⟩ [])
        ⟨binary64.finite (10 ^ 15), binary64.finite (10 ^ 15)⟩
      = (binary64.finite 0, binary64.finite 576) ∧
    parse_sample "1e16,0".toList = some ⟨lf_value.finite (10 ^ 16), lf_value.finite 0⟩ ∧
    stored ⟨lf_value.finite (10 ^ 16), lf_value.finite 0⟩
      = ⟨binary64.finite (10 ^ 16), binary64.finite 0⟩ ∧
    binary64.sub
        (double_avoid_division_by_zero
          (double_scan_extrema ⟨binary64.finite (10 ^ 16), binary64.finite 0⟩ [])).max_x
        (double_avoid_division_by_zero
          (double_scan_extrema ⟨binary64.finite (10 ^ 16), binary64.finite 0⟩ [])).min_x
      = binary64.finite 0 ∧
    (double_graph_transform default_geometry
        ⟨binary64.finite (10 ^ 16), binary64.finite 0⟩ []).scale_x = binary64.infinity false ∧
    (double_pixel
        (double_graph_transform default_geometry
          ⟨binary64.finite (10 ^ 16), binary64.finite 0⟩ [])
        ⟨binary64.finite (10 ^ 16), binary64.finite 0⟩).1 = binary64.nan := by
  refine ⟨by decide!, by decide!, by decide!, by decide!, by decide!, by decide!, by decide!,
    by decide!⟩

/-- C6, amended. Degenerate single point, over exact arithmetic: when the operations of
`draw_graph` are taken without rounding, for every one-sample snapshot `[(a,b)]` and every
geometry both divisors are 1 (no division by zero), `scale_x = width - 2*margin`,
`scale_y = height - 2*margin`, and the sample is drawn at `(margin, height - margin)`; for
`[(5,5)]` at 800 x 600 with margin 50 this is `(50, 550)`, inside `[50,750] x [50,550]`.
For `[(5,5)]` the `double` arithmetic of the programs gives the same point `(50, 550)`. -/
theorem single_point_maps_to_corner :
    (∀ (g : geometry) (a b : ℚ),
      (avoid_division_by_zero (scan_extrema ⟨a, b⟩ [])).max_x
        - (avoid_division_by_zero (scan_extrema ⟨a, b⟩ [])).min_x = 1 ∧
      (avoid_division_by_zero (scan_extrema ⟨a, b⟩ [])).max_y
        - (avoid_division_by_zero (scan_extrema ⟨a, b⟩ [])).min_y = 1 ∧
      (graph_transform g ⟨a, b⟩ []).scale_x
        = ((g.graph_width - 2 * g.graph_margin : Int) : ℚ) ∧
      (graph_transform g ⟨a, b⟩ []).scale_y
        = ((g.graph_height - 2 * g.graph_margin : Int) : ℚ) ∧
      pixel (graph_transform g ⟨a, b⟩ []) ⟨a, b⟩
        = ((g.graph_margin : ℚ), ((g.graph_height - g.graph_margin : Int) : ℚ)) ∧
      draw_graph g [⟨a, b⟩]
        = [draw_command.move_to (g.graph_margin : ℚ)
            ((g.graph_height - g.graph_margin : Int) : ℚ), draw_command.stroke]) ∧
    pixel (graph_transform default_geometry ⟨5, 5⟩ []) ⟨5, 5⟩ = (50, 550) ∧
    ((50 : ℚ) ≤ (pixel (graph_transform default_geometry ⟨5, 5⟩ []) ⟨5, 5⟩).1 ∧
      (pixel (graph_transform default_geometry ⟨5, 5⟩ []) ⟨5, 5⟩).1 ≤ 750 ∧
      (50 : ℚ) ≤ (pixel (graph_transform default_geometry ⟨5, 5⟩ []) ⟨5, 5⟩).2 ∧
      (pixel (graph_transform default_geometry ⟨5, 5⟩ []) ⟨5, 5⟩).2 ≤ 550) ∧
    (parse_sample "5,5".toList = some ⟨lf_value.finite 5, lf_value.finite 5⟩ ∧
      stored ⟨lf_value.finite 5, lf_value.finite 5⟩ = ⟨binary64.finite 5, binary64.finite 5⟩ ∧
      double_pixel
          (double_graph_transform default_geometry ⟨binary64.finite 5, binary64.finite 5⟩ [])
          ⟨binary64.finite 5, binary64.finite 5⟩
        = (binary64.finite 50, binary64.finite 550)) := by
  have gen : ∀ (g : geometry) (a b : ℚ),
      pixel (graph_transform g ⟨a, b⟩ []) ⟨a, b⟩
        = ((g.graph_margin : ℚ), ((g.graph_height - g.graph_margin : Int) : ℚ)) := by
    intro g a b
    simp [pixel, graph_transform, compute_transform, avoid_division_by_zero, scan_extrema,
      extrema_init]
  have h5 : pixel (graph_transform default_geometry ⟨5, 5⟩ []) ⟨5, 5⟩ = (50, 550) := by
    rw [gen]
    norm_num [default_geometry]
  refine ⟨?_, h5, ?_, by decide!, by decide!, by decide!⟩
  · intro g a b
    refine ⟨?_, ?_, ?_, ?_, gen g a b, ?_⟩
    · simp [avoid_division_by_zero, scan_extrema, extrema_init]
    · simp [avoid_division_by_zero, scan_extrema, extrema_init]
    · simp [graph_transform, compute_transform, avoid_division_by_zero, scan_extrema,
        extrema_init]
    · simp [graph_transform, compute_transform, avoid_division_by_zero, scan_extrema,
        extrema_init]
    · simp only [draw_graph, List.map_nil, gen g a b]
      rfl
  · rw [h5]
    norm_num

/-- The scan over exact values: for every non-empty snapshot `d0 :: rest` of rational
points, each of `min_x`, `max_x`, `min_y`, `max_y` left by the scan loop is the coordinate
of some sample, and every sample `s` has `min_x ≤ s.x ≤ max_x` and `min_y ≤ s.y ≤ max_y`. -/
theorem scan_extrema_exact (d0 : point) (rest : List point) :
    ((∃ s ∈ d0 :: rest, s.x = (scan_extrema d0 rest).min_x) ∧
     (∃ s ∈ d0 :: rest, s.x = (scan_extrema d0 rest).max_x) ∧
     (∃ s ∈ d0 :: rest, s.y = (scan_extrema d0 rest).min_y) ∧
     (∃ s ∈ d0 :: rest, s.y = (scan_extrema d0 rest).max_y)) ∧
    (∀ s ∈ d0 :: rest,
      (scan_extrema d0 rest).min_x ≤ s.x ∧ s.x ≤ (scan_extrema d0 rest).max_x ∧
      (scan_extrema d0 rest).min_y ≤ s.y ∧ s.y ≤ (scan_extrema d0 rest).max_y) :=
  ⟨scan_extrema_attained d0 rest, scan_extrema_bounds d0 rest⟩

theorem binary64.lt_irrefl (a : binary64) : binary64.lt a a = false := by
  cases a <;> simp [binary64.lt]

theorem binary64.lt_trans {a b c : binary64} (h1 : binary64.lt a b = true)
    (h2 : binary64.lt b c = true) : binary64.lt a c = true := by
  cases a <;> cases b <;> cases c <;> simp_all [binary64.lt] <;> linarith

theorem binary64.le_of_not_lt {a b : binary64} (ha : a ≠ binary64.nan) (hb : b ≠ binary64.nan)
    (h : binary64.lt b a = false) : binary64.le a b = true := by
  cases a <;> cases b <;> simp_all [binary64.lt, binary64.le, binary64.eq]
  · exact lt_or_eq_of_le h
  · exact lt_or_eq_of_le h
  · rcases lt_or_eq_of_le h with h | h
    · exact Or.inl h
    · exact Or.inr h.symm
  · rename_i n m
    cases n <;> cases m <;> simp_all

theorem double_scan_extrema_snoc (d0 : double_point) (rs : List double_point)
    (r : double_point) :
    double_scan_extrema d0 (rs ++ [r]) = double_extrema_step (double_scan_extrema d0 rs) r := by
  simp [double_scan_extrema, List.foldl_append]

/-- After the scan in `double` no sample compares below a minimum or above a maximum. -/
theorem double_scan_extrema_bounds (d0 : double_point) (rest : List double_point) :
    ∀ s ∈ d0 :: rest,
      binary64.lt s.x (double_scan_extrema d0 rest).min_x = false ∧
      binary64.gt s.x (double_scan_extrema d0 rest).max_x = false ∧
      binary64.lt s.y (double_scan_extrema d0 rest).min_y = false ∧
      binary64.gt s.y (double_scan_extrema d0 rest).max_y = false := by
  induction rest using List.reverseRecOn with
  | nil =>
    intro s hs
    simp only [List.mem_singleton] at hs
    subst hs
    simp [double_scan_extrema, binary64.gt, binary64.lt_irrefl]
  | append_singleton rs r ih =>
    intro s hs
    rw [double_scan_extrema_snoc]
    have hmem : s ∈ d0 :: rs ∨ s = r := by
      simp only [List.mem_cons, List.mem_append, List.mem_singleton, List.not_mem_nil,
        or_false] at hs
      simp only [List.mem_cons]
      tauto
    have key : ∀ a b c : binary64, binary64.lt a b = false →
        binary64.lt a (if binary64.lt c b then c else b) = false := by
      intro a b c hab
      split
      · rename_i hcb
        cases hac : binary64.lt a c
        · rfl
        · rw [binary64.lt_trans hac hcb] at hab
          exact hab
      · exact hab
    have key2 : ∀ a b c : binary64, binary64.gt a b = false →
        binary64.gt a (if binary64.gt c b then c else b) = false := by
      intro a b c hab
      simp only [binary64.gt] at hab ⊢
      split
      · rename_i hcb
        cases hac : binary64.lt c a
        · rfl
        · rw [binary64.lt_trans hcb hac] at hab
          exact hab
      · exact hab
    have self : ∀ b c : binary64, binary64.lt c (if binary64.lt c b then c else b) = false := by
      intro b c
      split
      · exact binary64.lt_irrefl c
      · rename_i h
        simpa using h
    have self2 : ∀ b c : binary64,
        binary64.gt c (if binary64.gt c b then c else b) = false := by
      intro b c
      split
      · exact binary64.lt_irrefl c
      · rename_i h
        simpa using h
    simp only [double_extrema_step]
    rcases hmem with h | h
    · obtain ⟨h1, h2, h3, h4⟩ := ih s h
      exact ⟨key _ _ _ h1, key2 _ _ _ h2, key _ _ _ h3, key2 _ _ _ h4⟩
    · subst h
      exact ⟨self _ _, self2 _ _, self _ _, self2 _ _⟩

/-- The scan in `double` returns coordinates that occur in the array. -/
theorem double_scan_extrema_attained (d0 : double_point) (rest : List double_point) :
    (∃ s ∈ d0 :: rest, s.x = (double_scan_extrema d0 rest).min_x) ∧
    (∃ s ∈ d0 :: rest, s.x = (double_scan_extrema d0 rest).max_x) ∧
    (∃ s ∈ d0 :: rest, s.y = (double_scan_extrema d0 rest).min_y) ∧
    (∃ s ∈ d0 :: rest, s.y = (double_scan_extrema d0 rest).max_y) := by
  induction rest using List.reverseRecOn with
  | nil =>
    simp [double_scan_extrema]
  | append_singleton rs r ih =>
    rw [double_scan_extrema_snoc]
    have hsub : ∀ s, s ∈ d0 :: rs → s ∈ d0 :: (rs ++ [r]) := by
      intro s hs
      simp only [List.mem_cons, List.mem_append] at hs ⊢
      tauto
    have hr : r ∈ d0 :: (rs ++ [r]) := by simp
    obtain ⟨⟨a, ha, ha2⟩, ⟨b, hb, hb2⟩, ⟨c, hc, hc2⟩, ⟨d, hd, hd2⟩⟩ := ih
    simp only [double_extrema_step]
    refine ⟨?_, ?_, ?_, ?_⟩
    · split
      · exact ⟨r, hr, rfl⟩
      · exact ⟨a, hsub a ha, ha2⟩
    · split
      · exact ⟨r, hr, rfl⟩
      · exact ⟨b, hsub b hb, hb2⟩
    · split
      · exact ⟨r, hr, rfl⟩
      · exact ⟨c, hsub c hc, hc2⟩
    · split
      · exact ⟨r, hr, rfl⟩
      · exact ⟨d, hsub d hd, hd2⟩

/-- C7, counterexample. The line `nan,0` is accepted and stored with a NaN abscissa; on
the snapshot `[(NaN,0),(1,0),(2,0)]` every comparison of the scan loop with `min_x` or
`max_x` is false, so both stay NaN: `min_x` is neither the least abscissa nor below the
abscissa 1, and `max_x` is not above it. -/
theorem nan_sample_defeats_extrema :
    parse_sample "nan,0".toList = some ⟨lf_value.nan, lf_value.finite 0⟩ ∧
    stored ⟨lf_value.nan, lf_value.finite 0⟩ = ⟨binary64.nan, binary64.finite 0⟩ ∧
    double_scan_extrema ⟨binary64.nan, binary64.finite 0⟩
        [⟨binary64.finite 1, binary64.finite 0⟩, ⟨binary64.finite 2, binary64.finite 0⟩]
      = ⟨binary64.nan, binary64.nan, binary64.finite 0, binary64.finite 0⟩ ∧
    binary64.le
        (double_scan_extrema ⟨binary64.nan, binary64.finite 0⟩
          [⟨binary64.finite 1, binary64.finite 0⟩,
            ⟨binary64.finite 2, binary64.finite 0⟩]).min_x
        (binary64.finite 1) = false ∧
    binary64.le (binary64.finite 1)
        (double_scan_extrema ⟨binary64.nan, binary64.finite 0⟩
          [⟨binary64.finite 1, binary64.finite 0⟩,
            ⟨binary64.finite 2, binary64.finite 0⟩]).max_x = false := by
  refine ⟨?_, by decide!, by decide!, by decide!, by decide!⟩
  decide!

/-- C7, amended. Extrema of a snapshot without NaN: for every non-empty snapshot
`d0 :: rest` of `double`s none of whose coordinates is a NaN, each of `min_x`, `max_x`,
`min_y`, `max_y` left by the scan loop is the coordinate of some sample, and every sample
`s` has `min_x <= s.x`, `s.x <= max_x`, `min_y <= s.y` and `s.y <= max_y` in the
comparison of `double`. -/
theorem double_scan_extrema_are_extrema (d0 : double_point) (rest : List double_point)
    (hnan : ∀ s ∈ d0 :: rest, s.x ≠ binary64.nan ∧ s.y ≠ binary64.nan) :
    ((∃ s ∈ d0 :: rest, s.x = (double_scan_extrema d0 rest).min_x) ∧
     (∃ s ∈ d0 :: rest, s.x = (double_scan_extrema d0 rest).max_x) ∧
     (∃ s ∈ d0 :: rest, s.y = (double_scan_extrema d0 rest).min_y) ∧
     (∃ s ∈ d0 :: rest, s.y = (double_scan_extrema d0 rest).max_y)) ∧
    (∀ s ∈ d0 :: rest,
      binary64.le (double_scan_extrema d0 rest).min_x s.x = true ∧
      binary64.le s.x (double_scan_extrema d0 rest).max_x = true ∧
      binary64.le (double_scan_extrema d0 rest).min_y s.y = true ∧
      binary64.le s.y (double_scan_extrema d0 rest).max_y = true) := by
  refine ⟨double_scan_extrema_attained d0 rest, ?_⟩
  obtain ⟨⟨a, ha, ha2⟩, ⟨b, hb, hb2⟩, ⟨c, hc, hc2⟩, ⟨d, hd, hd2⟩⟩ :=
    double_scan_extrema_attained d0 rest
  intro s hs
  obtain ⟨h1, h2, h3, h4⟩ := double_scan_extrema_bounds d0 rest s hs
  simp only [binary64.gt] at h2 h4
  refine ⟨?_, ?_, ?_, ?_⟩
  · exact binary64.le_of_not_lt (ha2 ▸ (hnan a ha).1) (hnan s hs).1 h1
  · exact binary64.le_of_not_lt (hnan s hs).1 (hb2 ▸ (hnan b hb).1) h2
  · exact binary64.le_of_not_lt (hc2 ▸ (hnan c hc).2) (hnan s hs).2 h3
  · exact binary64.le_of_not_lt (hnan s hs).2 (hd2 ▸ (hnan d hd).2) h4

/-- C8. No division by zero: for every non-empty snapshot `d0 :: rest`, `scale_x` and
`scale_y` are quotients by `max_x - min_x` and `max_y - min_y` taken after the
degenerate-axis adjustment, both divisors are strictly positive, and a divisor is exactly 1
on an axis whose values are all equal. -/
theorem scale_divisors_positive (g : geometry) (d0 : point) (rest : List point) :
    (graph_transform g d0 rest).scale_x
      = ((g.graph_width - 2 * g.graph_margin : Int) : ℚ)
        / ((avoid_division_by_zero (scan_extrema d0 rest)).max_x
            - (avoid_division_by_zero (scan_extrema d0 rest)).min_x) ∧
    (graph_transform g d0 rest).scale_y
      = ((g.graph_height - 2 * g.graph_margin : Int) : ℚ)
        / ((avoid_division_by_zero (scan_extrema d0 rest)).max_y
            - (avoid_division_by_zero (scan_extrema d0 rest)).min_y) ∧
    0 < (avoid_division_by_zero (scan_extrema d0 rest)).max_x
        - (avoid_division_by_zero (scan_extrema d0 rest)).min_x ∧
    0 < (avoid_division_by_zero (scan_extrema d0 rest)).max_y
        - (avoid_division_by_zero (scan_extrema d0 rest)).min_y ∧
    ((∀ s ∈ d0 :: rest, s.x = d0.x) →
      (avoid_division_by_zero (scan_extrema d0 rest)).max_x
        - (avoid_division_by_zero (scan_extrema d0 rest)).min_x = 1) ∧
    ((∀ s ∈ d0 :: rest, s.y = d0.y) →
      (avoid_division_by_zero (scan_extrema d0 rest)).max_y
        - (avoid_division_by_zero (scan_extrema d0 rest)).min_y = 1) := by
  obtain ⟨px, py⟩ := divisors_pos d0 rest
  obtain ⟨⟨a, ha, ha2⟩, ⟨b, hb, hb2⟩, ⟨c, hc, hc2⟩, ⟨d, hd, hd2⟩⟩ := scan_extrema_attained d0 rest
  refine ⟨rfl, rfl, px, py, ?_, ?_⟩
  · intro hall
    have : (scan_extrema d0 rest).max_x = (scan_extrema d0 rest).min_x := by
      rw [← ha2, ← hb2, hall a ha, hall b hb]
    simp [avoid_division_by_zero, this]
  · intro hall
    have : (scan_extrema d0 rest).max_y = (scan_extrema d0 rest).min_y := by
      rw [← hc2, ← hd2, hall c hc, hall d hd]
    simp [avoid_division_by_zero, this]

/-- C9, counterexample. In the `double` arithmetic of the programs a larger `y` does not
always give a strictly smaller `py`.  The line `2,1e20` is accepted; on the snapshot
`[(0,0),(1,1),(2,1e20)]` at 800 x 600 with margin 50 (so `height > 2*margin`) the samples
`(0,0)` and `(1,1)` both get `py = 550`, although `0 < 1`. -/
theorem absorbed_sample_breaks_strictness :
    parse_sample "2,1e20".toList = some ⟨lf_value.finite 2, lf_value.finite (10 ^ 20)⟩ ∧
    stored ⟨lf_value.finite 2, lf_value.finite (10 ^ 20)⟩
      = ⟨binary64.finite 2, binary64.finite (10 ^ 20)⟩ ∧
    default_geometry.graph_height > 2 * default_geometry.graph_margin ∧
    binary64.lt (binary64.finite 0) (binary64.finite 1) = true ∧
    (double_pixel
        (double_graph_transform default_geometry ⟨binary64.finite 0, binary64.finite 0⟩
          [⟨binary64.finite 1, binary64.finite 1⟩, ⟨binary64.finite 2, binary64.finite (10 ^ 20)⟩])
        ⟨binary64.finite 0, binary64.finite 0⟩).2 = binary64.finite 550 ∧
    (double_pixel
        (double_graph_transform default_geometry ⟨binary64.finite 0, binary64.finite 0⟩
          [⟨binary64.finite 1, binary64.finite 1⟩, ⟨binary64.finite 2, binary64.finite (10 ^ 20)⟩])
        ⟨binary64.finite 1, binary64.finite 1⟩).2 = binary64.finite 550 ∧
    binary64.lt
        (double_pixel
          (double_graph_transform default_geometry ⟨binary64.finite 0, binary64.finite 0⟩
            [⟨binary64.finite 1, binary64.finite 1⟩,
              ⟨binary64.finite 2, binary64.finite (10 ^ 20)⟩])
          ⟨binary64.finite 1, binary64.finite 1⟩).2
        (double_pixel
          (double_graph_transform default_geometry ⟨binary64.finite 0, binary64.finite 0⟩
            [⟨binary64.finite 1, binary64.finite 1⟩,
              ⟨binary64.finite 2, binary64.finite (10 ^ 20)⟩])
          ⟨binary64.finite 0, binary64.finite 0⟩).2 = false := by
  refine ⟨by decide!, by decide!, by decide!, by decide!, by decide!, by decide!, by decide!⟩

/-- C9, amended. Y-axis inversion, over exact arithmetic: when the operations of
`draw_graph` are taken without rounding, for every non-empty snapshot `d0 :: rest` and every
geometry, if `height > 2*margin` then of two points the one with the larger `y` gets the
strictly smaller `py`, and if `width > 2*margin` the one with the larger `x` gets the
strictly larger `px`. -/
theorem pixel_mapping_monotone (g : geometry) (d0 : point) (rest : List point) (p q : point) :
    (g.graph_height > 2 * g.graph_margin → p.y < q.y →
      (pixel (graph_transform g d0 rest) q).2 < (pixel (graph_transform g d0 rest) p).2) ∧
    (g.graph_width > 2 * g.graph_margin → p.x < q.x →
      (pixel (graph_transform g d0 rest) p).1 < (pixel (graph_transform g d0 rest) q).1) := by
  obtain ⟨dx, dy⟩ := divisors_pos d0 rest
  constructor
  · intro hg hpq
    have hs : 0 < (graph_transform g d0 rest).scale_y := by
      simp only [graph_transform, compute_transform]
      apply div_pos _ dy
      have : (0 : Int) < g.graph_height - 2 * g.graph_margin := by omega
      exact_mod_cast this
    simp only [pixel]
    have := mul_lt_mul_of_pos_right hpq hs
    linarith
  · intro hg hpq
    have hs : 0 < (graph_transform g d0 rest).scale_x := by
      simp only [graph_transform, compute_transform]
      apply div_pos _ dx
      have : (0 : Int) < g.graph_width - 2 * g.graph_margin := by omega
      exact_mod_cast this
    simp only [pixel]
    have := mul_lt_mul_of_pos_right hpq hs
    linarith

/-! ## Properties of line framing, configuration and the ingest loop -/

/-- Reads that deliver no terminator before a terminator arrives, with room left in the
buffer: the loop stores the delivered bytes and stops after the terminator. -/
theorem serial_read_line_loop_framed (size : Int) (post : List (Option Char)) (t : Char)
    (ht : t = '\n' ∨ t = '\r') :
    ∀ (r1 : List (Option Char)) (buffer : List Char) (index : Int),
      (∀ c, some c ∈ r1 → ¬ (c = '\n' ∨ c = '\r')) →
      index + ((r1.filterMap id).length : Int) < size - 1 →
      serial_read_line_loop size buffer index (r1 ++ some t :: post)
        = some { buffer := buffer ++ r1.filterMap id,
                 index := index + ((r1.filterMap id).length : Int), unread := post } := by
  intro r1
  induction r1 with
  | nil =>
    intro buffer index _ hlt
    simp only [List.filterMap_nil, List.length_nil, Nat.cast_zero, add_zero] at hlt
    simp [serial_read_line_loop, hlt, ht]
  | cons r rs ih =>
    intro buffer index hno hlt
    have hno1 : ∀ c, some c ∈ rs → ¬ (c = '\n' ∨ c = '\r') :=
      fun c hc => hno c (List.mem_cons_of_mem _ hc)
    cases r with
    | none =>
      have hlt1 : index + ((rs.filterMap id).length : Int) < size - 1 := by
        simpa using hlt
      have hi : index < size - 1 := by omega
      have := ih buffer index hno1 hlt1
      simp only [List.cons_append, serial_read_line_loop, hi, if_true]
      simpa using this
    | some c =>
      have hc := hno c (List.mem_cons_self _ _)
      have hlen : ((List.filterMap id (some c :: rs)).length : Int)
          = ((rs.filterMap id).length : Int) + 1 := by simp
      rw [hlen] at hlt
      have hi : index < size - 1 := by omega
      have := ih (buffer ++ [c]) (index + 1) hno1 (by omega)
      simp only [List.cons_append, serial_read_line_loop, hi, if_true, hc, if_false,
        List.append_eq]
      rw [this]
      simp only [List.filterMap_cons_some, id_eq, List.append_assoc, List.singleton_append,
        List.length_cons, Nat.cast_add, Nat.cast_one, Option.some.injEq,
        read_line_result.mk.injEq, true_and, and_true]
      omega

/-- Reads that deliver at least `k` bytes and no terminator, with room for exactly `k` more
bytes: the loop stores the first `k` of them and stops, leaving the other bytes unread. -/
theorem serial_read_line_loop_full (size : Int) (rest : List (Option Char)) :
    ∀ (r1 : List (Option Char)) (buffer : List Char) (index : Int) (k : Nat),
      (∀ c, some c ∈ r1 → ¬ (c = '\n' ∨ c = '\r')) →
      k ≤ (r1.filterMap id).length →
      index + (k : Int) = size - 1 →
      ∃ u, serial_read_line_loop size buffer index (r1 ++ rest)
          = some { buffer := buffer ++ (r1.filterMap id).take k, index := size - 1,
                   unread := u } ∧
        u.filterMap id = (r1.filterMap id).drop k ++ rest.filterMap id := by
  intro r1
  induction r1 with
  | nil =>
    intro buffer index k _ hk hidx
    have hk0 : k = 0 := by simpa using hk
    subst hk0
    have hi : ¬ index < size - 1 := by omega
    have he : index = size - 1 := by omega
    refine ⟨rest, ?_, by simp⟩
    cases rest <;> simp [serial_read_line_loop, hi, he]
  | cons r rs ih =>
    intro buffer index k hno hk hidx
    have hno1 : ∀ c, some c ∈ rs → ¬ (c = '\n' ∨ c = '\r') :=
      fun c hc => hno c (List.mem_cons_of_mem _ hc)
    cases k with
    | zero =>
      have hi : ¬ index < size - 1 := by omega
      have he : index = size - 1 := by omega
      refine ⟨(r :: rs) ++ rest, ?_, by rw [List.filterMap_append]; rfl⟩
      simp [serial_read_line_loop, hi, he]
    | succ j =>
      have hi : index < size - 1 := by omega
      cases r with
      | none =>
        obtain ⟨u, hu, hu2⟩ := ih buffer index (j + 1) hno1 (by simpa using hk) hidx
        refine ⟨u, ?_, by simpa using hu2⟩
        simp only [List.cons_append, serial_read_line_loop, hi, if_true]
        simpa using hu
      | some c =>
        have hc := hno c (List.mem_cons_self _ _)
        obtain ⟨u, hu, hu2⟩ := ih (buffer ++ [c]) (index + 1) j hno1
          (by simpa using hk) (by push_cast at hidx; omega)
        refine ⟨u, ?_, by simpa using hu2⟩
        simp only [List.cons_append, serial_read_line_loop, hi, if_true, hc, if_false,
          List.append_eq]
        rw [hu]
        simp

theorem parse_arguments_returns_zero_in_range :
    ∀ (options : List cli_option) (config : config_t) (max : Int) (c : config_t) (m : Int),
      config.in_range → parse_arguments config max options = parse_outcome.returned 0 c m →
      c.in_range ∧ m = c.csv_buffer_size := by
  intro options
  induction options with
  | nil =>
    intro config max c m hr h
    simp only [parse_arguments, parse_outcome.returned.injEq, true_and] at h
    obtain ⟨h1, h2⟩ := h
    subst h1
    exact ⟨hr, h2.symm⟩
  | cons o rest ih =>
    intro config max c m hr h
    obtain ⟨⟨a1, a2⟩, ⟨b1, b2⟩, ⟨c1, c2⟩, ⟨d1, d2⟩⟩ := hr
    cases o with
    | port a =>
      simp only [parse_arguments] at h
      refine ih _ max c m ?_ h
      exact ⟨⟨a1, a2⟩, ⟨b1, b2⟩, ⟨c1, c2⟩, ⟨d1, d2⟩⟩
    | baud a =>
      simp only [parse_arguments] at h
      refine ih _ max c m ?_ h
      exact ⟨⟨a1, a2⟩, ⟨b1, b2⟩, ⟨c1, c2⟩, ⟨d1, d2⟩⟩
    | buffer_size a =>
      simp only [parse_arguments] at h
      split at h
      · simp at h
      · split at h
        · simp at h
        · refine ih _ max c m ?_ h
          refine ⟨⟨?_, ?_⟩, ⟨b1, b2⟩, ⟨c1, c2⟩, ⟨d1, d2⟩⟩
          · show (10 : Int) ≤ atoi a
            omega
          · show atoi a ≤ 100000
            omega
    | width a =>
      simp only [parse_arguments] at h
      split at h
      · simp at h
      · refine ih _ max c m ?_ h
        refine ⟨⟨a1, a2⟩, ⟨?_, ?_⟩, ⟨c1, c2⟩, ⟨d1, d2⟩⟩
        · show (200 : Int) ≤ atoi a
          omega
        · show atoi a ≤ 4096
          omega
    | height a =>
      simp only [parse_arguments] at h
      split at h
      · simp at h
      · refine ih _ max c m ?_ h
        refine ⟨⟨a1, a2⟩, ⟨b1, b2⟩, ⟨?_, ?_⟩, ⟨d1, d2⟩⟩
        · show (200 : Int) ≤ atoi a
          omega
        · show atoi a ≤ 4096
          omega
    | margin a =>
      simp only [parse_arguments] at h
      split at h
      · simp at h
      · refine ih _ max c m ?_ h
        refine ⟨⟨a1, a2⟩, ⟨b1, b2⟩, ⟨c1, c2⟩, ⟨?_, ?_⟩⟩
        · show (10 : Int) ≤ atoi a
          omega
        · show atoi a ≤ 200
          omega
    | help => simp [parse_arguments] at h
    | unrecognised => simp [parse_arguments] at h

theorem parse_arguments_stops_at_bad (bad : cli_option) (post : List cli_option)
    (hbad : bad.out_of_range) :
    ∀ (pre : List cli_option) (config : config_t) (max : Int),
      cli_option.help ∉ pre →
      ∃ c m, parse_arguments config max (pre ++ bad :: post) = parse_outcome.returned (-1) c m := by
  intro pre
  induction pre with
  | nil =>
    intro config max _
    cases bad with
    | buffer_size a =>
      simp only [cli_option.out_of_range] at hbad
      simp only [List.nil_append, parse_arguments]
      split
      · exact ⟨_, _, rfl⟩
      · rw [if_pos (by omega)]
        exact ⟨_, _, rfl⟩
    | width a =>
      simp only [cli_option.out_of_range] at hbad
      simp only [List.nil_append, parse_arguments, if_pos hbad]
      exact ⟨_, _, rfl⟩
    | height a =>
      simp only [cli_option.out_of_range] at hbad
      simp only [List.nil_append, parse_arguments, if_pos hbad]
      exact ⟨_, _, rfl⟩
    | margin a =>
      simp only [cli_option.out_of_range] at hbad
      simp only [List.nil_append, parse_arguments, if_pos hbad]
      exact ⟨_, _, rfl⟩
    | port a => exact absurd hbad (by simp [cli_option.out_of_range])
    | baud a => exact absurd hbad (by simp [cli_option.out_of_range])
    | help => exact absurd hbad (by simp [cli_option.out_of_range])
    | unrecognised => exact absurd hbad (by simp [cli_option.out_of_range])
  | cons o rest ih =>
    intro config max hh
    have hrest : cli_option.help ∉ rest := fun h => hh (List.mem_cons_of_mem _ h)
    have ho : o ≠ cli_option.help := fun h => hh (by rw [h]; exact List.mem_cons_self _ _)
    cases o with
    | port a => exact ih _ max hrest
    | baud a => exact ih _ max hrest
    | buffer_size a =>
      simp only [List.cons_append, parse_arguments]
      split
      · exact ⟨_, _, rfl⟩
      · split
        · exact ⟨_, _, rfl⟩
        · exact ih _ max hrest
    | width a =>
      simp only [List.cons_append, parse_arguments]
      split
      · exact ⟨_, _, rfl⟩
      · exact ih _ max hrest
    | height a =>
      simp only [List.cons_append, parse_arguments]
      split
      · exact ⟨_, _, rfl⟩
      · exact ih _ max hrest
    | margin a =>
      simp only [List.cons_append, parse_arguments]
      split
      · exact ⟨_, _, rfl⟩
      · exact ih _ max hrest
    | help => exact absurd rfl ho
    | unrecognised => exact ⟨_, _, rfl⟩

theorem parse_arguments_bad_not_zero :
    ∀ (options : List cli_option) (config : config_t) (max : Int),
      (∃ o ∈ options, cli_option.out_of_range o) →
      ∀ c m, parse_arguments config max options ≠ parse_outcome.returned 0 c m := by
  intro options
  induction options with
  | nil =>
    intro config max h
    obtain ⟨o, ho, _⟩ := h
    simp at ho
  | cons o rest ih =>
    intro config max h c m
    have hrest : ¬ cli_option.out_of_range o → ∃ o ∈ rest, cli_option.out_of_range o := by
      intro hn
      obtain ⟨b, hb, hb2⟩ := h
      rcases List.mem_cons.mp hb with h1 | h1
      · subst h1
        exact absurd hb2 hn
      · exact ⟨b, h1, hb2⟩
    cases o with
    | port a => exact ih _ max (hrest (by simp [cli_option.out_of_range])) c m
    | baud a => exact ih _ max (hrest (by simp [cli_option.out_of_range])) c m
    | buffer_size a =>
      simp only [parse_arguments]
      split
      · simp
      · split
        · simp
        · exact ih _ max (hrest (by simp only [cli_option.out_of_range]; omega)) c m
    | width a =>
      simp only [parse_arguments]
      split
      · simp
      · rename_i hn
        exact ih _ max (hrest (by simpa only [cli_option.out_of_range] using hn)) c m
    | height a =>
      simp only [parse_arguments]
      split
      · simp
      · rename_i hn
        exact ih _ max (hrest (by simpa only [cli_option.out_of_range] using hn)) c m
    | margin a =>
      simp only [parse_arguments]
      split
      · simp
      · rename_i hn
        exact ih _ max (hrest (by simpa only [cli_option.out_of_range] using hn)) c m
    | help => simp [parse_arguments]
    | unrecognised => simp [parse_arguments]

theorem serial_thread_no_error :
    ∀ (events : List (Bool × ingest_event)) (s : store_state),
      (∀ e ∈ events, e.2 ≠ ingest_event.select_error) →
      serial_thread events s = (false, run_lines (event_calls events) s) := by
  intro events
  induction events with
  | nil => intro s _; rfl
  | cons e rest ih =>
    intro s h
    have hrest : ∀ x ∈ rest, x.2 ≠ ingest_event.select_error :=
      fun x hx => h x (List.mem_cons_of_mem _ hx)
    have he := h e (List.mem_cons_self _ _)
    obtain ⟨ok, ev⟩ := e
    cases ev with
    | select_error => exact absurd rfl he
    | timeout =>
      simp only [serial_thread, serial_thread_turn, if_true]
      rw [ih s hrest]
      rfl
    | line buffer =>
      by_cases hb : (buffer.length : Int) > 0
      · simp only [serial_thread, serial_thread_turn, hb, if_true]
        rw [ih _ hrest]
        rfl
      · have hnil : buffer = [] := by
          cases buffer with
          | nil => rfl
          | cons c r => simp at hb
        subst hnil
        simp only [serial_thread, serial_thread_turn, List.length_nil, Nat.cast_zero,
          gt_iff_lt, lt_self_iff_false, if_false, if_true]
        rw [ih s hrest]
        simp [event_calls, run_lines, csv_parse_line]

theorem serial_thread_first_error :
    ∀ (pre : List (Bool × ingest_event)) (a : Bool) (post : List (Bool × ingest_event))
      (s : store_state),
      (∀ e ∈ pre, e.2 ≠ ingest_event.select_error) →
      serial_thread (pre ++ (a, ingest_event.select_error) :: post) s
        = (true, run_lines (event_calls pre) s) := by
  intro pre
  induction pre with
  | nil =>
    intro a post s _
    simp [serial_thread, serial_thread_turn, event_calls, run_lines]
  | cons e rest ih =>
    intro a post s h
    have hrest : ∀ x ∈ rest, x.2 ≠ ingest_event.select_error :=
      fun x hx => h x (List.mem_cons_of_mem _ hx)
    have he := h e (List.mem_cons_self _ _)
    obtain ⟨ok, ev⟩ := e
    cases ev with
    | select_error => exact absurd rfl he
    | timeout =>
      simp only [List.cons_append, serial_thread, serial_thread_turn, if_true, List.append_eq]
      rw [ih a post s hrest]
      rfl
    | line buffer =>
      by_cases hb : (buffer.length : Int) > 0
      · simp only [List.cons_append, serial_thread, serial_thread_turn, hb, if_true, List.append_eq]
        rw [ih a post _ hrest]
        rfl
      · have hnil : buffer = [] := by
          cases buffer with
          | nil => rfl
          | cons c r => simp at hb
        subst hnil
        simp only [List.cons_append, serial_thread, serial_thread_turn, List.length_nil,
          Nat.cast_zero, gt_iff_lt, lt_self_iff_false, if_false, if_true, List.append_eq]
        rw [ih a post s hrest]
        simp [event_calls, run_lines, csv_parse_line]

theorem rolling_serial_thread_no_error :
    ∀ (events : List (Bool × ingest_event)) (s : rolling_state),
      (∀ e ∈ events, e.2 ≠ ingest_event.select_error) →
      rolling_serial_thread events s = (false, rolling_run_lines (event_calls events) s) := by
  intro events
  induction events with
  | nil => intro s _; rfl
  | cons e rest ih =>
    intro s h
    have hrest : ∀ x ∈ rest, x.2 ≠ ingest_event.select_error :=
      fun x hx => h x (List.mem_cons_of_mem _ hx)
    have he := h e (List.mem_cons_self _ _)
    obtain ⟨ok, ev⟩ := e
    cases ev with
    | select_error => exact absurd rfl he
    | timeout =>
      simp only [rolling_serial_thread, rolling_serial_thread_turn, if_true]
      rw [ih s hrest]
      rfl
    | line buffer =>
      by_cases hb : (buffer.length : Int) > 0
      · simp only [rolling_serial_thread, rolling_serial_thread_turn, hb, if_true]
        rw [ih _ hrest]
        rfl
      · have hnil : buffer = [] := by
          cases buffer with
          | nil => rfl
          | cons c r => simp at hb
        subst hnil
        simp only [rolling_serial_thread, rolling_serial_thread_turn, List.length_nil, Nat.cast_zero,
          gt_iff_lt, lt_self_iff_false, if_false, if_true]
        rw [ih s hrest]
        simp [event_calls, rolling_run_lines, rolling_csv_parse_line]

theorem rolling_serial_thread_first_error :
    ∀ (pre : List (Bool × ingest_event)) (a : Bool) (post : List (Bool × ingest_event))
      (s : rolling_state),
      (∀ e ∈ pre, e.2 ≠ ingest_event.select_error) →
      rolling_serial_thread (pre ++ (a, ingest_event.select_error) :: post) s
        = (true, rolling_run_lines (event_calls pre) s) := by
  intro pre
  induction pre with
  | nil =>
    intro a post s _
    simp [rolling_serial_thread, rolling_serial_thread_turn, event_calls, rolling_run_lines]
  | cons e rest ih =>
    intro a post s h
    have hrest : ∀ x ∈ rest, x.2 ≠ ingest_event.select_error :=
      fun x hx => h x (List.mem_cons_of_mem _ hx)
    have he := h e (List.mem_cons_self _ _)
    obtain ⟨ok, ev⟩ := e
    cases ev with
    | select_error => exact absurd rfl he
    | timeout =>
      simp only [List.cons_append, rolling_serial_thread, rolling_serial_thread_turn, if_true, List.append_eq]
      rw [ih a post s hrest]
      rfl
    | line buffer =>
      by_cases hb : (buffer.length : Int) > 0
      · simp only [List.cons_append, rolling_serial_thread, rolling_serial_thread_turn, hb, if_true, List.append_eq]
        rw [ih a post _ hrest]
        rfl
      · have hnil : buffer = [] := by
          cases buffer with
          | nil => rfl
          | cons c r => simp at hb
        subst hnil
        simp only [List.cons_append, rolling_serial_thread, rolling_serial_thread_turn, List.length_nil,
          Nat.cast_zero, gt_iff_lt, lt_self_iff_false, if_false, if_true, List.append_eq]
        rw [ih a post s hrest]
        simp [event_calls, rolling_run_lines, rolling_csv_parse_line]

/-- With every allocation succeeding, the unbounded store grows by the samples of the lines
that parse, in order. -/
theorem run_lines_appends :
    ∀ (calls : List (Bool × List Char)) (s : store_state),
      (∀ c ∈ calls, c.1 = true) → s.consistent →
      (run_lines calls s).csv_data
        = s.csv_data ++ calls.filterMap (fun c => parse_sample c.2) ∧
      (run_lines calls s).csv_data_size
        = s.csv_data_size + ((calls.filterMap (fun c => parse_sample c.2)).length : Int) := by
  intro calls
  induction calls with
  | nil => intro s _ _; simp [run_lines]
  | cons c rest ih =>
    intro s hok hs
    have hrest : ∀ x ∈ rest, x.1 = true := fun x hx => hok x (List.mem_cons_of_mem _ hx)
    have hc : c.1 = true := hok c (List.mem_cons_self _ _)
    have hstep : run_lines (c :: rest) s = run_lines rest (csv_parse_line c.1 c.2 s).2 := rfl
    rw [hstep]
    cases hp : parse_sample c.2 with
    | none =>
      rw [(rejected_line c.1 hp).1 s]
      simp only [List.filterMap_cons, hp]
      exact ih s hrest hs
    | some d =>
      rw [csv_parse_line_sample c.1 hp, hc, if_pos rfl, realloc_store_eq _ _ _ hs]
      have hs2 : store_state.consistent
          { csv_data := s.csv_data ++ [d], csv_data_size := s.csv_data_size + 1 } := by
        have h0 : (s.csv_data.length : Int) = s.csv_data_size := hs
        show (((s.csv_data ++ [d]).length : Nat) : Int) = s.csv_data_size + 1
        simp only [List.length_append, List.length_singleton]
        push_cast
        omega
      obtain ⟨h1, h2⟩ := ih _ hrest hs2
      rw [h1, h2]
      simp only [List.filterMap_cons, hp, List.append_assoc, List.singleton_append,
        List.length_cons]
      refine ⟨trivial, ?_⟩
      push_cast
      omega

/-- Lines that do not parse make no difference to a run of the rolling store. -/
theorem rolling_run_lines_filter :
    ∀ (calls : List (Bool × List Char)) (s : rolling_state),
      rolling_run_lines calls s
        = rolling_run_lines (calls.filter (fun c => (parse_sample c.2).isSome)) s := by
  intro calls
  induction calls with
  | nil => intro s; rfl
  | cons c rest ih =>
    intro s
    have hstep : rolling_run_lines (c :: rest) s
        = rolling_run_lines rest (rolling_csv_parse_line c.1 c.2 s).2 := rfl
    cases hp : parse_sample c.2 with
    | none =>
      rw [hstep, (rejected_line c.1 hp).2 s, List.filter_cons_of_neg (by simp [hp])]
      exact ih s
    | some d =>
      rw [hstep, List.filter_cons_of_pos (by simp [hp]), ih]
      rfl

theorem event_calls_all_ok (events : List (Bool × ingest_event))
    (h : ∀ e ∈ events, e.1 = true) : ∀ c ∈ event_calls events, c.1 = true := by
  intro c hc
  simp only [event_calls, List.mem_filterMap] at hc
  obtain ⟨e, he, hec⟩ := hc
  have h1 := h e he
  split at hec
  · cases hec
    exact h1
  · cases hec

theorem filterMap_filter_parse_sample (lines : List (List Char)) :
    (lines.filter (fun l => (parse_sample l).isSome)).filterMap parse_sample
      = lines.filterMap parse_sample := by
  induction lines with
  | nil => rfl
  | cons l ls ih =>
    cases hp : parse_sample l with
    | none =>
      rw [List.filter_cons_of_neg (by simp [hp]), List.filterMap_cons_none hp]
      exact ih
    | some d =>
      rw [List.filter_cons_of_pos (by simp [hp]), List.filterMap_cons_some hp,
        List.filterMap_cons_some hp, ih]

theorem no_alloc_failure_filter (lines : List (List Char)) :
    (no_alloc_failure lines).filter (fun c => (parse_sample c.2).isSome)
      = no_alloc_failure (lines.filter (fun l => (parse_sample l).isSome)) := by
  induction lines with
  | nil => rfl
  | cons l ls ih =>
    cases hp : parse_sample l with
    | none =>
      have h1 : no_alloc_failure (l :: ls) = (true, l) :: no_alloc_failure ls := rfl
      rw [h1, List.filter_cons_of_neg (by simp [hp]), List.filter_cons_of_neg (by simp [hp])]
      exact ih
    | some d =>
      have h1 : no_alloc_failure (l :: ls) = (true, l) :: no_alloc_failure ls := rfl
      rw [h1, List.filter_cons_of_pos (by simp [hp]), List.filter_cons_of_pos (by simp [hp]), ih]
      rfl

/-- With no allocation failing, the counter of the rolling store after any lines. -/
theorem rolling_roll_count_trace (K : Int) (hK : 1 ≤ K) (lines : List (List Char)) :
    (rolling_run_lines (no_alloc_failure lines) (rolling_state.initial K)).roll_count
      = max 0 (((lines.filterMap parse_sample).length : Int) - K) := by
  rw [rolling_run_lines_filter, no_alloc_failure_filter]
  have hwf : ∀ l ∈ lines.filter (fun l => (parse_sample l).isSome), (parse_sample l).isSome := by
    intro l hl
    exact (List.mem_filter.mp hl).2
  obtain ⟨-, -, -, h4, h5⟩ := rolling_trace K hK _ hwf
  rw [h4, ← filterMap_filter_parse_sample, h5]
  omega

theorem rolling_step_roll_count (ok : Bool) (line : List Char) (s : rolling_state) :
    (rolling_csv_parse_line ok line s).2.roll_count
      = if (parse_sample line).isSome ∧ s.csv_data_size ≥ s.csv_buffer_max_size
        then s.roll_count + 1 else s.roll_count := by
  cases hp : parse_sample line with
  | none =>
    rw [(rejected_line ok hp).2 s]
    simp
  | some d =>
    rw [rolling_csv_parse_line_sample ok hp]
    by_cases hfull : s.csv_data_size ≥ s.csv_buffer_max_size
    · simp [hfull]
    · cases ok <;> simp [hfull]

theorem parse_sample_third_field :
    parse_sample "1,2,3".toList = some ⟨lf_value.finite 1, lf_value.finite 2⟩ := by
  simp [parse_sample, sscanf_lf_comma_lf, scan_lf, scan_sign, scan_mantissa, scan_point,
    scan_exponent, starts_with_0x, isspace, isdigit, digits_value, xdigit_value, apply_sign]

theorem parse_sample_trailing_text :
    parse_sample "1.5,2.5abc".toList
      = some ⟨lf_value.finite (3 / 2), lf_value.finite (5 / 2)⟩ := by
  simp [parse_sample, sscanf_lf_comma_lf, scan_lf, scan_sign, scan_mantissa, scan_point,
    scan_exponent, starts_with_0x, isspace, isdigit, digits_value, xdigit_value, apply_sign]
  norm_num

/-- C11, counterexample. The line `1,2,3` is not rejected: `csv_parse_line` returns 0 and
stores the sample `(1, 2)`, in both programs. -/
theorem third_field_line_is_stored :
    csv_parse_line true "1,2,3".toList store_state.initial
      = (0, { csv_data := [⟨lf_value.finite 1, lf_value.finite 2⟩], csv_data_size := 1 }) ∧
    rolling_csv_parse_line true "1,2,3".toList (rolling_state.initial 10)
      = (0, { csv_data := [⟨lf_value.finite 1, lf_value.finite 2⟩], csv_data_size := 1,
              csv_buffer_max_size := 10, roll_count := 0 }) := by
  constructor
  · rw [csv_parse_line_sample true parse_sample_third_field]
    rfl
  · rw [rolling_csv_parse_line_sample true parse_sample_third_field]
    rfl

/-- C11, amended. Every line from which `sscanf` does not obtain two values is rejected:
`csv_parse_line` leaves the store unchanged and returns -1 (0 for the empty line), and
every line from which it obtains two values is accepted with these values.  Text after the
second number does not make a line be rejected when the second number ends before it: a
line made of two unsigned decimal numbers (digits, optionally followed by a point and
digits) with a comma between them, followed by text that is empty or begins with a
character other than a digit, a point, `e`, `E`, `x` and `X`, is accepted and the two
numbers are stored; so `1,2,3` is stored as `(1, 2)` and `1.5,2.5abc` as `(1.5, 2.5)`.
Text that continues the second number can make the line be rejected: `1,0x` and `1,infin`
are. -/
theorem csv_parse_line_ignores_trailing_text :
    (∀ (ok : Bool) (line : List Char), parse_sample line = none →
      (∀ s : store_state, csv_parse_line ok line s = (if line = [] then 0 else -1, s)) ∧
      (∀ s : rolling_state,
        rolling_csv_parse_line ok line s = (if line = [] then 0 else -1, s))) ∧
    (∀ (line : List Char) (d : sample), parse_sample line = some d →
      (∀ s : store_state, s.consistent →
        csv_parse_line true line s
          = (0, { csv_data := s.csv_data ++ [d], csv_data_size := s.csv_data_size + 1 })) ∧
      (∀ s : rolling_state, (rolling_csv_parse_line true line s).1 = 0)) ∧
    (∀ (ip1 ip2 : List Char) (fp1 fp2 : Option (List Char)) (tail : List Char),
      ip1 ≠ [] → (∀ c ∈ ip1, isdigit c = true) →
      (∀ f, fp1 = some f → ∀ c ∈ f, isdigit c = true) →
      ip2 ≠ [] → (∀ c ∈ ip2, isdigit c = true) →
      (∀ f, fp2 = some f → ∀ c ∈ f, isdigit c = true) →
      (∀ c r, tail = c :: r →
        isdigit c = false ∧ c ≠ '.' ∧ c.toLower ≠ 'e' ∧ c.toLower ≠ 'x') →
      parse_sample (decimal_text ip1 fp1 ++ ',' :: (decimal_text ip2 fp2 ++ tail))
        = some ⟨lf_value.finite (decimal_value ip1 fp1),
            lf_value.finite (decimal_value ip2 fp2)⟩ ∧
      (∀ s : store_state, s.consistent →
        csv_parse_line true (decimal_text ip1 fp1 ++ ',' :: (decimal_text ip2 fp2 ++ tail)) s
          = (0, { csv_data := s.csv_data ++
                    [⟨lf_value.finite (decimal_value ip1 fp1),
                      lf_value.finite (decimal_value ip2 fp2)⟩],
                  csv_data_size := s.csv_data_size + 1 })) ∧
      (∀ s : rolling_state,
        (rolling_csv_parse_line true
          (decimal_text ip1 fp1 ++ ',' :: (decimal_text ip2 fp2 ++ tail)) s).1 = 0)) ∧
    parse_sample "1,2,3".toList = some ⟨lf_value.finite 1, lf_value.finite 2⟩ ∧
    parse_sample "1.5,2.5abc".toList
      = some ⟨lf_value.finite (3 / 2), lf_value.finite (5 / 2)⟩ ∧
    "1,2,3".toList
      = decimal_text ['1'] none ++ ',' :: (decimal_text ['2'] none ++ [',', '3']) ∧
    "1.5,2.5abc".toList
      = decimal_text ['1'] (some ['5']) ++
          ',' :: (decimal_text ['2'] (some ['5']) ++ ['a', 'b', 'c']) ∧
    parse_sample "1,0x".toList = none ∧
    parse_sample "1,infin".toList = none := by
  have stored : ∀ (line : List Char) (d : sample), parse_sample line = some d →
      (∀ s : store_state, s.consistent →
        csv_parse_line true line s
          = (0, { csv_data := s.csv_data ++ [d], csv_data_size := s.csv_data_size + 1 })) ∧
      (∀ s : rolling_state, (rolling_csv_parse_line true line s).1 = 0) := by
    intro line d hd
    constructor
    · intro s hs
      rw [csv_parse_line_sample true hd, if_pos rfl, realloc_store_eq _ _ _ hs]
    · intro s
      rw [rolling_csv_parse_line_sample true hd]
      split
      · rfl
      · rfl
  refine ⟨fun ok line h => rejected_line ok h, stored, ?_, parse_sample_third_field,
    parse_sample_trailing_text, by decide, by decide, by decide!, by decide!⟩
  intro ip1 ip2 fp1 fp2 tail hip1 hall1 hfp1 hip2 hall2 hfp2 htail
  have hp := parse_sample_decimal_pair ip1 ip2 fp1 fp2 tail hip1 hall1 hfp1 hip2 hall2 hfp2
    htail
  exact ⟨hp, stored _ _ hp⟩

/-- C12, counterexample. On the command line `-h -s 5` the buffer size 5 is outside
`[10,100000]`, yet `parse_arguments` does not return -1 and `main` does not return 1: the
help option ends the process with status 0 before the size is looked at. -/
theorem help_option_precedes_validation :
    cli_option.out_of_range (cli_option.buffer_size "5".toList) ∧
    parse_arguments config_t.default DEFAULT_CSV_BUFFER_SIZE
        [cli_option.help, cli_option.buffer_size "5".toList] = parse_outcome.exited 0 ∧
    (∀ env : environment,
      rolling_main [cli_option.help, cli_option.buffer_size "5".toList] env
        = (0, [main_call.call_parse_arguments])) := by
  refine ⟨?_, rfl, fun env => rfl⟩
  show atoi "5".toList < 10 ∨ atoi "5".toList > 100000
  left
  decide

/-- C12, amended. The value that is validated is the `int` that `atoi` yields for the
option's argument.  When that `int` is outside `[10,100000]` for a buffer size, outside
`[200,4096]` for a width or height or outside `[10,200]` for a margin, and no help option
precedes the option, `parse_arguments` returns -1 and `main` returns 1 having called neither
`serial_init` nor `wayland_init`; with such an option anywhere on the command line neither
of the two is ever called; and whenever `parse_arguments` returns 0 the four numeric fields
of `config` lie in those ranges and `csv_buffer_max_size` equals `config.csv_buffer_size`.
A digit string that does not fit an `int` is validated by what `atoi` makes of it: the
argument `4294967306` is the size 10 and is accepted. -/
theorem numeric_options_are_validated :
    (∀ (pre post : List cli_option) (bad : cli_option) (env : environment),
      bad.out_of_range → cli_option.help ∉ pre →
      (∃ c m, parse_arguments config_t.default DEFAULT_CSV_BUFFER_SIZE (pre ++ bad :: post)
          = parse_outcome.returned (-1) c m) ∧
      rolling_main (pre ++ bad :: post) env = (1, [main_call.call_parse_arguments])) ∧
    (∀ (options : List cli_option) (env : environment),
      (∃ o ∈ options, cli_option.out_of_range o) →
      main_call.call_serial_init ∉ (rolling_main options env).2 ∧
      main_call.call_wayland_init ∉ (rolling_main options env).2) ∧
    (∀ (options : List cli_option) (c : config_t) (m : Int),
      parse_arguments config_t.default DEFAULT_CSV_BUFFER_SIZE options
        = parse_outcome.returned 0 c m →
      c.in_range ∧ m = c.csv_buffer_size) ∧
    (atoi "4294967306".toList = 10 ∧
      parse_arguments config_t.default DEFAULT_CSV_BUFFER_SIZE
          [cli_option.buffer_size "4294967306".toList]
        = parse_outcome.returned 0
            { config_t.default with
              serial_port := some DEFAULT_SERIAL_PORT, csv_buffer_size := 10 }
            10) := by
  refine ⟨?_, ?_, ?_, by decide, by decide⟩
  · intro pre post bad env hbad hpre
    obtain ⟨c, m, h⟩ := parse_arguments_stops_at_bad bad post hbad pre config_t.default
      DEFAULT_CSV_BUFFER_SIZE hpre
    refine ⟨⟨c, m, h⟩, ?_⟩
    simp [rolling_main, h]
  · intro options env hbad
    have hne := parse_arguments_bad_not_zero options config_t.default DEFAULT_CSV_BUFFER_SIZE hbad
    unfold rolling_main
    split
    · simp
    · rename_i code c m heq
      have hcode : code ≠ 0 := by
        intro h0
        subst h0
        exact hne c m heq
      simp [hcode]
  · intro options c m h
    refine parse_arguments_returns_zero_in_range options config_t.default
      DEFAULT_CSV_BUFFER_SIZE c m ?_ h
    simp [config_t.in_range, config_t.default]

/-- C13, counterexample. The baud argument `1234` is none of the five supported rates, yet
the configuration does not fail: `parse_arguments` returns 0 with the default rate `B9600`,
and `main` goes on to `serial_init`. -/
theorem unsupported_baud_is_accepted :
    atoi "1234".toList = 1234 ∧
    parse_arguments config_t.default DEFAULT_CSV_BUFFER_SIZE [cli_option.baud "1234".toList]
      = parse_outcome.returned 0
          { config_t.default with serial_port := some DEFAULT_SERIAL_PORT, baud_rate := B9600 }
          1000 ∧
    (∀ env : environment,
      main_call.call_serial_init ∈ (rolling_main [cli_option.baud "1234".toList] env).2) := by
  have h1 : atoi "1234".toList = 1234 := by decide
  have h2 : parse_baud_rate "1234".toList = B9600 := by decide
  have h3 : parse_arguments config_t.default DEFAULT_CSV_BUFFER_SIZE
      [cli_option.baud "1234".toList]
      = parse_outcome.returned 0
          { config_t.default with serial_port := some DEFAULT_SERIAL_PORT, baud_rate := B9600 }
          1000 := by
    show parse_outcome.returned 0
        { config_t.default with
          baud_rate := parse_baud_rate "1234".toList, serial_port := some DEFAULT_SERIAL_PORT }
        1000 = _
    rw [h2]
  refine ⟨h1, h3, ?_⟩
  intro env
  simp only [rolling_main, h3]
  simp only [ne_eq, not_true_eq_false, if_false]
  unfold main_after_configuration
  split
  · simp
  · split
    · split <;> simp
    · simp

/-- C13, amended. The value that selects the rate is the `int` that `atoi` yields for the
option's argument.  `parse_baud_rate` maps the `int` values 9600, 19200, 38400, 57600 and
115200 each to its own speed constant; any other `int` is not an error: it is replaced by
the default `B9600`, `parse_arguments` goes on with the next option, and a command line
holding only a baud option makes it return 0.  A digit string that does not fit an `int`
counts as what `atoi` makes of it: the argument `4294986496` is the `int` 19200 and selects
`B19200`. -/
theorem baud_rate_falls_back_to_default :
    (∀ a, atoi a = 9600 → parse_baud_rate a = B9600) ∧
    (∀ a, atoi a = 19200 → parse_baud_rate a = B19200) ∧
    (∀ a, atoi a = 38400 → parse_baud_rate a = B38400) ∧
    (∀ a, atoi a = 57600 → parse_baud_rate a = B57600) ∧
    (∀ a, atoi a = 115200 → parse_baud_rate a = B115200) ∧
    [B9600, B19200, B38400, B57600, B115200].Nodup ∧
    (∀ a, atoi a ≠ 9600 → atoi a ≠ 19200 → atoi a ≠ 38400 → atoi a ≠ 57600 →
      atoi a ≠ 115200 → parse_baud_rate a = B9600) ∧
    (∀ (config : config_t) (max : Int) (a : List Char) (rest : List cli_option),
      parse_arguments config max (cli_option.baud a :: rest)
        = parse_arguments { config with baud_rate := parse_baud_rate a } max rest) ∧
    (∀ a : List Char,
      parse_arguments config_t.default DEFAULT_CSV_BUFFER_SIZE [cli_option.baud a]
        = parse_outcome.returned 0
            { config_t.default with
              serial_port := some DEFAULT_SERIAL_PORT, baud_rate := parse_baud_rate a }
            1000) ∧
    (atoi "4294986496".toList = 19200 ∧ parse_baud_rate "4294986496".toList = B19200) := by
  refine ⟨?_, ?_, ?_, ?_, ?_, by decide, ?_, fun _ _ _ _ => rfl, fun _ => rfl,
    by decide, by decide⟩
  · intro a h; simp [parse_baud_rate, h]
  · intro a h; simp [parse_baud_rate, h]
  · intro a h; simp [parse_baud_rate, h]
  · intro a h; simp [parse_baud_rate, h]
  · intro a h; simp [parse_baud_rate, h]
  · intro a h1 h2 h3 h4 h5; simp [parse_baud_rate, h1, h2, h3, h4, h5]

/-- C14. Line framing: when the reads deliver fewer than `size - 1` bytes, none of them a
line feed or carriage return, and then a line feed or carriage return, `serial_read_line`
stores exactly those bytes and a NUL after them, returns their number, and has consumed the
terminator and nothing after it; the stored line holds no line feed and no carriage
return.  Reads that deliver nothing may come in between. -/
theorem serial_read_line_frames_line (size : Int) (r1 post : List (Option Char)) (t : Char)
    (ht : t = '\n' ∨ t = '\r')
    (hno : ∀ c, some c ∈ r1 → ¬ (c = '\n' ∨ c = '\r'))
    (hlen : ((r1.filterMap id).length : Int) < size - 1) :
    serial_read_line size (r1 ++ some t :: post)
      = some { buffer := r1.filterMap id ++ [Char.ofNat 0],
               index := ((r1.filterMap id).length : Int), unread := post } ∧
    '\n' ∉ r1.filterMap id ∧ '\r' ∉ r1.filterMap id := by
  refine ⟨?_, ?_, ?_⟩
  · have := serial_read_line_loop_framed size post t ht r1 [] 0 hno (by omega)
    simp only [serial_read_line, this]
    simp
  · intro h
    rw [List.mem_filterMap] at h
    obtain ⟨a, ha, ha2⟩ := h
    simp only [id_eq] at ha2
    subst ha2
    exact hno _ ha (Or.inl rfl)
  · intro h
    rw [List.mem_filterMap] at h
    obtain ⟨a, ha, ha2⟩ := h
    simp only [id_eq] at ha2
    subst ha2
    exact hno _ ha (Or.inr rfl)

set_option maxRecDepth 100000 in
/-- C15, counterexample. On a line of 257 bytes `a` followed by a line feed,
`serial_read_line` with the buffer of 256 returns 255, not 256, and stores the first 255
bytes and a NUL; two bytes of the line and the terminator stay unread. -/
theorem long_line_is_cut_at_255 :
    serial_read_line SERIAL_BUFFER_SIZE (List.replicate 257 (some 'a') ++ [some '\n'])
      = some { buffer := List.replicate 255 'a' ++ [Char.ofNat 0], index := 255,
               unread := [some 'a', some 'a', some '\n'] } := by
  decide

/-- C15, amended. When the reads deliver at least 255 bytes before any line feed or carriage
return, `serial_read_line` called with `SERIAL_BUFFER_SIZE = 256` returns 255 and the
stored line is exactly the first 255 of those bytes; the bytes after them, the rest of the
line and its terminator included, stay unread. -/
theorem serial_read_line_truncates_at_255 (r1 rest : List (Option Char))
    (hno : ∀ c, some c ∈ r1 → ¬ (c = '\n' ∨ c = '\r'))
    (hlen : 255 ≤ (r1.filterMap id).length) :
    ∃ u, serial_read_line SERIAL_BUFFER_SIZE (r1 ++ rest)
        = some { buffer := (r1.filterMap id).take 255 ++ [Char.ofNat 0], index := 255,
                 unread := u } ∧
      u.filterMap id = (r1.filterMap id).drop 255 ++ rest.filterMap id := by
  obtain ⟨u, h1, h2⟩ := serial_read_line_loop_full SERIAL_BUFFER_SIZE rest r1 [] 0 255 hno hlen
    (by decide)
  refine ⟨u, ?_, h2⟩
  simp only [serial_read_line, h1]
  rfl

/-- C16, counterexample. After a line whose allocation fails the loop of `serial_thread` is
still running and processes the next line: the store ends up holding that line's sample. -/
theorem ingest_goes_on_after_failed_allocation :
    serial_thread
        [(false, ingest_event.line "1.5,2.5".toList), (true, ingest_event.line "1,2,3".toList)]
        store_state.initial
      = (false, { csv_data := [⟨lf_value.finite 1, lf_value.finite 2⟩], csv_data_size := 1 }) ∧
    rolling_serial_thread
        [(false, ingest_event.line "1.5,2.5".toList), (true, ingest_event.line "1,2,3".toList)]
        (rolling_state.initial 10)
      = (false, { csv_data := [⟨lf_value.finite 1, lf_value.finite 2⟩], csv_data_size := 1,
                  csv_buffer_max_size := 10, roll_count := 0 }) := by
  constructor
  · have h1 : serial_thread_turn false (ingest_event.line "1.5,2.5".toList) store_state.initial
        = (true, store_state.initial) := by
      simp only [serial_thread_turn, csv_parse_line_sample false parse_sample_example]
      rfl
    have h2 : serial_thread_turn true (ingest_event.line "1,2,3".toList) store_state.initial
        = (true, { csv_data := [⟨lf_value.finite 1, lf_value.finite 2⟩],
                   csv_data_size := 1 }) := by
      simp only [serial_thread_turn, csv_parse_line_sample true parse_sample_third_field]
      rfl
    simp only [serial_thread, h1, h2, if_true]
  · have h1 : rolling_serial_thread_turn false (ingest_event.line "1.5,2.5".toList)
        (rolling_state.initial 10) = (true, rolling_state.initial 10) := by
      simp only [rolling_serial_thread_turn,
        rolling_csv_parse_line_sample false parse_sample_example]
      rfl
    have h2 : rolling_serial_thread_turn true (ingest_event.line "1,2,3".toList)
        (rolling_state.initial 10)
        = (true, { csv_data := [⟨lf_value.finite 1, lf_value.finite 2⟩], csv_data_size := 1,
                   csv_buffer_max_size := 10, roll_count := 0 }) := by
      simp only [rolling_serial_thread_turn,
        rolling_csv_parse_line_sample true parse_sample_third_field]
      rfl
    simp only [rolling_serial_thread, h1, h2, if_true]

/-- C16, amended. When `realloc` fails inside `csv_parse_line` the call returns -1 and
leaves the globals as they are; the turn of `serial_thread` does not leave the loop, and the
thread carries on with the following events exactly as if the line had not arrived.  In
the rolling program this concerns the growing path; at capacity no allocation is made. -/
theorem failed_allocation_is_not_fatal (line : List Char) (d : sample)
    (hd : parse_sample line = some d) :
    (∀ s : store_state,
      csv_parse_line false line s = (-1, s) ∧
      serial_thread_turn false (ingest_event.line line) s = (true, s) ∧
      ∀ rest, serial_thread ((false, ingest_event.line line) :: rest) s
        = serial_thread rest s) ∧
    (∀ s : rolling_state, s.csv_data_size < s.csv_buffer_max_size →
      rolling_csv_parse_line false line s = (-1, s) ∧
      rolling_serial_thread_turn false (ingest_event.line line) s = (true, s) ∧
      ∀ rest, rolling_serial_thread ((false, ingest_event.line line) :: rest) s
        = rolling_serial_thread rest s) := by
  constructor
  · intro s
    have h1 : csv_parse_line false line s = (-1, s) := by
      rw [csv_parse_line_sample false hd]
      rfl
    have h2 : serial_thread_turn false (ingest_event.line line) s = (true, s) := by
      simp only [serial_thread_turn, h1]
      split <;> rfl
    refine ⟨h1, h2, ?_⟩
    intro rest
    simp only [serial_thread, h2, if_true]
  · intro s hlt
    have h1 : rolling_csv_parse_line false line s = (-1, s) := by
      rw [rolling_csv_parse_line_sample false hd, if_neg (by omega)]
      rfl
    have h2 : rolling_serial_thread_turn false (ingest_event.line line) s = (true, s) := by
      simp only [rolling_serial_thread_turn, h1]
      split <;> rfl
    refine ⟨h1, h2, ?_⟩
    intro rest
    simp only [rolling_serial_thread, h2, if_true]

/-- C17, counterexample. A well-formed line whose allocation fails, then a failing
`select`: the thread stops with the empty store, although the well-formed line `1.5,2.5`
precedes the read error. -/
theorem stopped_store_misses_unallocated_sample :
    (parse_sample "1.5,2.5".toList).isSome ∧
    serial_thread
        [(false, ingest_event.line "1.5,2.5".toList), (true, ingest_event.select_error)]
        store_state.initial
      = (true, store_state.initial) ∧
    rolling_serial_thread
        [(false, ingest_event.line "1.5,2.5".toList), (true, ingest_event.select_error)]
        (rolling_state.initial 10)
      = (true, rolling_state.initial 10) := by
  refine ⟨by rw [parse_sample_example]; rfl, ?_, ?_⟩
  · have h1 : serial_thread_turn false (ingest_event.line "1.5,2.5".toList) store_state.initial
        = (true, store_state.initial) := by
      simp only [serial_thread_turn, csv_parse_line_sample false parse_sample_example]
      rfl
    simp only [serial_thread, h1, if_true]
    rfl
  · have h1 : rolling_serial_thread_turn false (ingest_event.line "1.5,2.5".toList)
        (rolling_state.initial 10) = (true, rolling_state.initial 10) := by
      simp only [rolling_serial_thread_turn,
        rolling_csv_parse_line_sample false parse_sample_example]
      rfl
    simp only [rolling_serial_thread, h1, if_true]
    rfl

/-- C17, amended. Over events timeout, read error (`select` returning -1) and line: the
loop of `serial_thread` is still running after any events without a read error, and it has
stopped after the first read error, nothing after it being looked at; a timeout or a
malformed line leaves the globals unchanged and the loop running.  The globals when the
loop stops are those reached by calling `csv_parse_line` on the lines that precede the
first read error, in order; when no allocation fails, that is the store with the samples of
the well-formed ones among them appended in order (in the rolling program: the store after
feeding it exactly the well-formed ones). -/
theorem ingest_loop_stops_at_first_read_error :
    (∀ (events : List (Bool × ingest_event)) (s : store_state),
      (∀ e ∈ events, e.2 ≠ ingest_event.select_error) →
      serial_thread events s = (false, run_lines (event_calls events) s)) ∧
    (∀ (pre : List (Bool × ingest_event)) (a : Bool) (post : List (Bool × ingest_event))
      (s : store_state), (∀ e ∈ pre, e.2 ≠ ingest_event.select_error) →
      serial_thread (pre ++ (a, ingest_event.select_error) :: post) s
        = (true, run_lines (event_calls pre) s)) ∧
    (∀ (pre : List (Bool × ingest_event)) (s : store_state),
      (∀ e ∈ pre, e.1 = true) → s.consistent →
      (run_lines (event_calls pre) s).csv_data
        = s.csv_data ++ (event_calls pre).filterMap (fun c => parse_sample c.2) ∧
      (run_lines (event_calls pre) s).csv_data_size
        = s.csv_data_size
          + (((event_calls pre).filterMap (fun c => parse_sample c.2)).length : Int)) ∧
    (∀ (events : List (Bool × ingest_event)) (s : rolling_state),
      (∀ e ∈ events, e.2 ≠ ingest_event.select_error) →
      rolling_serial_thread events s = (false, rolling_run_lines (event_calls events) s)) ∧
    (∀ (pre : List (Bool × ingest_event)) (a : Bool) (post : List (Bool × ingest_event))
      (s : rolling_state), (∀ e ∈ pre, e.2 ≠ ingest_event.select_error) →
      rolling_serial_thread (pre ++ (a, ingest_event.select_error) :: post) s
        = (true, rolling_run_lines (event_calls pre) s)) ∧
    (∀ (pre : List (Bool × ingest_event)) (s : rolling_state),
      rolling_run_lines (event_calls pre) s
        = rolling_run_lines
            ((event_calls pre).filter (fun c => (parse_sample c.2).isSome)) s) ∧
    (∀ (ok : Bool) (s : store_state),
      serial_thread_turn ok ingest_event.timeout s = (true, s)) ∧
    (∀ (ok : Bool) (s : rolling_state),
      rolling_serial_thread_turn ok ingest_event.timeout s = (true, s)) ∧
    (∀ (ok : Bool) (line : List Char), parse_sample line = none →
      (∀ s : store_state, serial_thread_turn ok (ingest_event.line line) s = (true, s)) ∧
      (∀ s : rolling_state,
        rolling_serial_thread_turn ok (ingest_event.line line) s = (true, s))) := by
  refine ⟨serial_thread_no_error, serial_thread_first_error, ?_,
    rolling_serial_thread_no_error, rolling_serial_thread_first_error, ?_,
    fun _ _ => rfl, fun _ _ => rfl, ?_⟩
  · intro pre s hok hs
    exact run_lines_appends (event_calls pre) s (event_calls_all_ok pre hok) hs
  · intro pre s
    exact rolling_run_lines_filter (event_calls pre) s
  · intro ok line hnone
    obtain ⟨h1, h2⟩ := rejected_line ok hnone
    constructor
    · intro s
      simp only [serial_thread_turn, h1 s]
      split <;> rfl
    · intro s
      simp only [rolling_serial_thread_turn, h2 s]
      split <;> rfl

/-- C18, failing input. `open` succeeds with descriptor 3 and `tcgetattr` fails:
`serial_init` returns -1 but leaves `serial_fd = 3`, and `main` creates the ingest thread
(in both programs), runs the render loop and returns 0. -/
theorem thread_started_after_failed_serial_init :
    serial_init { open_result := 3, tcgetattr_ok := false, cfsetispeed_ok := true,
                  cfsetospeed_ok := true, tcsetattr_ok := true, wayland_init_result := 0,
                  pthread_create_result := 0, frames := 1 } = (-1, 3) ∧
    main { open_result := 3, tcgetattr_ok := false, cfsetispeed_ok := true,
           cfsetospeed_ok := true, tcsetattr_ok := true, wayland_init_result := 0,
           pthread_create_result := 0, frames := 1 }
      = (0, [main_call.call_serial_init, main_call.call_wayland_init,
             main_call.call_pthread_create, main_call.call_update_surface,
             main_call.call_pthread_cancel, main_call.call_pthread_join,
             main_call.call_wayland_cleanup, main_call.call_close]) ∧
    rolling_main []
        { open_result := 3, tcgetattr_ok := false, cfsetispeed_ok := true,
          cfsetospeed_ok := true, tcsetattr_ok := true, wayland_init_result := 0,
          pthread_create_result := 0, frames := 1 }
      = (0, [main_call.call_parse_arguments, main_call.call_serial_init,
             main_call.call_wayland_init, main_call.call_pthread_create,
             main_call.call_update_surface, main_call.call_pthread_cancel,
             main_call.call_pthread_join, main_call.call_wayland_cleanup,
             main_call.call_close]) := by
  decide

/-- C20, counterexample. Capacity 1 and three lines that parse, the first with a failing
allocation: one eviction has taken place and `roll_count` is 1, not `max (0, 3 - 1) = 2`. -/
theorem roll_count_after_failed_allocation :
    (rolling_run_lines
        [(false, "1.5,2.5".toList), (true, "1.5,2.5".toList), (true, "1.5,2.5".toList)]
        (rolling_state.initial 1)).roll_count = 1 ∧
    ((["1.5,2.5".toList, "1.5,2.5".toList, "1.5,2.5".toList].filterMap parse_sample).length
      : Int) = 3 := by
  constructor
  · simp only [rolling_run_lines, List.foldl_cons, List.foldl_nil,
      rolling_csv_parse_line_sample _ parse_sample_example]
    rfl
  · rw [List.filterMap_cons_some parse_sample_example,
      List.filterMap_cons_some parse_sample_example,
      List.filterMap_cons_some parse_sample_example]
    rfl

/-- C20, amended. Every call of the rolling `csv_parse_line` adds exactly one to `roll_count`
when it evicts (the line parses and the buffer is full) and leaves it unchanged otherwise;
and after any sequence of calls from the empty store with capacity `K ≥ 1` in which no
allocation fails, `roll_count` is `max (0, n - K)`, `n` being the number of lines that
parsed successfully. -/
theorem roll_count_counts_evictions :
    (∀ (ok : Bool) (line : List Char) (s : rolling_state),
      (rolling_csv_parse_line ok line s).2.roll_count
        = if (parse_sample line).isSome ∧ s.csv_data_size ≥ s.csv_buffer_max_size
          then s.roll_count + 1 else s.roll_count) ∧
    (∀ (K : Int) (lines : List (List Char)), 1 ≤ K →
      (rolling_run_lines (no_alloc_failure lines) (rolling_state.initial K)).roll_count
        = max 0 (((lines.filterMap parse_sample).length : Int) - K)) :=
  ⟨rolling_step_roll_count, fun K lines hK => rolling_roll_count_trace K hK lines⟩

/-! ## Properties of drawing, of refinement and of allocation failure -/

/-- Both programs step alike while the rolling buffer has room for every line still to
come that parses. -/
theorem rolling_refines_from :
    ∀ (lines : List (List Char)) (s : rolling_state) (u : store_state),
      s.csv_data = u.csv_data → s.csv_data_size = u.csv_data_size →
      s.csv_data_size + ((lines.filterMap parse_sample).length : Int)
        ≤ s.csv_buffer_max_size →
      rolling_run_lines_returns (no_alloc_failure lines) s
        = run_lines_returns (no_alloc_failure lines) u ∧
      (rolling_run_lines (no_alloc_failure lines) s).csv_data
        = (run_lines (no_alloc_failure lines) u).csv_data ∧
      (rolling_run_lines (no_alloc_failure lines) s).csv_data_size
        = (run_lines (no_alloc_failure lines) u).csv_data_size ∧
      (rolling_run_lines (no_alloc_failure lines) s).roll_count = s.roll_count := by
  intro lines
  induction lines with
  | nil =>
    intro s u h1 h2 _
    exact ⟨rfl, h1, h2, rfl⟩
  | cons l ls ih =>
    intro s u h1 h2 h3
    have e1 : rolling_run_lines_returns (no_alloc_failure (l :: ls)) s
        = (rolling_csv_parse_line true l s).1
          :: rolling_run_lines_returns (no_alloc_failure ls)
              (rolling_csv_parse_line true l s).2 := rfl
    have e2 : run_lines_returns (no_alloc_failure (l :: ls)) u
        = (csv_parse_line true l u).1
          :: run_lines_returns (no_alloc_failure ls) (csv_parse_line true l u).2 := rfl
    have e3 : rolling_run_lines (no_alloc_failure (l :: ls)) s
        = rolling_run_lines (no_alloc_failure ls) (rolling_csv_parse_line true l s).2 := rfl
    have e4 : run_lines (no_alloc_failure (l :: ls)) u
        = run_lines (no_alloc_failure ls) (csv_parse_line true l u).2 := rfl
    rw [e1, e2, e3, e4]
    cases hp : parse_sample l with
    | none =>
      rw [(rejected_line true hp).1 u, (rejected_line true hp).2 s]
      rw [List.filterMap_cons_none hp] at h3
      obtain ⟨a, b, c, d⟩ := ih s u h1 h2 h3
      exact ⟨by rw [a], b, c, d⟩
    | some d =>
      rw [List.filterMap_cons_some hp] at h3
      simp only [List.length_cons] at h3
      push_cast at h3
      have hlt : ¬ s.csv_data_size ≥ s.csv_buffer_max_size := by omega
      rw [csv_parse_line_sample true hp, rolling_csv_parse_line_sample true hp,
        if_neg hlt, if_pos rfl, if_pos rfl]
      obtain ⟨a, b, c, e⟩ := ih
        { s with csv_data := realloc_store s.csv_data s.csv_data_size d,
                 csv_data_size := s.csv_data_size + 1 }
        { csv_data := realloc_store u.csv_data u.csv_data_size d,
          csv_data_size := u.csv_data_size + 1 }
        (by show realloc_store s.csv_data s.csv_data_size d
              = realloc_store u.csv_data u.csv_data_size d
            rw [h1, h2])
        (by show s.csv_data_size + 1 = u.csv_data_size + 1
            rw [h2])
        (by show s.csv_data_size + 1 + ((ls.filterMap parse_sample).length : Int)
              ≤ s.csv_buffer_max_size
            omega)
      exact ⟨by rw [a], b, c, e⟩

/-- C22. Rolling refines unbounded below capacity: for every capacity `K ≥ 1` and every
sequence of lines of which at most `K` are well-formed, `csv_parse_line` of
`src/rolling/graph.c` and `csv_parse_line` of `src/graph.c`, run over the sequence from the
empty store with every allocation succeeding, return the same value for each line and end
with the same contents and the same length (no eviction having taken place). -/
theorem rolling_refines_unbounded_below_capacity (K : Int) (_hK : 1 ≤ K)
    (lines : List (List Char))
    (hle : ((lines.filterMap parse_sample).length : Int) ≤ K) :
    rolling_run_lines_returns (no_alloc_failure lines) (rolling_state.initial K)
      = run_lines_returns (no_alloc_failure lines) store_state.initial ∧
    (rolling_run_lines (no_alloc_failure lines) (rolling_state.initial K)).csv_data
      = (run_lines (no_alloc_failure lines) store_state.initial).csv_data ∧
    (rolling_run_lines (no_alloc_failure lines) (rolling_state.initial K)).csv_data_size
      = (run_lines (no_alloc_failure lines) store_state.initial).csv_data_size ∧
    (rolling_run_lines (no_alloc_failure lines) (rolling_state.initial K)).roll_count = 0 := by
  refine rolling_refines_from lines (rolling_state.initial K) store_state.initial rfl rfl ?_
  show (0 : Int) + ((lines.filterMap parse_sample).length : Int) ≤ K
  omega


/-- The adjustment against a division by zero keeps the minima and does not lower the
maxima. -/
theorem avoid_division_by_zero_bounds (e : extrema) :
    (avoid_division_by_zero e).min_x = e.min_x ∧
    (avoid_division_by_zero e).min_y = e.min_y ∧
    e.max_x ≤ (avoid_division_by_zero e).max_x ∧
    e.max_y ≤ (avoid_division_by_zero e).max_y := by
  refine ⟨rfl, rfl, ?_, ?_⟩
  · simp only [avoid_division_by_zero]
    split
    · linarith
    · exact le_refl _
  · simp only [avoid_division_by_zero]
    split
    · linarith
    · exact le_refl _

/-- A fraction `(v - lo) * w / d` with `lo ≤ v ≤ lo + d`, `0 < d` and `0 ≤ w` lies between 0
and `w`. -/
theorem scaled_offset_bounds (v lo d w : ℚ) (h1 : lo ≤ v) (h2 : v ≤ lo + d) (hd : 0 < d)
    (hw : 0 ≤ w) : 0 ≤ (v - lo) * w / d ∧ (v - lo) * w / d ≤ w := by
  constructor
  · apply div_nonneg _ (le_of_lt hd)
    exact mul_nonneg (by linarith) hw
  · rw [div_le_iff₀ hd]
    nlinarith

/-- C23. All plotted points stay inside the margin box: for every non-empty snapshot
`d0 :: rest` and every geometry with `2*margin ≤ width` and `2*margin ≤ height`, every
sample of the snapshot is drawn at a pixel with `margin ≤ px ≤ width - margin` and
`margin ≤ py ≤ height - margin`, over exact arithmetic and whether or not an axis is
degenerate. -/
theorem plotted_points_inside_margin_box (g : geometry) (d0 : point) (rest : List point)
    (hw : 2 * g.graph_margin ≤ g.graph_width) (hh : 2 * g.graph_margin ≤ g.graph_height) :
    ∀ s ∈ d0 :: rest,
      (g.graph_margin : ℚ) ≤ (pixel (graph_transform g d0 rest) s).1 ∧
      (pixel (graph_transform g d0 rest) s).1 ≤ (g.graph_width : ℚ) - (g.graph_margin : ℚ) ∧
      (g.graph_margin : ℚ) ≤ (pixel (graph_transform g d0 rest) s).2 ∧
      (pixel (graph_transform g d0 rest) s).2
        ≤ (g.graph_height : ℚ) - (g.graph_margin : ℚ) := by
  intro s hs
  obtain ⟨b1, b2, b3, b4⟩ := scan_extrema_bounds d0 rest s hs
  obtain ⟨a1, a2, a3, a4⟩ := avoid_division_by_zero_bounds (scan_extrema d0 rest)
  obtain ⟨dx, dy⟩ := divisors_pos d0 rest
  obtain ⟨px, py⟩ := pixel_graph_transform g d0 rest s
  have hW : (0 : ℚ) ≤ ((g.graph_width - 2 * g.graph_margin : Int) : ℚ) := by
    have : (0 : Int) ≤ g.graph_width - 2 * g.graph_margin := by omega
    exact_mod_cast this
  have hH : (0 : ℚ) ≤ ((g.graph_height - 2 * g.graph_margin : Int) : ℚ) := by
    have : (0 : Int) ≤ g.graph_height - 2 * g.graph_margin := by omega
    exact_mod_cast this
  obtain ⟨x1, x2⟩ := scaled_offset_bounds s.x
    (avoid_division_by_zero (scan_extrema d0 rest)).min_x
    ((avoid_division_by_zero (scan_extrema d0 rest)).max_x
      - (avoid_division_by_zero (scan_extrema d0 rest)).min_x)
    ((g.graph_width - 2 * g.graph_margin : Int) : ℚ)
    (by rw [a1]; exact b1) (by linarith) dx hW
  obtain ⟨y1, y2⟩ := scaled_offset_bounds s.y
    (avoid_division_by_zero (scan_extrema d0 rest)).min_y
    ((avoid_division_by_zero (scan_extrema d0 rest)).max_y
      - (avoid_division_by_zero (scan_extrema d0 rest)).min_y)
    ((g.graph_height - 2 * g.graph_margin : Int) : ℚ)
    (by rw [a2]; exact b3) (by linarith) dy hH
  rw [px, py]
  push_cast at x1 x2 y1 y2 ⊢
  refine ⟨by linarith, by linarith, by linarith, by linarith⟩

/-- C24. Append is atomic on allocation failure: when `realloc` fails inside
`csv_parse_line` (a line that parses, and in the rolling program a buffer that is not full)
the call returns -1 and every global is as before the call: the array, its contents,
`csv_data_size`, and in the rolling program `csv_buffer_max_size` and `roll_count`.  On a
full buffer the rolling program takes the eviction path, which allocates nothing: it
returns 0 and does the same whatever an allocation would have answered. -/
theorem append_is_atomic_on_allocation_failure (line : List Char) (d : sample)
    (hd : parse_sample line = some d) :
    (∀ s : store_state, csv_parse_line false line s = (-1, s)) ∧
    (∀ s : rolling_state, s.csv_data_size < s.csv_buffer_max_size →
      rolling_csv_parse_line false line s = (-1, s)) ∧
    (∀ s : rolling_state, s.csv_data_size ≥ s.csv_buffer_max_size →
      rolling_csv_parse_line false line s = rolling_csv_parse_line true line s ∧
      (rolling_csv_parse_line false line s).1 = 0 ∧
      (rolling_csv_parse_line false line s).2.csv_data_size = s.csv_data_size) := by
  refine ⟨?_, ?_, ?_⟩
  · intro s
    rw [csv_parse_line_sample false hd]
    rfl
  · intro s hlt
    rw [rolling_csv_parse_line_sample false hd, if_neg (by omega)]
    rfl
  · intro s hge
    rw [rolling_csv_parse_line_sample false hd, rolling_csv_parse_line_sample true hd,
      if_pos hge, if_pos hge]
    exact ⟨rfl, rfl, rfl⟩


/-- C21. Empty snapshot takes the placeholder path: when `csv_data_size` is not positive,
`draw_graph` draws the text "Waiting for data..." (followed in the rolling program by the
buffer-size line), whatever `csv_data` holds, so it reads no element, and it emits no
`line_to` and no `stroke`; when the store holds `csv_data_size > 0` elements it emits one
`move_to` for sample 0, then exactly one `line_to` per remaining sample in store order, then
the stroke (followed in the rolling program by the status line and the axis labels), the
pixels being those of the transform computed from the extrema.  So the polyline is stroked
if and only if `csv_data_size > 0`. -/
theorem empty_store_draws_placeholder :
    (∀ (g : geometry) (csv_data : List point) (csv_data_size : Int), csv_data_size ≤ 0 →
      draw_graph_store g csv_data csv_data_size
        = [draw_command.move_to ((Int.tdiv g.graph_width 2 - 80 : Int) : ℚ)
             ((Int.tdiv g.graph_height 2 : Int) : ℚ),
           draw_command.show_text "Waiting for data..."]) ∧
    (∀ (fmt : text_format) (g : geometry) (max : Int) (csv_data : List point)
      (csv_data_size : Int), csv_data_size ≤ 0 →
      rolling_draw_graph fmt g max csv_data csv_data_size
        = [draw_command.move_to ((Int.tdiv g.graph_width 2 - 80 : Int) : ℚ)
             ((Int.tdiv g.graph_height 2 : Int) : ℚ),
           draw_command.show_text "Waiting for data...",
           draw_command.move_to ((Int.tdiv g.graph_width 2 - 100 : Int) : ℚ)
             ((Int.tdiv g.graph_height 2 + 30 : Int) : ℚ),
           draw_command.show_text ("Buffer size: " ++ fmt.int_text max ++ " points")]) ∧
    (∀ (g : geometry) (d0 : point) (rest : List point) (csv_data_size : Int),
      csv_data_size = ((d0 :: rest).length : Int) →
      draw_graph_store g (d0 :: rest) csv_data_size
        = draw_command.move_to (pixel (graph_transform g d0 rest) d0).1
              (pixel (graph_transform g d0 rest) d0).2
            :: rest.map (fun d => draw_command.line_to (pixel (graph_transform g d0 rest) d).1
                (pixel (graph_transform g d0 rest) d).2)
            ++ [draw_command.stroke]) ∧
    (∀ (fmt : text_format) (g : geometry) (max : Int) (d0 : point) (rest : List point)
      (csv_data_size : Int), csv_data_size = ((d0 :: rest).length : Int) →
      rolling_draw_graph fmt g max (d0 :: rest) csv_data_size
        = (draw_command.move_to (pixel (graph_transform g d0 rest) d0).1
              (pixel (graph_transform g d0 rest) d0).2
            :: rest.map (fun d => draw_command.line_to (pixel (graph_transform g d0 rest) d).1
                (pixel (graph_transform g d0 rest) d).2)
            ++ [draw_command.stroke])
          ++ rolling_texts fmt g max csv_data_size
              (avoid_division_by_zero (scan_extrema d0 rest))) ∧
    (∀ (fmt : text_format) (g : geometry) (max : Int) (csv_data : List point)
      (csv_data_size : Int), (csv_data.length : Int) = csv_data_size →
      (0 < csv_data_size ↔ draw_command.stroke ∈ draw_graph_store g csv_data csv_data_size) ∧
      (0 < csv_data_size
        ↔ draw_command.stroke ∈ rolling_draw_graph fmt g max csv_data csv_data_size)) := by
  have e1 : ∀ (g : geometry) (csv_data : List point) (csv_data_size : Int),
      csv_data_size ≤ 0 →
      draw_graph_store g csv_data csv_data_size
        = [draw_command.move_to ((Int.tdiv g.graph_width 2 - 80 : Int) : ℚ)
             ((Int.tdiv g.graph_height 2 : Int) : ℚ),
           draw_command.show_text "Waiting for data..."] := by
    intro g csv_data n hn
    rw [draw_graph_store, if_neg (by omega)]
    rfl
  have e2 : ∀ (fmt : text_format) (g : geometry) (max : Int) (csv_data : List point)
      (csv_data_size : Int), csv_data_size ≤ 0 →
      rolling_draw_graph fmt g max csv_data csv_data_size
        = [draw_command.move_to ((Int.tdiv g.graph_width 2 - 80 : Int) : ℚ)
             ((Int.tdiv g.graph_height 2 : Int) : ℚ),
           draw_command.show_text "Waiting for data...",
           draw_command.move_to ((Int.tdiv g.graph_width 2 - 100 : Int) : ℚ)
             ((Int.tdiv g.graph_height 2 + 30 : Int) : ℚ),
           draw_command.show_text ("Buffer size: " ++ fmt.int_text max ++ " points")] := by
    intro fmt g max csv_data n hn
    rw [rolling_draw_graph, if_neg (by omega)]
  have htake : ∀ (d0 : point) (rest : List point) (n : Int),
      n = ((d0 :: rest).length : Int) → (d0 :: rest).take n.toNat = d0 :: rest := by
    intro d0 rest n hn
    apply List.take_of_length_le
    omega
  have e3 : ∀ (g : geometry) (d0 : point) (rest : List point) (csv_data_size : Int),
      csv_data_size = ((d0 :: rest).length : Int) →
      draw_graph_store g (d0 :: rest) csv_data_size
        = draw_command.move_to (pixel (graph_transform g d0 rest) d0).1
              (pixel (graph_transform g d0 rest) d0).2
            :: rest.map (fun d => draw_command.line_to (pixel (graph_transform g d0 rest) d).1
                (pixel (graph_transform g d0 rest) d).2)
            ++ [draw_command.stroke] := by
    intro g d0 rest n hn
    have hpos : n > 0 := by
      simp only [List.length_cons] at hn
      push_cast at hn
      omega
    rw [draw_graph_store, if_pos hpos, htake d0 rest n hn]
    rfl
  have e4 : ∀ (fmt : text_format) (g : geometry) (max : Int) (d0 : point)
      (rest : List point) (csv_data_size : Int),
      csv_data_size = ((d0 :: rest).length : Int) →
      rolling_draw_graph fmt g max (d0 :: rest) csv_data_size
        = (draw_command.move_to (pixel (graph_transform g d0 rest) d0).1
              (pixel (graph_transform g d0 rest) d0).2
            :: rest.map (fun d => draw_command.line_to (pixel (graph_transform g d0 rest) d).1
                (pixel (graph_transform g d0 rest) d).2)
            ++ [draw_command.stroke])
          ++ rolling_texts fmt g max csv_data_size
              (avoid_division_by_zero (scan_extrema d0 rest)) := by
    intro fmt g max d0 rest n hn
    have hpos : n > 0 := by
      simp only [List.length_cons] at hn
      push_cast at hn
      omega
    rw [rolling_draw_graph, if_pos hpos, htake d0 rest n hn]
    rfl
  refine ⟨e1, e2, e3, e4, ?_⟩
  intro fmt g max csv_data n hlen
  cases csv_data with
  | nil =>
    have hn : n = 0 := by simpa using hlen.symm
    subst hn
    rw [e1 g [] 0 (le_refl _), e2 fmt g max [] 0 (le_refl _)]
    simp
  | cons d0 rest =>
    have hpos : 0 < n := by
      simp only [List.length_cons] at hlen
      push_cast at hlen
      omega
    rw [e3 g d0 rest n hlen.symm, e4 fmt g max d0 rest n hlen.symm]
    simp [hpos]

/-! ## Worked instances -/

/-- Instance of C1: capacity 10 and eleven lines `1.5,2.5`. -/
theorem rolling_store_holds_last_samples_witness :
    (rolling_run_lines (no_alloc_failure (List.replicate 11 "1.5,2.5".toList))
      (rolling_state.initial 10)).csv_data_size
        = min ((List.replicate 11 "1.5,2.5".toList).length : Int) 10 :=
  (rolling_store_holds_last_samples 10 (by decide) (by decide)
    (List.replicate 11 "1.5,2.5".toList)
    (fun l hl => by rw [List.eq_of_mem_replicate hl, parse_sample_example]; rfl)).1

/-- Instance of C2: two lines `1.5,2.5`. -/
theorem unbounded_store_holds_all_samples_witness :
    (run_lines (no_alloc_failure ["1.5,2.5".toList, "1.5,2.5".toList])
      store_state.initial).csv_data_size
        = (["1.5,2.5".toList, "1.5,2.5".toList].length : Int) :=
  (unbounded_store_holds_all_samples ["1.5,2.5".toList, "1.5,2.5".toList]
    (fun l hl => by
      have : l = "1.5,2.5".toList := by
        simp only [List.mem_cons, List.mem_singleton, List.not_mem_nil, or_false, or_self] at hl
        exact hl
      rw [this, parse_sample_example]; rfl)).1

/-- Instance of C3: a full store of capacity 1 receiving `1.5,2.5`. -/
theorem rolling_append_at_capacity_witness :
    (rolling_csv_parse_line true "1.5,2.5".toList
      { csv_data := [⟨lf_value.finite 0, lf_value.finite 0⟩], csv_data_size := 1,
        csv_buffer_max_size := 1, roll_count := 0 }).2.csv_data
      = List.drop 1 [⟨lf_value.finite 0, lf_value.finite 0⟩]
          ++ [⟨lf_value.finite (3 / 2), lf_value.finite (5 / 2)⟩] :=
  (rolling_append_at_capacity true "1.5,2.5".toList
    ⟨lf_value.finite (3 / 2), lf_value.finite (5 / 2)⟩
    { csv_data := [⟨lf_value.finite 0, lf_value.finite 0⟩], csv_data_size := 1,
      csv_buffer_max_size := 1, roll_count := 0 }
    rfl rfl (by decide) parse_sample_example).2.2.2.1

/-- Instance of C4: capacity 10, a malformed line with a failing allocation, then a good line. -/
theorem rolling_size_within_capacity_witness :
    0 ≤ (rolling_run_lines [(false, "abc".toList), (true, "1.5,2.5".toList)]
          (rolling_state.initial 10)).csv_data_size ∧
    (rolling_run_lines [(false, "abc".toList), (true, "1.5,2.5".toList)]
          (rolling_state.initial 10)).csv_data_size ≤ 10 :=
  rolling_size_within_capacity 10 (by decide) (by decide)
    [(false, "abc".toList), (true, "1.5,2.5".toList)]

/-- Instance of C10: the line `none,5`, which does not start with a number although its
first letter is that of `nan`, on the empty store. -/
theorem csv_parse_line_accepts_and_rejects_witness :
    csv_parse_line true "none,5".toList store_state.initial
        = (if "none,5".toList = [] then 0 else -1, store_state.initial) ∧
    serial_thread_turn true (ingest_event.line "none,5".toList) store_state.initial
        = (true, store_state.initial) :=
  ((csv_parse_line_accepts_and_rejects.2.2.2.2.1 "none,5".toList
    (Or.inr (Or.inl (fun d r h => by
      have hdr : ['n', 'o', 'n', 'e', ',', '5'] = d :: r := by
        simpa [scan_sign, isspace] using h
      cases hdr
      exact ⟨by decide, fun hp => absurd hp (by decide), by decide, by decide⟩))) true).1
    store_state.initial)

/-- Instance of C5: the sample `(10,5)` of `[(0,0),(10,5)]` attains `max_x`. -/
theorem affine_map_hits_margin_box_witness :
    (pixel (graph_transform default_geometry ⟨0, 0⟩ [⟨10, 5⟩]) ⟨10, 5⟩).1
      = (default_geometry.graph_width : ℚ) - (default_geometry.graph_margin : ℚ) :=
  (affine_map_hits_margin_box.2.2.2 default_geometry ⟨0, 0⟩ [⟨10, 5⟩]
    (by norm_num [scan_extrema, extrema_step, extrema_init])
    (by norm_num [scan_extrema, extrema_step, extrema_init])
    ⟨10, 5⟩ (by simp)).2.1
    (by norm_num [scan_extrema, extrema_step, extrema_init])

/-- Instance of C8: the flat x axis of `[(5,1),(5,2)]`. -/
theorem scale_divisors_positive_witness :
    (avoid_division_by_zero (scan_extrema ⟨5, 1⟩ [⟨5, 2⟩])).max_x
      - (avoid_division_by_zero (scan_extrema ⟨5, 1⟩ [⟨5, 2⟩])).min_x = 1 :=
  (scale_divisors_positive default_geometry ⟨5, 1⟩ [⟨5, 2⟩]).2.2.2.2.1
    (fun s hs => by
      simp only [List.mem_cons, List.mem_singleton, List.not_mem_nil, or_false] at hs
      rcases hs with h | h <;> rw [h])

/-- Instance of C7: a snapshot of three samples with an infinity and a negative zero, and
without NaN. -/
theorem double_scan_extrema_are_extrema_witness :
    (∀ s ∈ [(⟨binary64.finite 3, binary64.infinity false⟩ : double_point),
        ⟨binary64.neg_zero, binary64.finite 2⟩, ⟨binary64.finite (-1), binary64.finite 7⟩],
      s.x ≠ binary64.nan ∧ s.y ≠ binary64.nan) ∧
    double_scan_extrema ⟨binary64.finite 3, binary64.infinity false⟩
        [⟨binary64.neg_zero, binary64.finite 2⟩, ⟨binary64.finite (-1), binary64.finite 7⟩]
      = ⟨binary64.finite (-1), binary64.finite 3, binary64.finite 2, binary64.infinity false⟩ ∧
    (∀ s ∈ [(⟨binary64.finite 3, binary64.infinity false⟩ : double_point),
        ⟨binary64.neg_zero, binary64.finite 2⟩, ⟨binary64.finite (-1), binary64.finite 7⟩],
      binary64.le
          (double_scan_extrema ⟨binary64.finite 3, binary64.infinity false⟩
            [⟨binary64.neg_zero, binary64.finite 2⟩,
              ⟨binary64.finite (-1), binary64.finite 7⟩]).min_x s.x = true ∧
      binary64.le s.x
          (double_scan_extrema ⟨binary64.finite 3, binary64.infinity false⟩
            [⟨binary64.neg_zero, binary64.finite 2⟩,
              ⟨binary64.finite (-1), binary64.finite 7⟩]).max_x = true ∧
      binary64.le
          (double_scan_extrema ⟨binary64.finite 3, binary64.infinity false⟩
            [⟨binary64.neg_zero, binary64.finite 2⟩,
              ⟨binary64.finite (-1), binary64.finite 7⟩]).min_y s.y = true ∧
      binary64.le s.y
          (double_scan_extrema ⟨binary64.finite 3, binary64.infinity false⟩
            [⟨binary64.neg_zero, binary64.finite 2⟩,
              ⟨binary64.finite (-1), binary64.finite 7⟩]).max_y = true) :=
  ⟨by decide!, by decide!,
    (double_scan_extrema_are_extrema ⟨binary64.finite 3, binary64.infinity false⟩
      [⟨binary64.neg_zero, binary64.finite 2⟩, ⟨binary64.finite (-1), binary64.finite 7⟩]
      (by decide!)).2⟩

/-- Instance of C9: `(10,5)` is drawn above `(0,0)` at 800 x 600 with margin 50. -/
theorem pixel_mapping_monotone_witness :
    (pixel (graph_transform default_geometry ⟨0, 0⟩ [⟨10, 5⟩]) ⟨10, 5⟩).2
      < (pixel (graph_transform default_geometry ⟨0, 0⟩ [⟨10, 5⟩]) ⟨0, 0⟩).2 :=
  (pixel_mapping_monotone default_geometry ⟨0, 0⟩ [⟨10, 5⟩] ⟨0, 0⟩ ⟨10, 5⟩).1
    (by decide) (by norm_num)

/-- Instance of C11: the line `abc` yields no value and is rejected with -1; the line
`1.5,2.5abc` is two decimal numbers followed by text that begins with `a`, and is stored
as `(1.5, 2.5)`. -/
theorem csv_parse_line_ignores_trailing_text_witness :
    csv_parse_line true "abc".toList store_state.initial
      = (if "abc".toList = [] then 0 else -1, store_state.initial) ∧
    decimal_text ['1'] (some ['5']) ++
        ',' :: (decimal_text ['2'] (some ['5']) ++ ['a', 'b', 'c']) = "1.5,2.5abc".toList ∧
    decimal_value ['1'] (some ['5']) = 3 / 2 ∧
    decimal_value ['2'] (some ['5']) = 5 / 2 ∧
    csv_parse_line true
        (decimal_text ['1'] (some ['5']) ++
          ',' :: (decimal_text ['2'] (some ['5']) ++ ['a', 'b', 'c']))
        store_state.initial
      = (0, { csv_data := store_state.initial.csv_data ++
                [⟨lf_value.finite (decimal_value ['1'] (some ['5'])),
                  lf_value.finite (decimal_value ['2'] (some ['5']))⟩],
              csv_data_size := store_state.initial.csv_data_size + 1 }) :=
  ⟨(csv_parse_line_ignores_trailing_text.1 true "abc".toList
      (parse_sample_no_comma (by decide))).1 store_state.initial,
    by decide, by decide!, by decide!,
    (csv_parse_line_ignores_trailing_text.2.2.1 ['1'] ['2'] (some ['5']) (some ['5'])
      ['a', 'b', 'c'] (by decide) (by decide)
      (fun f h c hc => by
        cases h
        simp only [List.mem_singleton] at hc
        subst hc
        decide)
      (by decide) (by decide)
      (fun f h c hc => by
        cases h
        simp only [List.mem_singleton] at hc
        subst hc
        decide)
      (fun c r h => by
        cases h
        exact ⟨by decide, by decide, by decide, by decide⟩)).2.1 store_state.initial
      rfl⟩

/-- Instance of C12: `-p /dev/ttyUSB0 -s 5`. -/
theorem numeric_options_are_validated_witness :
    rolling_main [cli_option.port "/dev/ttyUSB0".toList, cli_option.buffer_size "5".toList]
        { open_result := 3, tcgetattr_ok := true, cfsetispeed_ok := true,
          cfsetospeed_ok := true, tcsetattr_ok := true, wayland_init_result := 0,
          pthread_create_result := 0, frames := 1 }
      = (1, [main_call.call_parse_arguments]) :=
  (numeric_options_are_validated.1 [cli_option.port "/dev/ttyUSB0".toList] []
    (cli_option.buffer_size "5".toList)
    { open_result := 3, tcgetattr_ok := true, cfsetispeed_ok := true,
      cfsetospeed_ok := true, tcsetattr_ok := true, wayland_init_result := 0,
      pthread_create_result := 0, frames := 1 }
    (Or.inl (by decide)) (by decide)).2

/-- Instance of C13: the baud value `115200`. -/
theorem baud_rate_falls_back_to_default_witness :
    parse_baud_rate "115200".toList = B115200 :=
  baud_rate_falls_back_to_default.2.2.2.2.1 "115200".toList (by decide)

/-- Instance of C14: the bytes `a`, `b` with a failed read in between, a line feed, then
`c`, read into a buffer of 256. -/
theorem serial_read_line_frames_line_witness :
    serial_read_line 256 ([some 'a', none, some 'b'] ++ some '\n' :: [some 'c'])
      = some { buffer := [some 'a', none, some 'b'].filterMap id ++ [Char.ofNat 0],
               index := (([some 'a', none, some 'b'].filterMap id).length : Int),
               unread := [some 'c'] } :=
  (serial_read_line_frames_line 256 [some 'a', none, some 'b'] [some 'c'] '\n' (Or.inl rfl)
    (fun c hc => by
      simp only [List.mem_cons, Option.some.injEq, List.mem_singleton, List.not_mem_nil,
        or_false, reduceCtorEq, false_or] at hc
      rcases hc with h | h <;> subst h <;> decide)
    (by decide)).1

set_option maxRecDepth 100000 in
/-- Instance of C15: 255 bytes `a` followed by a byte `b`. -/
theorem serial_read_line_truncates_at_255_witness :
    ∃ u, serial_read_line SERIAL_BUFFER_SIZE (List.replicate 255 (some 'a') ++ [some 'b'])
        = some { buffer := ((List.replicate 255 (some 'a')).filterMap id).take 255
                   ++ [Char.ofNat 0],
                 index := 255, unread := u } ∧
      u.filterMap id = ((List.replicate 255 (some 'a')).filterMap id).drop 255
        ++ [some 'b'].filterMap id :=
  serial_read_line_truncates_at_255 (List.replicate 255 (some 'a')) [some 'b']
    (fun c hc => by
      have := List.eq_of_mem_replicate hc
      simp only [Option.some.injEq] at this
      subst this
      decide)
    (by decide)

/-- Instance of C16: the line `1.5,2.5` with a failing allocation on the empty store. -/
theorem failed_allocation_is_not_fatal_witness :
    csv_parse_line false "1.5,2.5".toList store_state.initial = (-1, store_state.initial) :=
  ((failed_allocation_is_not_fatal "1.5,2.5".toList _ parse_sample_example).1
    store_state.initial).1

/-- Instance of C17: a timeout followed by a read error. -/
theorem ingest_loop_stops_at_first_read_error_witness :
    serial_thread ([(true, ingest_event.timeout)] ++ (true, ingest_event.select_error) :: [])
        store_state.initial
      = (true, run_lines (event_calls [(true, ingest_event.timeout)]) store_state.initial) :=
  ingest_loop_stops_at_first_read_error.2.1 [(true, ingest_event.timeout)] true []
    store_state.initial (by decide)

/-- Instance of C20: capacity 1 and three lines `1.5,2.5`. -/
theorem roll_count_counts_evictions_witness :
    (rolling_run_lines
        (no_alloc_failure ["1.5,2.5".toList, "1.5,2.5".toList, "1.5,2.5".toList])
        (rolling_state.initial 1)).roll_count
      = max 0 (((["1.5,2.5".toList, "1.5,2.5".toList, "1.5,2.5".toList].filterMap
          parse_sample).length : Int) - 1) :=
  roll_count_counts_evictions.2 1 ["1.5,2.5".toList, "1.5,2.5".toList, "1.5,2.5".toList]
    (by decide)

/-- Instance of C21: `csv_data_size = 0` over an array that still holds a stale element. -/
theorem empty_store_draws_placeholder_witness :
    draw_graph_store default_geometry [⟨1, 1⟩] 0
      = [draw_command.move_to ((Int.tdiv default_geometry.graph_width 2 - 80 : Int) : ℚ)
           ((Int.tdiv default_geometry.graph_height 2 : Int) : ℚ),
         draw_command.show_text "Waiting for data..."] :=
  empty_store_draws_placeholder.1 default_geometry [⟨1, 1⟩] 0 (by decide)

/-- Instance of C22: capacity 2, one well-formed line and one malformed line. -/
theorem rolling_refines_unbounded_below_capacity_witness :
    rolling_run_lines_returns (no_alloc_failure ["1.5,2.5".toList, "abc".toList])
        (rolling_state.initial 2)
      = run_lines_returns (no_alloc_failure ["1.5,2.5".toList, "abc".toList])
          store_state.initial :=
  (rolling_refines_unbounded_below_capacity 2 (by decide)
    ["1.5,2.5".toList, "abc".toList] (by decide)).1

/-- Instance of C23: the sample `(10,5)` of `[(0,0),(10,5)]` at 800 x 600 with margin 50. -/
theorem plotted_points_inside_margin_box_witness :
    (default_geometry.graph_margin : ℚ)
        ≤ (pixel (graph_transform default_geometry ⟨0, 0⟩ [⟨10, 5⟩]) ⟨10, 5⟩).1 ∧
    (pixel (graph_transform default_geometry ⟨0, 0⟩ [⟨10, 5⟩]) ⟨10, 5⟩).1
        ≤ (default_geometry.graph_width : ℚ) - (default_geometry.graph_margin : ℚ) ∧
    (default_geometry.graph_margin : ℚ)
        ≤ (pixel (graph_transform default_geometry ⟨0, 0⟩ [⟨10, 5⟩]) ⟨10, 5⟩).2 ∧
    (pixel (graph_transform default_geometry ⟨0, 0⟩ [⟨10, 5⟩]) ⟨10, 5⟩).2
        ≤ (default_geometry.graph_height : ℚ) - (default_geometry.graph_margin : ℚ) :=
  plotted_points_inside_margin_box default_geometry ⟨0, 0⟩ [⟨10, 5⟩] (by decide) (by decide)
    ⟨10, 5⟩ (by simp)

/-- Instance of C24: the line `1.5,2.5` with a failing allocation on the empty store. -/
theorem append_is_atomic_on_allocation_failure_witness :
    csv_parse_line false "1.5,2.5".toList store_state.initial = (-1, store_state.initial) :=
  (append_is_atomic_on_allocation_failure "1.5,2.5".toList _ parse_sample_example).1
    store_state.initial

end WaylandPlotter
